import Mathlib

/-!
# Localisation binding of the kid-size robot: consistency watchdog and tick gating

Shallow embedding of `Vision/Binding/LocalisationBinding.cpp` (together with the parts of
`Motion/services/RefereeService.cpp` it queries).  Real numbers (`double`) are modelled by
exact rationals, time stamps by their value in seconds.  Stateful member functions become
functions from binding state to binding state; the values read from collaborators during one
tick (clock, referee, fall detection, vision, odometry, configuration bus) are collected in a
`TickEnv`.  Every call made to the particle filter and to the publication sinks is appended
to a ghost call log so that "was invoked" statements can be expressed.
-/

namespace Vision

/-! ## Basic data -/

/-- A time stamp, represented by its value in seconds. -/
abbrev TimeStamp := ℚ

/-- Seconds elapsed from `src` to `dst` (`rhoban_utils::diffSec`). -/
def diffSec (src dst : TimeStamp) : ℚ := dst - src

/-- Value of a time stamp in milliseconds (`TimeStamp::getTimeMS`). -/
def getTimeMS (t : TimeStamp) : ℚ := t * 1000

structure Point2f where
  x : ℚ
  y : ℚ

structure Point3f where
  x : ℚ
  y : ℚ
  z : ℚ

/-- A pose on the field (`Localisation::FieldPosition`). -/
structure FieldPosition where
  x : ℚ
  y : ℚ
  orientation : ℚ

structure PanTilt where
  pan : ℚ
  tilt : ℚ

/-! ## Observations -/

/-- A landmark-feature sighting (`Localisation::FeatureObservation`). -/
structure FeatureObservation where
  poiType : Nat
  panTilt : PanTilt
  robotHeight : ℚ
  weight : ℚ

/-- A fiducial-tag sighting (`Localisation::TagsObservation`), built by
`TagsObservation(id, seenPos, stdDev, robotHeight, weight)`. -/
structure TagsObservation where
  id : Int
  seenPos : Point3f
  stdDev : Point3f
  robotHeight : ℚ
  weight : ℚ

/-- The polymorphic `rhoban_unsorted::Observation<FieldPosition>*` of the source, as a closed
variant over the three classes that `extractObservations` instantiates. -/
inductive Observation where
  | feature (o : FeatureObservation)
  | tags (o : TagsObservation)
  | field (isGoalKeeper : Bool)

/-- The motion model handed to the filter (`RobotController rc(move, orientationChange,
noiseGain)`). -/
structure RobotController where
  move : Point2f
  orientationChange : ℚ
  noiseGain : ℚ

/-! ## The particle filter -/

/-- Reset kinds of the field particle filter (`FieldPF::ResetType`). -/
inductive ResetType where
  | None
  | Uniform
  | Custom
  | Fall
  | Borders
  deriving DecidableEq

/-- Parameters of a custom reset, the values `customX`, ... of the configuration node
`/localisation/field/fieldPF`. -/
structure CustomReset where
  customX : ℚ
  customY : ℚ
  customNoise : ℚ
  customTheta : ℚ
  customThetaNoise : ℚ

/-- Modelled from the spec: the population-level operations of `Localisation::FieldPF`
(its implementation is not among the sources).  `P` is the type of particle populations;
the stochastic reseeding, resizing and motion/observation update are left abstract, as are
the statistics derived from a population. -/
structure FilterModel (P : Type) where
  resetParticles : ResetType → CustomReset → P → P
  resizeParticles : Int → P → P
  updateParticles : RobotController → List Observation → ℚ → P → P
  representativeParticle : P → FieldPosition
  representativeQuality : P → ℚ
  centerPositionInSelf : P → Point2f
  orientation : P → ℚ
  positionsFromClusters : P → List Point3f

/-- Modelled from the spec: the state of `Localisation::FieldPF`, a particle population and a
single pending reset slot (`None` when no reset is pending). -/
structure FieldPF (P : Type) where
  particles : P
  resetType : ResetType

namespace FieldPF

variable {P : Type}

/-- Modelled from the spec: `FieldPF::askForReset(type)` overwrites the pending slot
(last request wins). -/
def askForReset (t : ResetType) (f : FieldPF P) : FieldPF P :=
  { f with resetType := t }

/-- Modelled from the spec: `FieldPF::cancelPendingReset(type)` clears the pending slot only
if it currently holds `type`. -/
def cancelPendingReset (t : ResetType) (f : FieldPF P) : FieldPF P :=
  if f.resetType = t then { f with resetType := ResetType.None } else f

/-- Modelled from the spec: `FieldPF::getPendingReset()`. -/
def getPendingReset (f : FieldPF P) : ResetType := f.resetType

/-- Modelled from the spec: `FieldPF::isResetPending()`. -/
def isResetPending (f : FieldPF P) : Bool :=
  decide (f.resetType ≠ ResetType.None)

/-- Modelled from the spec: `FieldPF::applyPendingReset()` replaces the population according
to the pending reset and returns the slot to `None`; with nothing pending it is a no-op. -/
def applyPendingReset (M : FilterModel P) (c : CustomReset) (f : FieldPF P) : FieldPF P :=
  if f.resetType = ResetType.None then f
  else { particles := M.resetParticles f.resetType c f.particles, resetType := ResetType.None }

/-- Modelled from the spec: `FieldPF::resize(n)` changes the population size and never
touches a pending reset. -/
def resize (M : FilterModel P) (n : Int) (f : FieldPF P) : FieldPF P :=
  { f with particles := M.resizeParticles n f.particles }

/-- Modelled from the spec: `FieldPF::step(motion, observations, dt)`.  A pending reset is
applied and the motion/observation update is bypassed; otherwise the population is moved,
reweighted and resampled. -/
def step (M : FilterModel P) (c : CustomReset) (rc : RobotController)
    (obs : List Observation) (dt : ℚ) (f : FieldPF P) : FieldPF P :=
  if f.isResetPending then f.applyPendingReset M c
  else { f with particles := M.updateParticles rc obs dt f.particles }

end FieldPF

/-! ## Configuration, collaborators and binding state -/

/-- The live-tunable parameters pulled from the configuration bus by `bind->pull()`
(the `PullOnly` bindings of `LocalisationBinding::initRhIO`). -/
structure Config where
  nb_particles_ff : Int
  odometryMode : Bool
  consistencyEnabled : Bool
  consistencyStepCost : ℚ
  consistencyBadObsCost : ℚ
  consistencyGoodObsGain : ℚ
  consistencyResetInterval : ℚ
  consistencyMaxNoise : ℚ
  period : ℚ
  maxNoiseBoost : ℚ
  noiseBoostDuration : ℚ
  debugLevel : Int

/-- The values given to the parameters by the constructor's initialiser list. -/
def Config.default : Config :=
  { nb_particles_ff := 5000
    odometryMode := false
    consistencyEnabled := true
    consistencyStepCost := 5 / 1000
    consistencyBadObsCost := 2 / 100
    consistencyGoodObsGain := 1 / 10
    consistencyResetInterval := 30
    consistencyMaxNoise := 5
    period := 1
    maxNoiseBoost := 10
    noiseBoostDuration := 5
    debugLevel := 1 }

/-- Calls made by the binding to the filter and to its publication sinks, in the order in
which they are issued (ghost state). -/
inductive Call where
  | cancelPendingReset (t : ResetType)
  | applyPendingReset
  | askForReset (t : ResetType)
  | resize (n : Int)
  | filterStep (rc : RobotController) (obs : List Observation) (dt : ℚ)
  | odometryDiff (t0 t1 : ℚ)
  | applyWatcher (obs : List Observation)
  | importFiltersResults
  | publishToLoc
  | rhioPush

/-- What `publishToLoc` hands to the localisation service (`setPosSelf` and `setClusters`). -/
structure PublishedEstimate where
  center : Point2f
  orientation : ℚ
  robotQ : ℚ
  consistencyScore : ℚ
  consistencyEnabled : Bool
  clusters : List Point3f

/-- Functions of classes and libraries that the binding calls but whose code is not among
the sources: the filter's population operations, the constructor, similarity test, merge and
scoring contract of `FeatureObservation` (`potential f p` stands for
`f.potential(p, true)`, `minScore f` for `f.getMinScore()`), and the numeric functions
`rad2deg`, `deg2rad` and square root. -/
structure Externals (P : Type) where
  filter : FilterModel P
  newFeature : Nat → PanTilt → ℚ → FeatureObservation
  isSimilar : FeatureObservation → FeatureObservation → Bool
  merge : FeatureObservation → FeatureObservation → FeatureObservation
  potential : FeatureObservation → FieldPosition → ℚ
  minScore : FeatureObservation → ℚ
  rad2deg : ℚ → ℚ
  deg2rad : ℚ → ℚ
  sqrt : ℚ → ℚ

/-- The member variables of `LocalisationBinding` that the tick reads or writes, the
custom-reset values of the configuration node, the last published estimate and the call
log. -/
structure LocalisationBinding (P : Type) where
  cfg : Config
  field_filter : FieldPF P
  customReset : CustomReset
  robot : FieldPosition
  robotQ : ℚ
  isGoalKeeper : Bool
  consistencyScore : ℚ
  currTS : TimeStamp
  lastTS : TimeStamp
  lastFieldReset : TimeStamp
  lastUniformReset : TimeStamp
  lastForbidden : TimeStamp
  elapsedSinceReset : ℚ
  elapsedSinceUniformReset : ℚ
  isForbidden : Bool
  features : List (Nat × List Point3f)
  markerIndices : List Int
  markerPositions : List Point3f
  published : Option PublishedEstimate
  calls : List Call

/-! ## The referee service (play gate) -/

/-- One robot entry of a game-controller message (`robocup_referee::Robot`). -/
structure Robot where
  penalty : Int
  secsTillUnpenalised : Int
  redCardCount : Int

/-- One team entry of a game-controller message (`robocup_referee::Team`). -/
structure Team where
  teamNumber : Int
  robots : List Robot

/-- The last game-controller message (`robocup_referee::GameState`); `lastUpdate` is the
time since its reception in hundredths of a second. -/
structure GameState where
  lastUpdate : Int
  actualGameState : Int
  secGameState : Int
  secondaryMode : Int
  estimatedSecs : Int
  teams : List Team

/-- The protocol constants `robocup_referee::Constants` used by the referee service; their
values belong to the game-controller library and are taken as parameters. -/
structure Constants where
  STATE_INITIAL : Int
  STATE_READY : Int
  STATE_SET : Int
  STATE_PLAYING : Int
  STATE_FINISHED : Int
  STATE2_DIRECT_FREE_KICK : Int
  STATE2_INDIRECT_FREE_KICK : Int
  STATE2_PENALTY_KICK : Int
  STATE2_CORNER_KICK : Int
  STATE2_GOAL_KICK : Int
  STATE2_THROW_IN : Int
  PENALTY_SUBSTITUTE : Int

/-- The member variables of `RefereeService` read by the play gate. -/
structure RefereeService where
  consts : Constants
  force : Bool
  playing : Bool
  gamePlaying : Bool
  wasPenalized : Bool
  remaining : Int
  id : Int
  teamId : Int
  gameState : GameState

namespace RefereeService

/-- The value of `std::numeric_limits<int>::max()`. -/
def intMax : Int := 2147483647

/-- The loop of `RefereeService::getRemainingPenaltyTime(id)` over the remaining teams. -/
def remainingPenaltyTimeIn (r : RefereeService) (id : Int) : List Team → Int
  | [] => -1
  | team :: rest =>
    if team.teamNumber = r.teamId then
      let idz := id - 1
      if 0 ≤ idz ∧ idz < (team.robots.length : Int) then
        match team.robots[idz.toNat]? with
        | some robot =>
          if robot.redCardCount > 0 ∨ robot.penalty = r.consts.PENALTY_SUBSTITUTE then intMax
          else if robot.penalty ≠ 0 then robot.secsTillUnpenalised
          else remainingPenaltyTimeIn r id rest
        | none => remainingPenaltyTimeIn r id rest
      else remainingPenaltyTimeIn r id rest
    else remainingPenaltyTimeIn r id rest

/-- The function `RefereeService::getRemainingPenaltyTime(id)`. -/
def getRemainingPenaltyTime (r : RefereeService) (id : Int) : Int :=
  remainingPenaltyTimeIn r id r.gameState.teams

/-- The function `RefereeService::isPenalized()`. -/
def isPenalized (r : RefereeService) : Bool :=
  decide (r.getRemainingPenaltyTime r.id ≥ 0)

/-- The function `RefereeService::isServingPenalty()`. -/
def isServingPenalty (r : RefereeService) : Bool :=
  let secs_remaining := r.getRemainingPenaltyTime r.id
  decide (secs_remaining ≥ 0) && decide (secs_remaining < 30)

/-- The function `RefereeService::isGameInterruption()`. -/
def isGameInterruption (r : RefereeService) : Bool :=
  let g := r.gameState.secGameState
  decide (g = r.consts.STATE2_DIRECT_FREE_KICK) || decide (g = r.consts.STATE2_INDIRECT_FREE_KICK) ||
  decide (g = r.consts.STATE2_PENALTY_KICK) || decide (g = r.consts.STATE2_CORNER_KICK) ||
  decide (g = r.consts.STATE2_GOAL_KICK) || decide (g = r.consts.STATE2_THROW_IN)

/-- The function `RefereeService::isPlaying()`. -/
def isPlaying (r : RefereeService) : Bool := r.playing

/-- The function `RefereeService::isPlacingPhase()`. -/
def isPlacingPhase (r : RefereeService) : Bool :=
  if r.force then false
  else decide (r.gameState.actualGameState = r.consts.STATE_READY)

/-- The function `RefereeService::isFreezePhase()`. -/
def isFreezePhase (r : RefereeService) : Bool :=
  if r.force then false
  else decide (r.gameState.actualGameState = r.consts.STATE_SET) ||
    (r.isGameInterruption && decide (r.gameState.secondaryMode ≠ 1))

/-- The loop of `RefereeService::checkPlaying` looking for a penalty of the current player:
`true` when the loop leaves through its `return`. -/
def playerPenalizedIn (r : RefereeService) : List Team → Bool
  | [] => false
  | team :: rest =>
    if team.teamNumber = r.teamId then
      let idz := r.id - 1
      if 0 ≤ idz ∧ idz < (team.robots.length : Int) then
        match team.robots[idz.toNat]? with
        | some robot => if robot.penalty ≠ 0 then true else playerPenalizedIn r rest
        | none => playerPenalizedIn r rest
      else playerPenalizedIn r rest
    else playerPenalizedIn r rest

/-- The function `RefereeService::checkPlaying()`, which refreshes `playing` and
`gamePlaying` from the last game-controller message. -/
def checkPlaying (r : RefereeService) : RefereeService :=
  if r.force then { r with gamePlaying := true, playing := true }
  else
    let r := { r with remaining := r.gameState.estimatedSecs }
    if r.gameState.lastUpdate > 500 then { r with gamePlaying := true, playing := true }
    else if r.gameState.actualGameState ≠ r.consts.STATE_PLAYING then
      { r with wasPenalized := false, gamePlaying := false, playing := false }
    else
      let r := { r with gamePlaying := true }
      if r.playerPenalizedIn r.gameState.teams then { r with wasPenalized := true, playing := false }
      else { r with playing := true }

end RefereeService

/-! ## Values read from the collaborators during one tick -/

/-- The geometric queries answered by the camera state (`Utils::CameraState`) once it has
been updated to the tick's time stamp. -/
structure CameraState where
  getPosInSelf : Point2f → Point2f
  getSelfFromWorld : Point3f → Point3f
  panTiltFromXY : Point2f → ℚ → PanTilt
  getHeight : ℚ

/-- Everything one call of `LocalisationBinding::step` reads from outside the binding. -/
structure TickEnv where
  /-- the parameter values obtained by `bind->pull()` -/
  rhio : Config
  /-- the value of `getNowTS()` at the start of the tick -/
  nowTS : TimeStamp
  /-- the value of `getNowTS()` inside `applyWatcher`, read when a reset is issued -/
  watcherTS : TimeStamp
  /-- the value of `scheduler->isFakeMode()` -/
  fakeMode : Bool
  /-- the value of `scheduler->getMove("robocup")->isRunning()` -/
  robocupRunning : Bool
  referee : RefereeService
  /-- the value of `decisionService->isFallen` -/
  isFallen : Bool
  /-- the result of `vision_binding->stealFeatures()` -/
  features : List (Nat × List Point3f)
  /-- the vectors filled by `vision_binding->stealTags` -/
  markerIndices : List Int
  markerPositions : List Point3f
  cs : CameraState
  /-- the function `ModelService::odometryDiff(timestamp1, timestamp2)` -/
  odometryDiff : ℚ → ℚ → Point3f

/-! ## The binding -/

section Binding

variable {P : Type}

/-- The state left by the constructor `LocalisationBinding::LocalisationBinding`: `cfg` is
what the first `bind->pull()` returned (`Config.default` when nothing overrides the
initialiser list), `p0` the population drawn by `initializeAtUniformRandom`, `now` the value
of `getNowTS()`.  Members the constructor leaves uninitialised are set to zero. -/
def LocalisationBinding.construct (cfg : Config) (p0 : P) (now : TimeStamp) :
    LocalisationBinding P :=
  { cfg := cfg
    field_filter := { particles := p0, resetType := ResetType.None }
    customReset := ⟨0, 0, 0, 0, 0⟩
    robot := ⟨0, 0, 0⟩
    robotQ := -1
    isGoalKeeper := false
    consistencyScore := 1
    currTS := now
    lastTS := now
    lastFieldReset := now
    lastUniformReset := now
    lastForbidden := 0
    elapsedSinceReset := 0
    elapsedSinceUniformReset := 0
    isForbidden := false
    features := []
    markerIndices := []
    markerPositions := []
    published := none
    calls := [] }

/-- The function `LocalisationBinding::importFromRhIO`: the binding's parameters take the
values currently on the configuration bus. -/
def importFromRhIO (env : TickEnv) (s : LocalisationBinding P) : LocalisationBinding P :=
  { s with cfg := env.rhio }

/-- The function `LocalisationBinding::publishToRhIO`. -/
def publishToRhIO (s : LocalisationBinding P) : LocalisationBinding P :=
  { s with calls := s.calls ++ [Call.rhioPush] }

/-- The function `LocalisationBinding::stealFromVision`. -/
def stealFromVision (env : TickEnv) (s : LocalisationBinding P) : LocalisationBinding P :=
  { s with features := env.features
           markerIndices := env.markerIndices
           markerPositions := env.markerPositions }

/-- The function `LocalisationBinding::refereeAllowsToPlay`. -/
def refereeAllowsToPlay (env : TickEnv) : Bool :=
  if env.fakeMode || !env.robocupRunning then true
  else
    let referee := env.referee
    let allowedPhase := referee.isPlacingPhase || referee.isFreezePhase
    let penalized := referee.isPenalized && !referee.isServingPenalty
    referee.isPlaying || (allowedPhase && !penalized)

/-- One pass of the body of the inner loop of `extractFeatureObservations`: the new
observation is merged into every similar one already collected, or appended when there is
none. -/
def addFeature (E : Externals P) (cs : CameraState) (poiType : Nat)
    (featureObservations : List FeatureObservation) (feature_pos_in_world : Point3f) :
    List FeatureObservation :=
  let pos_in_self := cs.getPosInSelf ⟨feature_pos_in_world.x, feature_pos_in_world.y⟩
  let robotHeight := cs.getHeight
  let panTiltToFeature := cs.panTiltFromXY pos_in_self robotHeight
  let newObs := E.newFeature poiType panTiltToFeature robotHeight
  let has_similar := featureObservations.any (fun featureObs => E.isSimilar newObs featureObs)
  let merged := featureObservations.map
    (fun featureObs => if E.isSimilar newObs featureObs then E.merge featureObs newObs else featureObs)
  if has_similar then merged else merged ++ [newObs]

/-- The function `LocalisationBinding::extractFeatureObservations`. -/
def extractFeatureObservations (E : Externals P) (cs : CameraState)
    (s : LocalisationBinding P) : List FeatureObservation :=
  s.features.foldl (fun acc entry => entry.2.foldl (addFeature E cs entry.1) acc) []

/-- The statement `tagsInSelf[id].push_back(pos)` on a `std::map` kept as a list of entries
in ascending key order. -/
def tagsPushBack (id : Int) (pos : Point3f) : List (Int × List Point3f) → List (Int × List Point3f)
  | [] => [(id, [pos])]
  | (k, vs) :: rest =>
    if id = k then (k, vs ++ [pos]) :: rest
    else if id < k then (id, [pos]) :: (k, vs) :: rest
    else (k, vs) :: tagsPushBack id pos rest

/-- Component-wise sum of the positions of one tag (the loop `mean += pos`). -/
def sumPositions (l : List Point3f) : Point3f :=
  l.foldl (fun acc pos => ⟨acc.x + pos.x, acc.y + pos.y, acc.z + pos.z⟩) ⟨0, 0, 0⟩

/-- The body of the second loop of `extractTagsObservations`: mean and standard deviation
of the sightings of one tag. -/
def tagObservation (E : Externals P) (cs : CameraState) (entry : Int × List Point3f) :
    TagsObservation :=
  let nb_obs : ℚ := (entry.2.length : ℚ)
  let total := sumPositions entry.2
  let mean : Point3f := ⟨total.x / nb_obs, total.y / nb_obs, total.z / nb_obs⟩
  let err2 := sumPositions (entry.2.map (fun pos =>
    ⟨(pos.x - mean.x) * (pos.x - mean.x), (pos.y - mean.y) * (pos.y - mean.y),
     (pos.z - mean.z) * (pos.z - mean.z)⟩))
  let dev : Point3f := ⟨E.sqrt (err2.x / nb_obs), E.sqrt (err2.y / nb_obs), E.sqrt (err2.z / nb_obs)⟩
  { id := entry.1, seenPos := mean, stdDev := dev, robotHeight := cs.getHeight, weight := nb_obs }

/-- The function `LocalisationBinding::extractTagsObservations`. -/
def extractTagsObservations (E : Externals P) (cs : CameraState)
    (s : LocalisationBinding P) : List TagsObservation :=
  let tagsInSelf := (s.markerIndices.zip s.markerPositions).foldl
    (fun m e => tagsPushBack e.1 (cs.getSelfFromWorld e.2) m) []
  tagsInSelf.map (tagObservation E cs)

/-- The function `LocalisationBinding::extractObservations`. -/
def extractObservations (E : Externals P) (cs : CameraState) (s : LocalisationBinding P) :
    List Observation :=
  let fieldObservations :=
    (extractFeatureObservations E cs s).map Observation.feature ++
    (extractTagsObservations E cs s).map Observation.tags
  if fieldObservations.length > 0 then fieldObservations ++ [Observation.field s.isGoalKeeper]
  else fieldObservations

/-- The loop of `applyWatcher` over the observations: only feature observations (those for
which the `dynamic_cast` succeeds) change the step delta. -/
def watcherDelta (E : Externals P) (cfg : Config) (particle : FieldPosition)
    (obs : List Observation) : ℚ :=
  obs.foldl (fun stepDeltaScore o =>
    match o with
    | Observation.feature featureObs =>
      if E.potential featureObs particle > E.minScore featureObs
      then stepDeltaScore + cfg.consistencyGoodObsGain
      else stepDeltaScore - cfg.consistencyBadObsCost
    | _ => stepDeltaScore) (-cfg.consistencyStepCost)

/-- The function `LocalisationBinding::applyWatcher`; `watcherTS` is the value `getNowTS()`
returns when the reset is issued. -/
def applyWatcher (E : Externals P) (watcherTS : TimeStamp) (obs : List Observation)
    (s : LocalisationBinding P) : LocalisationBinding P :=
  let s := { s with calls := s.calls ++ [Call.applyWatcher obs] }
  let particle := E.filter.representativeParticle s.field_filter.particles
  let stepDeltaScore := watcherDelta E s.cfg particle obs
  let s := { s with consistencyScore := s.consistencyScore + stepDeltaScore }
  let s := { s with consistencyScore := min 1 (max 0 s.consistencyScore) }
  let resetAllowed := decide (s.elapsedSinceUniformReset > s.cfg.consistencyResetInterval)
  let lowConsistency := decide (s.consistencyScore ≤ 0)
  if resetAllowed && lowConsistency && !s.field_filter.isResetPending then
    { s with lastFieldReset := watcherTS
             lastUniformReset := watcherTS
             consistencyScore := 0
             field_filter := s.field_filter.askForReset ResetType.Uniform
             calls := s.calls ++ [Call.askForReset ResetType.Uniform] }
  else s

/-- The process-noise gain computed in `updateFilter`.  The division is the one of the
rationals, for which `x / 0 = 0`: the value agrees with the source wherever the source does
not divide by zero, that is unless odometry-only mode is off, `noiseBoostDuration = 0` and
`elapsedSinceUniformReset < 0` (there the source computes `-inf` and a gain that is not a
number); `noiseGainChecked` below makes that case explicit. -/
def noiseGain (s : LocalisationBinding P) : ℚ :=
  if s.cfg.odometryMode then 1 / 1000000
  else if s.elapsedSinceUniformReset < s.cfg.noiseBoostDuration then
    let ratio := s.elapsedSinceUniformReset / s.cfg.noiseBoostDuration
    s.cfg.maxNoiseBoost * (1 - ratio) + ratio
  else if s.cfg.consistencyEnabled then
    1 + (1 - s.consistencyScore) * (s.cfg.consistencyMaxNoise - 1)
  else 1

/-- The function `LocalisationBinding::updateFilter`. -/
def updateFilter (E : Externals P) (env : TickEnv) (obs : List Observation)
    (s : LocalisationBinding P) : LocalisationBinding P :=
  let odom_start := getTimeMS s.lastTS / 1000
  let odom_end := getTimeMS s.currTS / 1000
  let elapsed := diffSec s.lastTS s.currTS
  let pending_reset := s.field_filter.getPendingReset
  let odom_start :=
    if pending_reset ≠ ResetType.None ∧ pending_reset ≠ ResetType.Fall
    then getTimeMS s.lastFieldReset / 1000 else odom_start
  let odo := env.odometryDiff odom_start odom_end
  let robotMove : Point2f := ⟨odo.x, odo.y⟩
  let orientationChange := E.rad2deg odo.z
  let rc : RobotController := ⟨robotMove, orientationChange, noiseGain s⟩
  let max_step_time : ℚ := 5
  let dt := min max_step_time elapsed
  { s with
    field_filter :=
      ((s.field_filter.resize E.filter s.cfg.nb_particles_ff).step E.filter s.customReset rc obs dt)
    calls := s.calls ++ [Call.odometryDiff odom_start odom_end, Call.resize s.cfg.nb_particles_ff,
      Call.filterStep rc obs dt]
    lastTS := s.currTS }

/-- The function `LocalisationBinding::importFiltersResults`. -/
def importFiltersResults (E : Externals P) (s : LocalisationBinding P) : LocalisationBinding P :=
  { s with robot := E.filter.representativeParticle s.field_filter.particles
           robotQ := E.filter.representativeQuality s.field_filter.particles
           calls := s.calls ++ [Call.importFiltersResults] }

/-- The function `LocalisationBinding::publishToLoc`. -/
def publishToLoc (E : Externals P) (s : LocalisationBinding P) : LocalisationBinding P :=
  { s with
    published := some
      { center := E.filter.centerPositionInSelf s.field_filter.particles
        orientation := E.deg2rad (E.filter.orientation s.field_filter.particles)
        robotQ := s.robotQ
        consistencyScore := s.consistencyScore
        consistencyEnabled := s.cfg.consistencyEnabled
        clusters := E.filter.positionsFromClusters s.field_filter.particles }
    calls := s.calls ++ [Call.publishToLoc] }

/-- The function `LocalisationBinding::fieldReset(type, x, y, noise, theta, thetaNoise)`;
`now` is the value of `getNowTS()`. -/
def fieldReset (now : TimeStamp) (type : ResetType) (x y noise theta thetaNoise : ℚ)
    (s : LocalisationBinding P) : LocalisationBinding P :=
  let s := { s with lastFieldReset := now }
  let s := if type = ResetType.Custom
    then { s with customReset := ⟨x, y, noise, theta, thetaNoise⟩ } else s
  let s :=
    if type = ResetType.Uniform then
      { s with lastUniformReset := s.lastFieldReset, consistencyScore := 0 }
    else if type ≠ ResetType.Fall then { s with consistencyScore := 1 }
    else s
  { s with field_filter := s.field_filter.askForReset type
           calls := s.calls ++ [Call.askForReset type] }

/-- The part of `LocalisationBinding::step` executed when the referee forbids ticks. -/
def stepForbidden (E : Externals P) (s : LocalisationBinding P) : LocalisationBinding P :=
  let s := { s with lastForbidden := s.currTS, isForbidden := true }
  let s := { s with field_filter := s.field_filter.cancelPendingReset ResetType.Uniform
                    calls := s.calls ++ [Call.cancelPendingReset ResetType.Uniform] }
  let pending_reset := s.field_filter.getPendingReset
  let s :=
    if pending_reset = ResetType.Custom then
      { s with field_filter := s.field_filter.applyPendingReset E.filter s.customReset
               calls := s.calls ++ [Call.applyPendingReset] }
    else s
  publishToRhIO (publishToLoc E (importFiltersResults E s))

/-- The observation vector of the tick (`// Compute observations if there is no reset
pending` in `LocalisationBinding::step`). -/
def tickObservations (E : Externals P) (env : TickEnv) (s : LocalisationBinding P) :
    List Observation :=
  if !s.field_filter.isResetPending && !s.cfg.odometryMode
  then extractObservations E env.cs s else []

/-- The consistency update of the tick (`// Update consistency` in
`LocalisationBinding::step`). -/
def updateConsistency (E : Externals P) (env : TickEnv) (observations : List Observation)
    (s : LocalisationBinding P) : LocalisationBinding P :=
  if s.cfg.consistencyEnabled && !s.cfg.odometryMode
  then applyWatcher E env.watcherTS observations s
  else { s with consistencyScore := 1 }

/-- The part of `LocalisationBinding::step` from `isForbidden = false` to the end: build the
observations, update the watchdog, update the filter and publish. -/
def stepEstimate (E : Externals P) (env : TickEnv) (s : LocalisationBinding P) :
    LocalisationBinding P :=
  let s := { s with isForbidden := false }
  let observations := tickObservations E env s
  let s := updateConsistency E env observations s
  let s := updateFilter E env observations s
  publishToRhIO (publishToLoc E (importFiltersResults E s))

/-- The first statements of `LocalisationBinding::step`, up to `stealFromVision()`: pull the
parameters, read the clock, refresh the elapsed times and take the staged sightings. -/
def tickStart (env : TickEnv) (s : LocalisationBinding P) : LocalisationBinding P :=
  let s := importFromRhIO env s
  let s := { s with currTS := env.nowTS }
  let s := { s with elapsedSinceReset := diffSec s.lastFieldReset s.currTS
                    elapsedSinceUniformReset := diffSec s.lastUniformReset s.currTS }
  stealFromVision env s

/-- The function `LocalisationBinding::step`: one tick of the localisation loop. -/
def step (E : Externals P) (env : TickEnv) (s : LocalisationBinding P) : LocalisationBinding P :=
  let s := tickStart env s
  let refereeAllowTicks := refereeAllowsToPlay env
  if !refereeAllowTicks then stepForbidden E s
  else if env.isFallen then publishToRhIO s
  else
    let pending_reset := s.field_filter.getPendingReset
    let elapsed_since_forbidden := diffSec s.lastForbidden s.currTS
    let start_without_reset_delay : ℚ := 10
    if s.isForbidden && decide (elapsed_since_forbidden < start_without_reset_delay) &&
        (decide (pending_reset = ResetType.None) || decide (pending_reset = ResetType.Uniform)) then
      publishToRhIO (publishToLoc E (importFiltersResults E s))
    else stepEstimate E env s

/-! ## Runs and observables used by the statements -/

/-- The calls issued between the state `before` and the later state `after`. -/
def issuedCalls (before after : LocalisationBinding P) : List Call :=
  after.calls.drop before.calls.length

/-- Whether a call is a reset request to the filter. -/
def Call.isAskForReset : Call → Bool
  | Call.askForReset _ => true
  | _ => false

/-- Whether a call is a motion/observation step of the filter. -/
def Call.isFilterStep : Call → Bool
  | Call.filterStep _ _ _ => true
  | _ => false

/-- Whether a call is a watchdog update. -/
def Call.isApplyWatcher : Call → Bool
  | Call.applyWatcher _ => true
  | _ => false

/-- Whether a call applies the pending reset outside a filter step. -/
def Call.isApplyPendingReset : Call → Bool
  | Call.applyPendingReset => true
  | _ => false

/-- Number of reset requests in a call log. -/
def resetRequests (calls : List Call) : Nat := calls.countP Call.isAskForReset

/-- Whether the watchdog scores an observation: the `dynamic_cast` to `FeatureObservation`
succeeds. -/
def Observation.isScored : Observation → Bool
  | Observation.feature _ => true
  | _ => false

/-- Number of scored observations whose potential at `particle` is strictly greater than
their minimal score. -/
def goodObservations (E : Externals P) (particle : FieldPosition) (obs : List Observation) : Nat :=
  obs.countP (fun o =>
    match o with
    | Observation.feature f => decide (E.potential f particle > E.minScore f)
    | _ => false)

/-- Number of scored observations whose potential at `particle` is at most their minimal
score. -/
def badObservations (E : Externals P) (particle : FieldPosition) (obs : List Observation) : Nat :=
  obs.countP (fun o =>
    match o with
    | Observation.feature f => decide (E.potential f particle ≤ E.minScore f)
    | _ => false)

/-- The operations on the binding that change the consistency score. -/
inductive Op where
  | tick (env : TickEnv)
  | watcher (watcherTS : TimeStamp) (obs : List Observation)
  | reset (now : TimeStamp) (type : ResetType) (x y noise theta thetaNoise : ℚ)

/-- Effect of one operation. -/
def Op.apply (E : Externals P) : Op → LocalisationBinding P → LocalisationBinding P
  | Op.tick env, s => step E env s
  | Op.watcher watcherTS obs, s => applyWatcher E watcherTS obs s
  | Op.reset now type x y noise theta thetaNoise, s => fieldReset now type x y noise theta thetaNoise s

/-- Effect of a sequence of operations, first operation first. -/
def runOps (E : Externals P) (ops : List Op) (s : LocalisationBinding P) : LocalisationBinding P :=
  ops.foldl (fun st op => op.apply E st) s

/-- The state after the ticks `1, ..., n`, tick `k` reading the environment `envs k`. -/
def runTicks (E : Externals P) (envs : Nat → TickEnv) : Nat → LocalisationBinding P → LocalisationBinding P
  | 0, s => s
  | n + 1, s => step E (envs (n + 1)) (runTicks E envs n s)

/-- Successive watchdog updates, one per element of `inputs` (clock reading and observation
list). -/
def watcherRun (E : Externals P) (inputs : List (TimeStamp × List Observation))
    (s : LocalisationBinding P) : LocalisationBinding P :=
  inputs.foldl (fun st i => applyWatcher E i.1 i.2 st) s

/-- Closed form for the number of watchdog resets issued during the first `n` ticks of a run
with the default parameters and no scorable observation: none before tick 200, then one at
tick 200 and one every 31 ticks. -/
def quietResetCount (n : Nat) : Nat :=
  if n < 200 then 0 else 1 + (n - 200) / 31

/-- Closed form for the tick of the last watchdog reset among the first `n` ticks of such a
run (0 when there has been none). -/
def quietLastResetTick (n : Nat) : Nat :=
  if n < 200 then 0 else 200 + 31 * ((n - 200) / 31)

/-- Whether an observation is the synthetic field-shape observation. -/
def Observation.isField : Observation → Bool
  | Observation.field _ => true
  | _ => false

/-- The process-noise gain as the specification words it, to be compared with `noiseGain`:
`10^-6` in odometry-only mode; otherwise the interpolation between `maxNoiseBoost` and 1 while
the time `e` elapsed since the last Uniform reset is below the boost duration `D`; otherwise
the consistency-based gain when the watchdog is enabled; otherwise 1. -/
def claimedNoiseGain (odometryMode consistencyEnabled : Bool)
    (e D maxNoiseBoost consistencyScore consistencyMaxNoise : ℚ) : ℚ :=
  if odometryMode = true then (10 : ℚ) ^ (-6 : ℤ)
  else if e < D then maxNoiseBoost * (1 - e / D) + e / D
  else if consistencyEnabled = true then 1 + (1 - consistencyScore) * (consistencyMaxNoise - 1)
  else 1

/-- The noise-gain computation of `updateFilter` with its division made explicit: `none`
stands for a division by zero, which the source would perform as a floating-point division
by `0.0`.  Apart from that it follows `noiseGain` line by line. -/
def noiseGainChecked (s : LocalisationBinding P) : Option ℚ :=
  if s.cfg.odometryMode then some (1 / 1000000)
  else if s.elapsedSinceUniformReset < s.cfg.noiseBoostDuration then
    if s.cfg.noiseBoostDuration = 0 then none
    else
      let ratio := s.elapsedSinceUniformReset / s.cfg.noiseBoostDuration
      some (s.cfg.maxNoiseBoost * (1 - ratio) + ratio)
  else if s.cfg.consistencyEnabled then
    some (1 + (1 - s.consistencyScore) * (s.cfg.consistencyMaxNoise - 1))
  else some 1

/-- Whether the noise-gain computation of `updateFilter` enters the boost branch, the only
one that evaluates `elapsedSinceUniformReset / noiseBoostDuration`. -/
def boostBranchTaken (s : LocalisationBinding P) : Bool :=
  !s.cfg.odometryMode && decide (s.elapsedSinceUniformReset < s.cfg.noiseBoostDuration)

/-- The sightings of the marker `id` among staged pairs of marker index and position, in the
order of detection. -/
def sightingsOf (id : Int) (pairs : List (Int × Point3f)) : List Point3f :=
  (pairs.filter (fun e => decide (e.1 = id))).map (fun e => e.2)

/-- The positions stored under the key `id` in a `tagsInSelf` map. -/
def tagsOf (id : Int) (m : List (Int × List Point3f)) : List Point3f :=
  match m with
  | [] => []
  | (k, vs) :: rest => if k = id then vs ++ tagsOf id rest else tagsOf id rest

/-- The detected markers of the binding as pairs of marker index and position in the robot
frame (`cs->getSelfFromWorld`), in the order of detection. -/
def markersInSelf (cs : CameraState) (s : LocalisationBinding P) : List (Int × Point3f) :=
  (s.markerIndices.zip s.markerPositions).map (fun e => (e.1, cs.getSelfFromWorld e.2))

/-- The arithmetic mean of a list of positions, coordinate by coordinate: the sum of the
coordinates divided by the number of positions. -/
def arithmeticMean (l : List Point3f) : Point3f :=
  ⟨(l.map (fun p => p.x)).sum / (l.length : ℚ), (l.map (fun p => p.y)).sum / (l.length : ℚ),
    (l.map (fun p => p.z)).sum / (l.length : ℚ)⟩

/-! ### Lock discipline on the filter -/

/-- The member functions of `FieldPF` that the binding calls. -/
inductive FilterAccess where
  | resize
  | step
  | cancelPendingReset
  | applyPendingReset
  | askForReset
  | getRepresentativeParticle
  | getRepresentativeQuality
  | getCenterPositionInSelf
  | getOrientation
  | getPositionsFromClusters
  | draw
  deriving DecidableEq

/-- Whether a member function reads or writes the particle population or a statistic derived
from it (the other ones only touch the pending reset slot). -/
def FilterAccess.touchesPopulation : FilterAccess → Bool
  | FilterAccess.cancelPendingReset => false
  | FilterAccess.askForReset => false
  | _ => true

/-- An operation on `filterMutex` or a call of a member function of the filter. -/
inductive LockEvent where
  | lock
  | unlock
  | access (a : FilterAccess)
  deriving DecidableEq

/-- The operations on `filterMutex` and the filter calls that the source performs for each
logged call, at its call site: `resize` and `step` are bracketed by `filterMutex.lock()` and
`filterMutex.unlock()` in `updateFilter`, the two reads of `importFiltersResults` as well;
the calls in the gated branch of `step`, the read of the representative particle in
`applyWatcher` and the three reads of `publishToLoc` are made without touching the mutex.
The streaming of the top view in `publishToRhIO` is left out. -/
def Call.lockEvents : Call → List LockEvent
  | Call.cancelPendingReset _ => [LockEvent.access FilterAccess.cancelPendingReset]
  | Call.applyPendingReset => [LockEvent.access FilterAccess.applyPendingReset]
  | Call.askForReset _ => [LockEvent.access FilterAccess.askForReset]
  | Call.resize _ => [LockEvent.lock, LockEvent.access FilterAccess.resize]
  | Call.filterStep _ _ _ => [LockEvent.access FilterAccess.step, LockEvent.unlock]
  | Call.odometryDiff _ _ => []
  | Call.applyWatcher _ => [LockEvent.access FilterAccess.getRepresentativeParticle]
  | Call.importFiltersResults =>
    [LockEvent.lock, LockEvent.access FilterAccess.getRepresentativeParticle,
      LockEvent.access FilterAccess.getRepresentativeQuality, LockEvent.unlock]
  | Call.publishToLoc =>
    [LockEvent.access FilterAccess.getCenterPositionInSelf,
      LockEvent.access FilterAccess.getOrientation,
      LockEvent.access FilterAccess.getPositionsFromClusters]
  | Call.rhioPush => []

/-- The operations on `filterMutex` and the filter calls of `LocalisationBinding::getTopView`. -/
def getTopViewLockEvents : List LockEvent :=
  [LockEvent.lock, LockEvent.access FilterAccess.draw, LockEvent.unlock]

/-- The mutex operations and filter calls behind a call log. -/
def lockTrace (calls : List Call) : List LockEvent :=
  calls.foldr (fun c acc => c.lockEvents ++ acc) []

/-- Whether every access to the population or its statistics in a trace is made while the
mutex is held; `held` tells whether it is held at the start. -/
def lockDisciplined : Bool → List LockEvent → Bool
  | _, [] => true
  | _, LockEvent.lock :: rest => lockDisciplined true rest
  | _, LockEvent.unlock :: rest => lockDisciplined false rest
  | held, LockEvent.access a :: rest =>
    (held || !a.touchesPopulation) && lockDisciplined held rest

end Binding

/-! ## Odometry of the model service -/

/-- A vector of three coordinates (`Eigen::Vector3d`) over a field `K`. -/
structure Vector3 (K : Type) where
  x : K
  y : K
  z : K

/-- The numeric functions that `ModelService::odometryDiff` and `ModelService::odometryInt`
take from libraries: `cos`, `sin`, the constant `M_PI` and `Leph::AngleDistance`. -/
structure Trigonometry (K : Type) where
  cos : K → K
  sin : K → K
  pi : K
  angleDistance : K → K → K

namespace ModelService

variable {K : Type} [LinearOrderedField K]

/-- The function `ModelService::odometryDiff(state1, state2)`: the displacement from
`state1` to `state2` expressed in the frame of `state1`. -/
def odometryDiff (T : Trigonometry K) (state1 state2 : Vector3 K) : Vector3 K :=
  let vectX := state2.x - state1.x
  let vectY := state2.y - state1.y
  let angle := T.angleDistance state1.z state2.z
  let vectInSrcX := vectX * T.cos (-state1.z) - vectY * T.sin (-state1.z)
  let vectInSrcY := vectX * T.sin (-state1.z) + vectY * T.cos (-state1.z)
  ⟨vectInSrcX, vectInSrcY, angle⟩

/-- The function `ModelService::odometryInt(diff, state)`; the result is the updated
`state`. -/
def odometryInt (T : Trigonometry K) (diff state : Vector3 K) : Vector3 K :=
  let vectX := diff.x * T.cos state.z - diff.y * T.sin state.z
  let vectY := diff.x * T.sin state.z + diff.y * T.cos state.z
  let state : Vector3 K := ⟨state.x + vectX, state.y + vectY, state.z + diff.z⟩
  let state : Vector3 K := if state.z > T.pi then { state with z := state.z - 2 * T.pi } else state
  if state.z < -T.pi then { state with z := state.z + 2 * T.pi } else state

end ModelService

/-! ## A concrete instance, used to evaluate the definitions -/

namespace Sample

/-- A filter over populations represented by one natural number: a reset stores a code of
its type, an update adds one. -/
def filter : FilterModel Nat :=
  { resetParticles := fun t _ _ =>
      match t with
      | ResetType.None => 0
      | ResetType.Uniform => 100
      | ResetType.Custom => 200
      | ResetType.Fall => 300
      | ResetType.Borders => 400
    resizeParticles := fun _ p => p
    updateParticles := fun _ _ _ p => p + 1
    representativeParticle := fun p => ⟨(p : ℚ), 0, 0⟩
    representativeQuality := fun _ => 1 / 2
    centerPositionInSelf := fun p => ⟨(p : ℚ), 0⟩
    orientation := fun _ => 0
    positionsFromClusters := fun _ => [] }

/-- Externals in which the potential of a feature observation is its weight and its minimal
score is its robot height, so that both can be chosen freely in examples. -/
def externals : Externals Nat :=
  { filter := filter
    newFeature := fun t pt h => ⟨t, pt, h, 1⟩
    isSimilar := fun a b => decide (a.poiType = b.poiType)
    merge := fun a b => { a with weight := a.weight + b.weight }
    potential := fun f _ => f.weight
    minScore := fun f => f.robotHeight
    rad2deg := fun r => r * 57
    deg2rad := fun d => d / 57
    sqrt := fun q => q }

/-- A camera state that leaves coordinates unchanged. -/
def cameraState : CameraState :=
  { getPosInSelf := fun p => p
    getSelfFromWorld := fun p => p
    panTiltFromXY := fun p _ => ⟨p.x, p.y⟩
    getHeight := 1 / 2 }

/-- A referee service that has received no game state and is not forced. -/
def referee : RefereeService :=
  { consts := ⟨0, 1, 2, 3, 4, 4, 5, 6, 7, 8, 9, 14⟩
    force := false
    playing := false
    gamePlaying := false
    wasPenalized := false
    remaining := 0
    id := 1
    teamId := 1
    gameState := ⟨0, 0, 0, 0, 0, []⟩ }

/-- A tick environment at time `now` with the default parameters, no sighting and no
odometry displacement; `allowed` decides the play gate (through fake mode) and `fallen` the
fall detection. -/
def env (now : TimeStamp) (allowed fallen : Bool) : TickEnv :=
  { rhio := Config.default
    nowTS := now
    watcherTS := now
    fakeMode := allowed
    robocupRunning := true
    referee := referee
    isFallen := fallen
    features := []
    markerIndices := []
    markerPositions := []
    cs := cameraState
    odometryDiff := fun _ _ => ⟨0, 0, 0⟩ }

/-- The constructed binding at time `0` with the default parameters. -/
def initial : LocalisationBinding Nat := LocalisationBinding.construct Config.default 0 0

/-- The state reached from `initial` by a tick at time 1 during which playing is not allowed,
followed at time 2 by a request for a reset of type `t` at pose (1, 1, 0). -/
def graceState (t : ResetType) : LocalisationBinding Nat :=
  fieldReset 2 t 1 1 0 0 0 (step externals (env 1 false false) initial)

/-- The constructed binding as it enters a watchdog update 31 s after construction with its
score already at 0. -/
def lostState : LocalisationBinding Nat :=
  { initial with consistencyScore := 0, currTS := 31, elapsedSinceUniformReset := 31 }

/-- A live tick environment (no fake mode) in which the robocup move is not running. -/
def liveEnvNoRobocup : TickEnv :=
  { env 1 false false with robocupRunning := false }

/-- The referee service `referee` whose last game-controller message is 5.01 s old. -/
def staleReferee : RefereeService :=
  { referee with gameState := ⟨501, 0, 0, 0, 0, []⟩ }

/-- A live tick environment with the robocup move running, read after the referee service
has run `checkPlaying` on a game-controller message that is 5.01 s old. -/
def liveEnvStale : TickEnv :=
  { env 1 false false with referee := staleReferee.checkPlaying }

/-- The constructed binding with its consistency score lowered to one half. -/
def halfTrust : LocalisationBinding Nat :=
  { initial with consistencyScore := 1 / 2 }

/-- A tag observation of the marker 7 seen once at (1, 0, 0). -/
def tagSeen : TagsObservation :=
  { id := 7, seenPos := ⟨1, 0, 0⟩, stdDev := ⟨0, 0, 0⟩, robotHeight := 1 / 2, weight := 1 }

/-- The binding `initial` with two feature sightings of different types and two sightings of
the marker 7 staged. -/
def staged : LocalisationBinding Nat :=
  { initial with features := [(0, [⟨1, 0, 0⟩]), (1, [⟨2, 1, 0⟩])]
                 markerIndices := [7, 7]
                 markerPositions := [⟨1, 0, 0⟩, ⟨3, 0, 0⟩] }

/-- An ordinary tick environment at time 1 (allowed, not fallen) in which one feature and
one marker have been sighted. -/
def sightingEnv : TickEnv :=
  { env 1 true false with features := [(0, [⟨1, 0, 0⟩])]
                          markerIndices := [7]
                          markerPositions := [⟨1, 0, 0⟩] }

/-- An ordinary tick environment at time 1 (allowed, not fallen) in which only the marker 7
has been sighted, once, at (1, 0, 0). -/
def markerEnv : TickEnv :=
  { env 1 true false with markerIndices := [7]
                          markerPositions := [⟨1, 0, 0⟩] }

/-- An ordinary tick environment at time 1 whose pulled parameters disable the watchdog. -/
def watchdogOffEnv : TickEnv :=
  { sightingEnv with rhio := { Config.default with consistencyEnabled := false } }

/-- Rational stand-ins for the numeric functions of the odometry: the angle 0 has cosine 1
and sine 0, every other angle has cosine 3/5 and sine 4/5 or -4/5 according to its sign. -/
def trigonometry : Trigonometry ℚ :=
  { cos := fun a => if a = 0 then 1 else 3 / 5
    sin := fun a => if a = 0 then 0 else if 0 < a then 4 / 5 else -(4 / 5)
    pi := 22 / 7
    angleDistance := fun a b => b - a }

/-- The state `halfTrust` one second after the construction with a boost duration of zero. -/
def noBoostState : LocalisationBinding Nat :=
  { halfTrust with cfg := { Config.default with noiseBoostDuration := 0 }
                   currTS := 1
                   elapsedSinceUniformReset := 1 }

/-- The constructed binding with a boost duration of zero, at a tick whose time stamp lies
one second before the last Uniform reset (the clock went backwards). -/
def backwardsState : LocalisationBinding Nat :=
  { initial with cfg := { Config.default with noiseBoostDuration := 0 }
                 lastUniformReset := 1
                 currTS := 0
                 elapsedSinceUniformReset := -1 }

end Sample

end Vision

/-! # Theorems -/

namespace Vision

variable {P : Type}

/-! ## Auxiliary facts -/

theorem clamp_bounds (q : ℚ) : 0 ≤ min 1 (max 0 q) ∧ min 1 (max 0 q) ≤ 1 :=
  ⟨le_min zero_le_one (le_max_left 0 q), min_le_left 1 _⟩

theorem issuedCalls_append (s t : LocalisationBinding P) (l : List Call)
    (h : t.calls = s.calls ++ l) : issuedCalls s t = l := by
  unfold issuedCalls
  rw [h, List.drop_left]

/-- The score written by the watchdog: the clamped sum of the previous score and the step
delta, also on the path that issues a reset (there the clamped value is already 0). -/
theorem applyWatcher_consistencyScore (E : Externals P) (ts : TimeStamp) (obs : List Observation)
    (s : LocalisationBinding P) :
    (applyWatcher E ts obs s).consistencyScore =
      min 1 (max 0 (s.consistencyScore +
        watcherDelta E s.cfg (E.filter.representativeParticle s.field_filter.particles) obs)) := by
  unfold applyWatcher
  simp only
  split
  · rename_i h
    simp only [Bool.and_eq_true, decide_eq_true_eq] at h
    exact le_antisymm (clamp_bounds _).1 h.1.2
  · rfl

theorem stepForbidden_consistencyScore (E : Externals P) (s : LocalisationBinding P) :
    (stepForbidden E s).consistencyScore = s.consistencyScore := by
  unfold stepForbidden
  simp only
  split <;> rfl

theorem updateConsistency_consistencyScore_bounds (E : Externals P) (env : TickEnv)
    (obs : List Observation) (s : LocalisationBinding P) :
    0 ≤ (updateConsistency E env obs s).consistencyScore ∧
      (updateConsistency E env obs s).consistencyScore ≤ 1 := by
  unfold updateConsistency
  split
  · rw [applyWatcher_consistencyScore]; exact clamp_bounds _
  · norm_num

theorem stepEstimate_consistencyScore (E : Externals P) (env : TickEnv) (s : LocalisationBinding P) :
    (stepEstimate E env s).consistencyScore =
      (updateConsistency E env (tickObservations E env { s with isForbidden := false })
        { s with isForbidden := false }).consistencyScore := rfl

theorem step_consistencyScore_bounds (E : Externals P) (env : TickEnv) (s : LocalisationBinding P)
    (h : 0 ≤ s.consistencyScore ∧ s.consistencyScore ≤ 1) :
    0 ≤ (step E env s).consistencyScore ∧ (step E env s).consistencyScore ≤ 1 := by
  have h0 : (tickStart env s).consistencyScore = s.consistencyScore := rfl
  unfold step
  simp only
  split
  · rw [stepForbidden_consistencyScore, h0]; exact h
  · split
    · exact h
    · split
      · exact h
      · rw [stepEstimate_consistencyScore]
        exact updateConsistency_consistencyScore_bounds E env _ _

theorem fieldReset_consistencyScore_bounds (now : TimeStamp) (type : ResetType)
    (x y noise theta thetaNoise : ℚ) (s : LocalisationBinding P)
    (h : 0 ≤ s.consistencyScore ∧ s.consistencyScore ≤ 1) :
    0 ≤ (fieldReset now type x y noise theta thetaNoise s).consistencyScore ∧
      (fieldReset now type x y noise theta thetaNoise s).consistencyScore ≤ 1 := by
  cases type <;> simp [fieldReset, h.1, h.2]

theorem runOps_consistencyScore_bounds (E : Externals P) (ops : List Op) :
    ∀ s : LocalisationBinding P, 0 ≤ s.consistencyScore ∧ s.consistencyScore ≤ 1 →
      0 ≤ (runOps E ops s).consistencyScore ∧ (runOps E ops s).consistencyScore ≤ 1 := by
  induction ops with
  | nil => intro s h; exact h
  | cons op rest ih =>
    intro s h
    have hstep : 0 ≤ (op.apply E s).consistencyScore ∧ (op.apply E s).consistencyScore ≤ 1 := by
      cases op with
      | tick env => exact step_consistencyScore_bounds E env s h
      | watcher ts obs =>
        show 0 ≤ (applyWatcher E ts obs s).consistencyScore ∧
          (applyWatcher E ts obs s).consistencyScore ≤ 1
        rw [applyWatcher_consistencyScore]; exact clamp_bounds _
      | reset now type x y noise theta thetaNoise =>
        exact fieldReset_consistencyScore_bounds now type x y noise theta thetaNoise s h
    exact ih _ hstep

/-- C1: starting from the constructed state, whose consistency score is 1, the score lies in
[0,1] after any sequence of ticks, watchdog updates and reset requests, whatever the
parameters, clock readings, sightings and observation scores are. -/
theorem consistencyScore_in_unit_interval (E : Externals P) (cfg : Config) (p0 : P)
    (now : TimeStamp) (ops : List Op) :
    (LocalisationBinding.construct cfg p0 now).consistencyScore = 1 ∧
    0 ≤ (runOps E ops (LocalisationBinding.construct cfg p0 now)).consistencyScore ∧
    (runOps E ops (LocalisationBinding.construct cfg p0 now)).consistencyScore ≤ 1 :=
  ⟨rfl, runOps_consistencyScore_bounds E ops _ ⟨by norm_num [LocalisationBinding.construct],
    by norm_num [LocalisationBinding.construct]⟩⟩

theorem watcherDelta_foldl (E : Externals P) (cfg : Config) (particle : FieldPosition)
    (obs : List Observation) (d : ℚ) :
    obs.foldl (fun stepDeltaScore o =>
      match o with
      | Observation.feature featureObs =>
        if E.potential featureObs particle > E.minScore featureObs
        then stepDeltaScore + cfg.consistencyGoodObsGain
        else stepDeltaScore - cfg.consistencyBadObsCost
      | _ => stepDeltaScore) d =
    d + (goodObservations E particle obs : ℚ) * cfg.consistencyGoodObsGain
      - (badObservations E particle obs : ℚ) * cfg.consistencyBadObsCost := by
  induction obs generalizing d with
  | nil => simp [goodObservations, badObservations]
  | cons o rest ih =>
    rw [List.foldl_cons, ih]
    cases o with
    | feature f =>
      by_cases hf : E.potential f particle > E.minScore f
      · have hnot : ¬ E.potential f particle ≤ E.minScore f := not_le.mpr hf
        simp [goodObservations, badObservations, List.countP_cons, hf, hnot]
        ring
      · have hle : E.potential f particle ≤ E.minScore f := not_lt.mp hf
        simp [goodObservations, badObservations, List.countP_cons, hf, hle]
        ring
    | tags t => simp [goodObservations, badObservations, List.countP_cons]
    | field g => simp [goodObservations, badObservations, List.countP_cons]

theorem watcherDelta_eq (E : Externals P) (cfg : Config) (particle : FieldPosition)
    (obs : List Observation) :
    watcherDelta E cfg particle obs =
      -cfg.consistencyStepCost + (goodObservations E particle obs : ℚ) * cfg.consistencyGoodObsGain
        - (badObservations E particle obs : ℚ) * cfg.consistencyBadObsCost :=
  watcherDelta_foldl E cfg particle obs _

/-- C2: one watchdog update leaves the score equal to
`min(1, max(0, s - stepCost + G * goodObsGain - B * badObsCost))`, where `G` counts the scored
observations whose potential at the representative pose is strictly above their minimal score
and `B` those whose potential is at most their minimal score.  The equation holds for every
update, in particular for those that do not trigger a reset. -/
theorem applyWatcher_score_formula (E : Externals P) (ts : TimeStamp) (obs : List Observation)
    (s : LocalisationBinding P) :
    (applyWatcher E ts obs s).consistencyScore =
      min 1 (max 0 (s.consistencyScore - s.cfg.consistencyStepCost
        + (goodObservations E (E.filter.representativeParticle s.field_filter.particles) obs : ℚ)
            * s.cfg.consistencyGoodObsGain
        - (badObservations E (E.filter.representativeParticle s.field_filter.particles) obs : ℚ)
            * s.cfg.consistencyBadObsCost)) := by
  rw [applyWatcher_consistencyScore, watcherDelta_eq]
  congr 2
  ring

/-- The two possible outcomes of a watchdog update, with the state each of them leaves. -/
theorem applyWatcher_cases (E : Externals P) (ts : TimeStamp) (obs : List Observation)
    (s : LocalisationBinding P) :
    let c := min 1 (max 0 (s.consistencyScore +
        watcherDelta E s.cfg (E.filter.representativeParticle s.field_filter.particles) obs))
    ((s.elapsedSinceUniformReset > s.cfg.consistencyResetInterval ∧ c ≤ 0 ∧
        s.field_filter.resetType = ResetType.None) ∧
      applyWatcher E ts obs s =
        { s with lastFieldReset := ts
                 lastUniformReset := ts
                 consistencyScore := 0
                 field_filter := s.field_filter.askForReset ResetType.Uniform
                 calls := s.calls ++ [Call.applyWatcher obs, Call.askForReset ResetType.Uniform] }) ∨
    (¬ (s.elapsedSinceUniformReset > s.cfg.consistencyResetInterval ∧ c ≤ 0 ∧
        s.field_filter.resetType = ResetType.None) ∧
      applyWatcher E ts obs s =
        { s with consistencyScore := c
                 calls := s.calls ++ [Call.applyWatcher obs] }) := by
  intro c
  by_cases h : s.elapsedSinceUniformReset > s.cfg.consistencyResetInterval ∧ c ≤ 0 ∧
        s.field_filter.resetType = ResetType.None
  · left
    refine ⟨h, ?_⟩
    obtain ⟨h1, h2, h3⟩ := h
    simp only [applyWatcher, FieldPF.isResetPending]
    rw [if_pos]
    · simp
    · simp only [Bool.and_eq_true, decide_eq_true_eq, Bool.not_eq_true', decide_eq_false_iff_not,
        ne_eq, not_not]
      exact ⟨⟨h1, h2⟩, h3⟩
  · right
    refine ⟨h, ?_⟩
    simp only [applyWatcher, FieldPF.isResetPending]
    rw [if_neg]
    simp only [Bool.and_eq_true, decide_eq_true_eq, Bool.not_eq_true', decide_eq_false_iff_not,
        ne_eq, not_not]
    intro h'
    exact h ⟨h'.1.1, h'.1.2, h'.2⟩

/-- C3: a watchdog update issues a reset request exactly when the updated and clamped score
is 0, no reset is pending in the filter and the time elapsed since the last Uniform reset is
strictly greater than `consistencyResetInterval`.  When it fires, the request is a Uniform
one, both reset time stamps are set to the current time and the score is 0; when it does
not, the filter (pending slot included) and both reset time stamps are unchanged. -/
theorem applyWatcher_reset_iff (E : Externals P) (ts : TimeStamp) (obs : List Observation)
    (s : LocalisationBinding P) :
    ((issuedCalls s (applyWatcher E ts obs s)).any Call.isAskForReset = true ↔
      ((applyWatcher E ts obs s).consistencyScore = 0 ∧
        s.field_filter.isResetPending = false ∧
        s.elapsedSinceUniformReset > s.cfg.consistencyResetInterval)) ∧
    ((issuedCalls s (applyWatcher E ts obs s)).any Call.isAskForReset = true →
      issuedCalls s (applyWatcher E ts obs s) =
        [Call.applyWatcher obs, Call.askForReset ResetType.Uniform] ∧
      (applyWatcher E ts obs s).field_filter.resetType = ResetType.Uniform ∧
      (applyWatcher E ts obs s).lastFieldReset = ts ∧
      (applyWatcher E ts obs s).lastUniformReset = ts ∧
      (applyWatcher E ts obs s).consistencyScore = 0) ∧
    ((issuedCalls s (applyWatcher E ts obs s)).any Call.isAskForReset = false →
      (applyWatcher E ts obs s).field_filter = s.field_filter ∧
      (applyWatcher E ts obs s).lastFieldReset = s.lastFieldReset ∧
      (applyWatcher E ts obs s).lastUniformReset = s.lastUniformReset) := by
  have hb := clamp_bounds (s.consistencyScore +
        watcherDelta E s.cfg (E.filter.representativeParticle s.field_filter.particles) obs)
  rcases applyWatcher_cases E ts obs s with ⟨⟨h1, h2, h3⟩, heq⟩ | ⟨hn, heq⟩
  · have hc : issuedCalls s (applyWatcher E ts obs s) =
        [Call.applyWatcher obs, Call.askForReset ResetType.Uniform] :=
      issuedCalls_append _ _ _ (by rw [heq])
    rw [hc, heq]
    simp [Call.isAskForReset, FieldPF.isResetPending, FieldPF.askForReset, h1, h3]
  · have hc : issuedCalls s (applyWatcher E ts obs s) = [Call.applyWatcher obs] :=
      issuedCalls_append _ _ _ (by rw [heq])
    rw [hc, heq]
    simp only [List.any_cons, Call.isAskForReset, List.any_nil, Bool.or_self, Bool.false_eq_true,
      false_iff, false_implies, true_and, implies_true, and_true, not_and, not_lt]
    intro h0 hp
    by_contra hlt
    apply hn
    refine ⟨not_le.mp hlt, le_of_eq h0, ?_⟩
    simpa [FieldPF.isResetPending] using hp

theorem applyWatcher_cfg (E : Externals P) (ts : TimeStamp) (obs : List Observation)
    (s : LocalisationBinding P) : (applyWatcher E ts obs s).cfg = s.cfg := by
  rcases applyWatcher_cases E ts obs s with ⟨_, heq⟩ | ⟨_, heq⟩ <;> rw [heq]

theorem goodObservations_of_none_scored (E : Externals P) (particle : FieldPosition)
    (obs : List Observation) (h : ∀ o ∈ obs, o.isScored = false) :
    goodObservations E particle obs = 0 := by
  unfold goodObservations
  rw [List.countP_eq_zero]
  intro o ho
  have := h o ho
  cases o <;> simp_all [Observation.isScored]

theorem badObservations_of_none_scored (E : Externals P) (particle : FieldPosition)
    (obs : List Observation) (h : ∀ o ∈ obs, o.isScored = false) :
    badObservations E particle obs = 0 := by
  unfold badObservations
  rw [List.countP_eq_zero]
  intro o ho
  have := h o ho
  cases o <;> simp_all [Observation.isScored]

theorem watcherDelta_of_none_scored (E : Externals P) (cfg : Config) (particle : FieldPosition)
    (obs : List Observation) (h : ∀ o ∈ obs, o.isScored = false) :
    watcherDelta E cfg particle obs = -cfg.consistencyStepCost := by
  rw [watcherDelta_eq, goodObservations_of_none_scored E particle obs h,
    badObservations_of_none_scored E particle obs h]
  simp

/-- One decay step on the closed form `max 0 (1 - j / 200)`. -/
theorem decay_step (j : ℕ) :
    min (1 : ℚ) (max 0 (max 0 (1 - (j : ℚ) / 200) + -(5 / 1000))) = max 0 (1 - ((j + 1 : ℕ) : ℚ) / 200) := by
  have hj : (0 : ℚ) ≤ (j : ℚ) := Nat.cast_nonneg j
  push_cast
  rcases le_total (1 - (j : ℚ) / 200) 0 with h | h
  · rw [max_eq_left h, max_eq_left (by norm_num), max_eq_left (by linarith), min_eq_right (by norm_num)]
  · rw [max_eq_right h]
    rcases le_total (1 - (j : ℚ) / 200 + -(5 / 1000)) 0 with h2 | h2
    · rw [max_eq_left h2, max_eq_left (by linarith), min_eq_right (by norm_num)]
    · rw [max_eq_right h2, max_eq_right (by linarith), min_eq_right (by linarith)]
      ring

theorem watcherRun_score_from (E : Externals P) (inputs : List (TimeStamp × List Observation)) :
    ∀ (j : ℕ) (s : LocalisationBinding P),
      s.consistencyScore = max 0 (1 - (j : ℚ) / 200) →
      s.cfg.consistencyStepCost = 5 / 1000 →
      (∀ i ∈ inputs, ∀ o ∈ i.2, o.isScored = false) →
      (watcherRun E inputs s).consistencyScore = max 0 (1 - ((j + inputs.length : ℕ) : ℚ) / 200) := by
  induction inputs with
  | nil => intro j s hs _ _; simpa [watcherRun] using hs
  | cons i rest ih =>
    intro j s hs hc hobs
    have hi : ∀ o ∈ i.2, o.isScored = false := hobs i (List.mem_cons_self _ _)
    have hrest : ∀ i' ∈ rest, ∀ o ∈ i'.2, o.isScored = false :=
      fun i' hi' => hobs i' (List.mem_cons_of_mem _ hi')
    have h1 : (applyWatcher E i.1 i.2 s).consistencyScore = max 0 (1 - ((j + 1 : ℕ) : ℚ) / 200) := by
      rw [applyWatcher_consistencyScore, watcherDelta_of_none_scored E _ _ _ hi, hs, hc]
      exact decay_step j
    have h2 : (applyWatcher E i.1 i.2 s).cfg.consistencyStepCost = 5 / 1000 := by
      rw [applyWatcher_cfg]; exact hc
    have := ih (j + 1) (applyWatcher E i.1 i.2 s) h1 h2 hrest
    rw [show j + (i :: rest).length = j + 1 + rest.length by simp; omega]
    exact this

/-- C5: starting from a consistency score of 1 with `stepCost = 0.005` and no scorable
observation in any update, the score after `k` watchdog updates is `max(0, 1 - 0.005 k)`;
it is strictly positive for `k < 200` and equal to 0 for `k ≥ 200`. -/
theorem watcherRun_score_decay (E : Externals P) (inputs : List (TimeStamp × List Observation))
    (s : LocalisationBinding P) (hs : s.consistencyScore = 1)
    (hc : s.cfg.consistencyStepCost = 5 / 1000)
    (hobs : ∀ i ∈ inputs, ∀ o ∈ i.2, o.isScored = false) :
    (watcherRun E inputs s).consistencyScore = max 0 (1 - 5 / 1000 * (inputs.length : ℚ)) ∧
    (inputs.length < 200 → 0 < (watcherRun E inputs s).consistencyScore) ∧
    (200 ≤ inputs.length → (watcherRun E inputs s).consistencyScore = 0) := by
  have h := watcherRun_score_from E inputs 0 s (by simp [hs]) hc hobs
  rw [Nat.zero_add] at h
  have e : (1 : ℚ) - 5 / 1000 * (inputs.length : ℚ) = 1 - (inputs.length : ℚ) / 200 := by ring
  rw [e, h]
  refine ⟨rfl, ?_, ?_⟩
  · intro hlt
    have : (inputs.length : ℚ) < 200 := by exact_mod_cast hlt
    exact lt_max_of_lt_right (by linarith)
  · intro hge
    have : (200 : ℚ) ≤ (inputs.length : ℚ) := by exact_mod_cast hge
    exact max_eq_left (by linarith)

/-- Witness for C5: two updates from the constructed state, the second one seeing only the
field-shape observation. -/
theorem watcherRun_score_decay_witness :
    Sample.initial.consistencyScore = 1 ∧
    (watcherRun Sample.externals [(1, []), (2, [Observation.field false])]
      Sample.initial).consistencyScore = 99 / 100 := by
  have h := watcherRun_score_decay Sample.externals [(1, []), (2, [Observation.field false])]
    Sample.initial rfl (by norm_num [Sample.initial, LocalisationBinding.construct, Config.default])
    (by simp [Observation.isScored])
  refine ⟨rfl, ?_⟩
  rw [h.1]
  norm_num

theorem step_of_not_allowed (E : Externals P) (env : TickEnv) (s : LocalisationBinding P)
    (h : refereeAllowsToPlay env = false) : step E env s = stepForbidden E (tickStart env s) := by
  simp [step, h]

theorem step_of_fallen (E : Externals P) (env : TickEnv) (s : LocalisationBinding P)
    (h : refereeAllowsToPlay env = true) (hf : env.isFallen = true) :
    step E env s = publishToRhIO (tickStart env s) := by
  simp [step, h, hf]

/-- The state left by the gated branch of a tick, by pending reset at its start. -/
theorem stepForbidden_eq (E : Externals P) (s : LocalisationBinding P) :
    stepForbidden E s =
      publishToRhIO (publishToLoc E (importFiltersResults E
        (if s.field_filter.resetType = ResetType.Custom then
          { s with lastForbidden := s.currTS
                   isForbidden := true
                   field_filter :=
                    { particles := E.filter.resetParticles ResetType.Custom s.customReset
                        s.field_filter.particles
                      resetType := ResetType.None }
                   calls := s.calls ++
                    [Call.cancelPendingReset ResetType.Uniform, Call.applyPendingReset] }
        else
          { s with lastForbidden := s.currTS
                   isForbidden := true
                   field_filter :=
                    { particles := s.field_filter.particles
                      resetType := if s.field_filter.resetType = ResetType.Uniform
                        then ResetType.None else s.field_filter.resetType }
                   calls := s.calls ++ [Call.cancelPendingReset ResetType.Uniform] }))) := by
  rcases s with ⟨cfg, ⟨particles, resetType⟩, _⟩
  cases resetType <;>
    simp [stepForbidden, FieldPF.cancelPendingReset, FieldPF.getPendingReset,
      FieldPF.applyPendingReset]

/-- C6: a tick during which the play gate does not allow playing does no estimation work.
After it the pending reset is never Uniform (a pending Uniform request is dropped with the
population untouched), the consistency score is unchanged and neither the watchdog nor the
filter step has been called, `lastTS` is unchanged, and the forbidden flag is set with
`lastForbidden` equal to the time stamp of the tick. -/
theorem step_not_allowed_skips_estimation (E : Externals P) (env : TickEnv)
    (s : LocalisationBinding P) (h : refereeAllowsToPlay env = false) :
    (step E env s).field_filter.resetType ≠ ResetType.Uniform ∧
    (s.field_filter.resetType = ResetType.Uniform →
      (step E env s).field_filter.resetType = ResetType.None ∧
      (step E env s).field_filter.particles = s.field_filter.particles ∧
      (issuedCalls s (step E env s)).any Call.isApplyPendingReset = false) ∧
    (step E env s).consistencyScore = s.consistencyScore ∧
    (issuedCalls s (step E env s)).any Call.isApplyWatcher = false ∧
    (issuedCalls s (step E env s)).any Call.isFilterStep = false ∧
    (step E env s).lastTS = s.lastTS ∧
    (step E env s).isForbidden = true ∧
    (step E env s).lastForbidden = env.nowTS := by
  rw [step_of_not_allowed E env s h, stepForbidden_eq]
  have hr : (tickStart env s).field_filter.resetType = s.field_filter.resetType := rfl
  rw [hr]
  by_cases hc : s.field_filter.resetType = ResetType.Custom
  · rw [if_pos hc]
    have hcalls : issuedCalls s ( publishToRhIO (publishToLoc E (importFiltersResults E
        { tickStart env s with
          lastForbidden := (tickStart env s).currTS
          isForbidden := true
          field_filter :=
            { particles := E.filter.resetParticles ResetType.Custom (tickStart env s).customReset
                (tickStart env s).field_filter.particles
              resetType := ResetType.None }
          calls := (tickStart env s).calls ++
            [Call.cancelPendingReset ResetType.Uniform, Call.applyPendingReset] }))) =
        [Call.cancelPendingReset ResetType.Uniform, Call.applyPendingReset,
          Call.importFiltersResults, Call.publishToLoc, Call.rhioPush] :=
      issuedCalls_append _ _ _ (by
        simp [ publishToRhIO, publishToLoc, importFiltersResults, tickStart, stealFromVision,
          importFromRhIO])
    rw [hcalls]
    simp [ publishToRhIO, publishToLoc, importFiltersResults, tickStart, stealFromVision,
      importFromRhIO, hc, Call.isApplyWatcher, Call.isFilterStep]
  · rw [if_neg hc]
    have hcalls : issuedCalls s ( publishToRhIO (publishToLoc E (importFiltersResults E
        { tickStart env s with
          lastForbidden := (tickStart env s).currTS
          isForbidden := true
          field_filter :=
            { particles := (tickStart env s).field_filter.particles
              resetType := if s.field_filter.resetType = ResetType.Uniform
                then ResetType.None else s.field_filter.resetType }
          calls := (tickStart env s).calls ++ [Call.cancelPendingReset ResetType.Uniform] }))) =
        [Call.cancelPendingReset ResetType.Uniform,
          Call.importFiltersResults, Call.publishToLoc, Call.rhioPush] :=
      issuedCalls_append _ _ _ (by
        simp [ publishToRhIO, publishToLoc, importFiltersResults, tickStart, stealFromVision,
          importFromRhIO])
    rw [hcalls]
    simp [ publishToRhIO, publishToLoc, importFiltersResults, tickStart, stealFromVision,
      importFromRhIO, Call.isApplyWatcher, Call.isFilterStep, Call.isApplyPendingReset]
    constructor
    · split
      · simp
      · assumption
    · intro h1 h2
      exact absurd h1 h2

/-- Witness for C6: a gated tick at time 1 on the constructed state with a Uniform reset
requested at time 0. -/
theorem step_not_allowed_skips_estimation_witness :
    refereeAllowsToPlay (Sample.env 1 false false) = false ∧
    (step Sample.externals (Sample.env 1 false false)
      (fieldReset 0 ResetType.Uniform 0 0 0 0 0 Sample.initial)).field_filter.resetType
        ≠ ResetType.Uniform ∧
    (step Sample.externals (Sample.env 1 false false)
      (fieldReset 0 ResetType.Uniform 0 0 0 0 0 Sample.initial)).consistencyScore =
      (fieldReset 0 ResetType.Uniform 0 0 0 0 0 Sample.initial).consistencyScore :=
  ⟨by decide,
   (step_not_allowed_skips_estimation Sample.externals (Sample.env 1 false false)
      (fieldReset 0 ResetType.Uniform 0 0 0 0 0 Sample.initial) (by decide)).1,
   (step_not_allowed_skips_estimation Sample.externals (Sample.env 1 false false)
      (fieldReset 0 ResetType.Uniform 0 0 0 0 0 Sample.initial) (by decide)).2.2.1⟩

/-- C7: when a Custom reset is pending, a tick during which the play gate does not allow
playing applies it within the tick: `applyPendingReset` is called exactly once, the pending
slot is `None` afterwards and the population is the one produced by the Custom reset.  The
fall report is not consulted on this path, so the statement holds for fallen robots too. -/
theorem step_not_allowed_applies_custom (E : Externals P) (env : TickEnv)
    (s : LocalisationBinding P) (h : refereeAllowsToPlay env = false)
    (hp : s.field_filter.resetType = ResetType.Custom) :
    issuedCalls s (step E env s) =
      [Call.cancelPendingReset ResetType.Uniform, Call.applyPendingReset,
        Call.importFiltersResults, Call.publishToLoc, Call.rhioPush] ∧
    (issuedCalls s (step E env s)).countP Call.isApplyPendingReset = 1 ∧
    (step E env s).field_filter.resetType = ResetType.None ∧
    (step E env s).field_filter.particles =
      E.filter.resetParticles ResetType.Custom s.customReset s.field_filter.particles := by
  have hcalls : issuedCalls s (step E env s) =
      [Call.cancelPendingReset ResetType.Uniform, Call.applyPendingReset,
        Call.importFiltersResults, Call.publishToLoc, Call.rhioPush] := by
    apply issuedCalls_append
    rw [step_of_not_allowed E env s h, stepForbidden_eq]
    have hr : (tickStart env s).field_filter.resetType = ResetType.Custom := hp
    rw [if_pos hr]
    simp [ publishToRhIO, publishToLoc, importFiltersResults, tickStart, stealFromVision,
      importFromRhIO]
  refine ⟨hcalls, ?_, ?_, ?_⟩
  · rw [hcalls]; rfl
  · rw [step_of_not_allowed E env s h, stepForbidden_eq]
    have hr : (tickStart env s).field_filter.resetType = ResetType.Custom := hp
    rw [if_pos hr]
    rfl
  · rw [step_of_not_allowed E env s h, stepForbidden_eq]
    have hr : (tickStart env s).field_filter.resetType = ResetType.Custom := hp
    rw [if_pos hr]
    rfl

/-- Witness for C7: a gated tick, with the robot also reported fallen, after a Custom reset
at pose (1, 1, 0) has been requested on the constructed state. -/
theorem step_not_allowed_applies_custom_witness :
    refereeAllowsToPlay (Sample.env 1 false true) = false ∧
    (Sample.env 1 false true).isFallen = true ∧
    (fieldReset 0 ResetType.Custom 1 1 0 0 0 Sample.initial).field_filter.resetType
      = ResetType.Custom ∧
    (step Sample.externals (Sample.env 1 false true)
      (fieldReset 0 ResetType.Custom 1 1 0 0 0 Sample.initial)).field_filter.resetType
        = ResetType.None :=
  ⟨by decide, rfl, rfl,
   (step_not_allowed_applies_custom Sample.externals (Sample.env 1 false true)
      (fieldReset 0 ResetType.Custom 1 1 0 0 0 Sample.initial) (by decide) rfl).2.2.1⟩

/-- C8: a tick that is allowed to play while the robot is reported fallen leaves the
estimator untouched: the filter (population and pending reset), the consistency score, the
imported pose and quality, `lastTS`, the forbidden flag and `lastForbidden` are unchanged,
and the only call issued is the push of the published values, so neither the watchdog nor
the filter step runs. -/
theorem step_fallen_preserves_estimate (E : Externals P) (env : TickEnv)
    (s : LocalisationBinding P) (h : refereeAllowsToPlay env = true)
    (hf : env.isFallen = true) :
    (step E env s).field_filter = s.field_filter ∧
    (step E env s).consistencyScore = s.consistencyScore ∧
    (step E env s).robot = s.robot ∧
    (step E env s).robotQ = s.robotQ ∧
    (step E env s).lastTS = s.lastTS ∧
    (step E env s).isForbidden = s.isForbidden ∧
    (step E env s).lastForbidden = s.lastForbidden ∧
    issuedCalls s (step E env s) = [Call.rhioPush] ∧
    (issuedCalls s (step E env s)).any Call.isApplyWatcher = false ∧
    (issuedCalls s (step E env s)).any Call.isFilterStep = false := by
  have hcalls : issuedCalls s (step E env s) = [Call.rhioPush] := by
    apply issuedCalls_append
    rw [step_of_fallen E env s h hf]
    rfl
  rw [hcalls, step_of_fallen E env s h hf]
  exact ⟨rfl, rfl, rfl, rfl, rfl, rfl, rfl, rfl, rfl, rfl⟩

/-- Witness for C8: an allowed tick with the robot fallen, a Fall reset being pending. -/
theorem step_fallen_preserves_estimate_witness :
    refereeAllowsToPlay (Sample.env 1 true true) = true ∧
    (Sample.env 1 true true).isFallen = true ∧
    (step Sample.externals (Sample.env 1 true true)
      (fieldReset 0 ResetType.Fall 0 0 0 0 0 Sample.initial)).field_filter =
      (fieldReset 0 ResetType.Fall 0 0 0 0 0 Sample.initial).field_filter :=
  ⟨rfl, rfl,
   (step_fallen_preserves_estimate Sample.externals (Sample.env 1 true true)
      (fieldReset 0 ResetType.Fall 0 0 0 0 0 Sample.initial) rfl rfl).1⟩

/-- The condition under which an allowed, not fallen tick is delayed. -/
theorem step_of_delayed (E : Externals P) (env : TickEnv) (s : LocalisationBinding P)
    (h : refereeAllowsToPlay env = true) (hf : env.isFallen = false)
    (hforb : s.isForbidden = true) (hel : diffSec s.lastForbidden env.nowTS < 10)
    (hp : s.field_filter.resetType = ResetType.None ∨
      s.field_filter.resetType = ResetType.Uniform) :
    step E env s = publishToRhIO (publishToLoc E (importFiltersResults E (tickStart env s))) := by
  have h1 : (tickStart env s).isForbidden = true := hforb
  have h2 : diffSec (tickStart env s).lastForbidden (tickStart env s).currTS < 10 := hel
  have h3 : (tickStart env s).field_filter.getPendingReset = ResetType.None ∨
      (tickStart env s).field_filter.getPendingReset = ResetType.Uniform := hp
  simp only [step, h, hf, h1, h2, h3, Bool.not_true, Bool.false_eq_true, if_false,
    decide_True, Bool.and_self, Bool.or_eq_true, decide_eq_true_eq, Bool.true_and, if_true]

theorem step_of_estimate (E : Externals P) (env : TickEnv) (s : LocalisationBinding P)
    (h : refereeAllowsToPlay env = true) (hf : env.isFallen = false)
    (hd : ¬ (s.isForbidden = true ∧ diffSec s.lastForbidden env.nowTS < 10 ∧
      (s.field_filter.resetType = ResetType.None ∨
        s.field_filter.resetType = ResetType.Uniform))) :
    step E env s = stepEstimate E env (tickStart env s) := by
  have hd' : ¬ ((tickStart env s).isForbidden = true ∧
      diffSec (tickStart env s).lastForbidden (tickStart env s).currTS < 10 ∧
      ((tickStart env s).field_filter.getPendingReset = ResetType.None ∨
        (tickStart env s).field_filter.getPendingReset = ResetType.Uniform)) := hd
  simp only [step, h, hf, Bool.not_true, Bool.false_eq_true, if_false]
  rw [if_neg]
  simpa [and_assoc] using hd'

theorem updateFilter_calls (E : Externals P) (env : TickEnv) (obs : List Observation)
    (s : LocalisationBinding P) :
    ∃ (t0 t1 : ℚ) (rc : RobotController) (dt : ℚ),
      (updateFilter E env obs s).calls =
        s.calls ++ [Call.odometryDiff t0 t1, Call.resize s.cfg.nb_particles_ff,
          Call.filterStep rc obs dt] :=
  ⟨_, _, _, _, rfl⟩

/-- The calls issued by the estimation stage end with the odometry query, the resize and the
filter step, followed by the import and the two publications; before them the consistency
update runs. -/
theorem stepEstimate_calls (E : Externals P) (env : TickEnv) (s : LocalisationBinding P) :
    ∃ (t0 t1 : ℚ) (rc : RobotController) (dt : ℚ),
      (stepEstimate E env s).calls =
        (updateConsistency E env (tickObservations E env { s with isForbidden := false })
          { s with isForbidden := false }).calls ++
        [Call.odometryDiff t0 t1, Call.resize
          (updateConsistency E env (tickObservations E env { s with isForbidden := false })
            { s with isForbidden := false }).cfg.nb_particles_ff,
          Call.filterStep rc (tickObservations E env { s with isForbidden := false }) dt,
          Call.importFiltersResults, Call.publishToLoc, Call.rhioPush] := by
  obtain ⟨t0, t1, rc, dt, hc⟩ := updateFilter_calls E env
    (tickObservations E env { s with isForbidden := false })
    (updateConsistency E env (tickObservations E env { s with isForbidden := false })
      { s with isForbidden := false })
  refine ⟨t0, t1, rc, dt, ?_⟩
  have hs : (stepEstimate E env s).calls =
      (updateFilter E env (tickObservations E env { s with isForbidden := false })
        (updateConsistency E env (tickObservations E env { s with isForbidden := false })
          { s with isForbidden := false })).calls ++ [Call.importFiltersResults] ++
        [Call.publishToLoc] ++ [Call.rhioPush] := rfl
  rw [hs, hc]
  simp

theorem updateConsistency_calls (E : Externals P) (env : TickEnv) (obs : List Observation)
    (s : LocalisationBinding P) :
    ∃ l, (updateConsistency E env obs s).calls = s.calls ++ l ∧ l.any Call.isFilterStep = false := by
  unfold updateConsistency
  split
  · rcases applyWatcher_cases E env.watcherTS obs s with ⟨_, heq⟩ | ⟨_, heq⟩
    · exact ⟨[Call.applyWatcher obs, Call.askForReset ResetType.Uniform], by rw [heq], rfl⟩
    · exact ⟨[Call.applyWatcher obs], by rw [heq], rfl⟩
  · exact ⟨[], by simp, rfl⟩

theorem stepEstimate_runs_filter_step (E : Externals P) (env : TickEnv)
    (s t : LocalisationBinding P) (hst : t.calls = s.calls) :
    (issuedCalls s (stepEstimate E env t)).any Call.isFilterStep = true := by
  obtain ⟨t0, t1, rc, dt, hc⟩ := stepEstimate_calls E env t
  obtain ⟨l, hl, _⟩ := updateConsistency_calls E env
    (tickObservations E env { t with isForbidden := false }) { t with isForbidden := false }
  have hl' : (updateConsistency E env (tickObservations E env { t with isForbidden := false })
      { t with isForbidden := false }).calls = s.calls ++ l := by rw [hl]; simp [hst]
  rw [hl', List.append_assoc] at hc
  rw [issuedCalls_append s _ _ hc]
  simp [Call.isFilterStep]

/-- What the consistency update leaves unchanged. -/
theorem updateConsistency_frame (E : Externals P) (env : TickEnv) (obs : List Observation)
    (s : LocalisationBinding P) :
    (updateConsistency E env obs s).isForbidden = s.isForbidden ∧
    (updateConsistency E env obs s).cfg = s.cfg ∧
    (updateConsistency E env obs s).customReset = s.customReset ∧
    (updateConsistency E env obs s).field_filter.particles = s.field_filter.particles ∧
    (updateConsistency E env obs s).currTS = s.currTS ∧
    (updateConsistency E env obs s).lastTS = s.lastTS ∧
    (updateConsistency E env obs s).lastForbidden = s.lastForbidden ∧
    (updateConsistency E env obs s).elapsedSinceUniformReset = s.elapsedSinceUniformReset := by
  unfold updateConsistency
  split
  · rcases applyWatcher_cases E env.watcherTS obs s with ⟨_, heq⟩ | ⟨_, heq⟩ <;> rw [heq] <;>
      exact ⟨rfl, rfl, rfl, rfl, rfl, rfl, rfl, rfl⟩
  · exact ⟨rfl, rfl, rfl, rfl, rfl, rfl, rfl, rfl⟩

theorem stepEstimate_isForbidden (E : Externals P) (env : TickEnv) (s : LocalisationBinding P) :
    (stepEstimate E env s).isForbidden = false := by
  have : (stepEstimate E env s).isForbidden =
      (updateConsistency E env (tickObservations E env { s with isForbidden := false })
          { s with isForbidden := false }).isForbidden := rfl
  rw [this, (updateConsistency_frame E env _ _).1]

/-- The pending slot after the filter update: the filter step applies whatever is pending
once the consistency update has run. -/
theorem updateFilter_resetType (E : Externals P) (env : TickEnv) (obs : List Observation)
    (s : LocalisationBinding P) :
    (updateFilter E env obs s).field_filter.resetType = ResetType.None := by
  rcases s with ⟨cfg, ⟨particles, resetType⟩, _⟩
  cases resetType <;>
    simp [updateFilter, FieldPF.step, FieldPF.resize, FieldPF.isResetPending,
      FieldPF.applyPendingReset]

theorem stepEstimate_resetType (E : Externals P) (env : TickEnv) (s : LocalisationBinding P) :
    (stepEstimate E env s).field_filter.resetType = ResetType.None := by
  have : (stepEstimate E env s).field_filter.resetType =
      (updateFilter E env (tickObservations E env { s with isForbidden := false })
        (updateConsistency E env (tickObservations E env { s with isForbidden := false })
          { s with isForbidden := false })).field_filter.resetType := rfl
  rw [this, updateFilter_resetType]

/-- The amended C9: in the grace period (allowed, not fallen, forbidden flag set, less than
10 s since the last forbidden tick) the tick is delayed when no reset or a Uniform reset is
pending: the flag stays set, filter and score are unchanged and only the import and the two
publications are called.  It proceeds to estimation when a Custom, Fall or Borders reset is
pending: the flag is cleared, the filter step runs and the reset is applied. -/
theorem step_grace_period (E : Externals P) (env : TickEnv) (s : LocalisationBinding P)
    (h : refereeAllowsToPlay env = true) (hf : env.isFallen = false)
    (hforb : s.isForbidden = true) (hel : diffSec s.lastForbidden env.nowTS < 10) :
    ((s.field_filter.resetType = ResetType.None ∨
        s.field_filter.resetType = ResetType.Uniform) →
      (step E env s).isForbidden = true ∧
      (step E env s).field_filter = s.field_filter ∧
      (step E env s).consistencyScore = s.consistencyScore ∧
      issuedCalls s (step E env s) =
        [Call.importFiltersResults, Call.publishToLoc, Call.rhioPush] ∧
      (issuedCalls s (step E env s)).any Call.isApplyWatcher = false ∧
      (issuedCalls s (step E env s)).any Call.isFilterStep = false) ∧
    ((s.field_filter.resetType = ResetType.Custom ∨
        s.field_filter.resetType = ResetType.Fall ∨
        s.field_filter.resetType = ResetType.Borders) →
      (step E env s).isForbidden = false ∧
      (issuedCalls s (step E env s)).any Call.isFilterStep = true ∧
      (step E env s).field_filter.resetType = ResetType.None) := by
  constructor
  · intro hp
    have hcalls : issuedCalls s (step E env s) =
        [Call.importFiltersResults, Call.publishToLoc, Call.rhioPush] := by
      apply issuedCalls_append
      rw [step_of_delayed E env s h hf hforb hel hp]
      simp [ publishToRhIO, publishToLoc, importFiltersResults, tickStart, stealFromVision,
        importFromRhIO]
    rw [hcalls, step_of_delayed E env s h hf hforb hel hp]
    exact ⟨hforb, rfl, rfl, rfl, rfl, rfl⟩
  · intro hp
    have hd : ¬ (s.isForbidden = true ∧ diffSec s.lastForbidden env.nowTS < 10 ∧
        (s.field_filter.resetType = ResetType.None ∨
          s.field_filter.resetType = ResetType.Uniform)) := by
      rintro ⟨_, _, h1 | h1⟩ <;> rcases hp with h2 | h2 | h2 <;> rw [h1] at h2 <;> cases h2
    rw [step_of_estimate E env s h hf hd]
    exact ⟨stepEstimate_isForbidden E env _, stepEstimate_runs_filter_step E env s _ rfl,
      stepEstimate_resetType E env _⟩

theorem Sample.graceState_isForbidden (t : ResetType) :
    (Sample.graceState t).isForbidden = true := by
  cases t <;> rfl

theorem Sample.graceState_lastForbidden (t : ResetType) :
    (Sample.graceState t).lastForbidden = 1 := by
  cases t <;> rfl

theorem Sample.graceState_resetType (t : ResetType) :
    (Sample.graceState t).field_filter.resetType = t := by
  cases t <;> rfl

theorem Sample.graceState_elapsed (t : ResetType) :
    diffSec (Sample.graceState t).lastForbidden (Sample.env 3 true false).nowTS < 10 := by
  rw [Sample.graceState_lastForbidden]
  norm_num [diffSec, Sample.env]

/-- Counterexample to C9 as stated: in the grace period (forbidden flag set one second
before, tick allowed and not fallen) with a Uniform reset pending, the tick does not proceed
to estimation: the forbidden flag stays set and the filter step is not called. -/
theorem grace_period_uniform_pending_is_delayed :
    refereeAllowsToPlay (Sample.env 3 true false) = true ∧
    (Sample.env 3 true false).isFallen = false ∧
    (Sample.graceState ResetType.Uniform).isForbidden = true ∧
    diffSec (Sample.graceState ResetType.Uniform).lastForbidden (Sample.env 3 true false).nowTS < 10 ∧
    (Sample.graceState ResetType.Uniform).field_filter.isResetPending = true ∧
    (step Sample.externals (Sample.env 3 true false)
      (Sample.graceState ResetType.Uniform)).isForbidden = true ∧
    (issuedCalls (Sample.graceState ResetType.Uniform)
      (step Sample.externals (Sample.env 3 true false)
        (Sample.graceState ResetType.Uniform))).any Call.isFilterStep = false := by
  have hstep := step_of_delayed Sample.externals (Sample.env 3 true false)
    (Sample.graceState ResetType.Uniform) rfl rfl (Sample.graceState_isForbidden _)
    (Sample.graceState_elapsed _) (Or.inr (Sample.graceState_resetType _))
  refine ⟨rfl, rfl, Sample.graceState_isForbidden _, Sample.graceState_elapsed _, rfl, ?_, ?_⟩
  · rw [hstep]; exact Sample.graceState_isForbidden _
  · have hc : issuedCalls (Sample.graceState ResetType.Uniform)
        (step Sample.externals (Sample.env 3 true false) (Sample.graceState ResetType.Uniform)) =
        [Call.importFiltersResults, Call.publishToLoc, Call.rhioPush] := by
      apply issuedCalls_append
      rw [hstep]
      simp [ publishToRhIO, publishToLoc, importFiltersResults, tickStart, stealFromVision,
        importFromRhIO]
    rw [hc]; rfl

/-- Witness for the amended C9: in the grace period with a Custom reset pending the tick
proceeds, and with no reset pending it is delayed. -/
theorem step_grace_period_witness :
    refereeAllowsToPlay (Sample.env 3 true false) = true ∧
    (Sample.env 3 true false).isFallen = false ∧
    (Sample.graceState ResetType.Custom).isForbidden = true ∧
    diffSec (Sample.graceState ResetType.Custom).lastForbidden (Sample.env 3 true false).nowTS < 10 ∧
    (Sample.graceState ResetType.Custom).field_filter.resetType = ResetType.Custom ∧
    (step Sample.externals (Sample.env 3 true false)
      (Sample.graceState ResetType.Custom)).isForbidden = false :=
  ⟨rfl, rfl, Sample.graceState_isForbidden _, Sample.graceState_elapsed _, rfl,
   ((step_grace_period Sample.externals (Sample.env 3 true false)
      (Sample.graceState ResetType.Custom) rfl rfl (Sample.graceState_isForbidden _)
      (Sample.graceState_elapsed _)).2 (Or.inl rfl)).1⟩

theorem tickObservations_of_pending (E : Externals P) (env : TickEnv) (s : LocalisationBinding P)
    (hp : s.field_filter.resetType ≠ ResetType.None) : tickObservations E env s = [] := by
  simp [tickObservations, FieldPF.isResetPending, hp]

/-- The filter after the filter update when a reset is pending: the population is resized and
then replaced by the reset, and the slot returns to `None`. -/
theorem updateFilter_of_pending (E : Externals P) (env : TickEnv) (obs : List Observation)
    (s : LocalisationBinding P) (hp : s.field_filter.resetType ≠ ResetType.None) :
    (updateFilter E env obs s).field_filter =
      { particles := E.filter.resetParticles s.field_filter.resetType s.customReset
          (E.filter.resizeParticles s.cfg.nb_particles_ff s.field_filter.particles)
        resetType := ResetType.None } := by
  simp [updateFilter, FieldPF.step, FieldPF.resize, FieldPF.isResetPending,
    FieldPF.applyPendingReset, hp]

/-- The consistency update while a reset is pending: no reset request can be issued, the
slot is unchanged and the score only decays by the step cost. -/
theorem updateConsistency_of_pending (E : Externals P) (env : TickEnv)
    (s : LocalisationBinding P) (hp : s.field_filter.resetType ≠ ResetType.None) :
    (updateConsistency E env [] s).field_filter = s.field_filter ∧
    (updateConsistency E env [] s).consistencyScore =
      if (s.cfg.consistencyEnabled && !s.cfg.odometryMode) = true
      then min 1 (max 0 (s.consistencyScore - s.cfg.consistencyStepCost)) else 1 := by
  unfold updateConsistency
  split
  · rcases applyWatcher_cases E env.watcherTS [] s with ⟨⟨_, _, h3⟩, _⟩ | ⟨_, heq⟩
    · exact absurd h3 hp
    · rw [heq]
      exact ⟨rfl, by simp [watcherDelta, sub_eq_add_neg]⟩
  · exact ⟨rfl, rfl⟩

/-- The estimation stage entered with a reset pending: the filter step applies the reset to
the resized population and the score is the decayed one when the watchdog runs and 1
otherwise. -/
theorem estimate_of_pending (E : Externals P) (env : TickEnv) (u : LocalisationBinding P)
    (hp : u.field_filter.resetType ≠ ResetType.None) :
    ( publishToRhIO (publishToLoc E (importFiltersResults E
      (updateFilter E env (tickObservations E env u)
        (updateConsistency E env (tickObservations E env u) u))))).field_filter =
      { particles := E.filter.resetParticles u.field_filter.resetType u.customReset
          (E.filter.resizeParticles u.cfg.nb_particles_ff u.field_filter.particles)
        resetType := ResetType.None } ∧
    ( publishToRhIO (publishToLoc E (importFiltersResults E
      (updateFilter E env (tickObservations E env u)
        (updateConsistency E env (tickObservations E env u) u))))).consistencyScore =
      if (u.cfg.consistencyEnabled && !u.cfg.odometryMode) = true
      then min 1 (max 0 (u.consistencyScore - u.cfg.consistencyStepCost)) else 1 := by
  have hobs := tickObservations_of_pending E env u hp
  have hu := updateConsistency_of_pending E env u hp
  have hfr := updateConsistency_frame E env [] u
  rw [hobs]
  constructor
  · show (updateFilter E env [] (updateConsistency E env [] u)).field_filter = _
    rw [updateFilter_of_pending E env _ _ (by rw [hu.1]; exact hp), hu.1, hfr.2.1, hfr.2.2.1]
  · show (updateConsistency E env [] u).consistencyScore = _
    exact hu.2

/-- An allowed, not fallen tick starting with a Custom reset pending: it is never delayed,
the reset is applied by the filter step, and the score is the decayed one when the watchdog
runs and 1 otherwise. -/
theorem step_custom_pending_allowed (E : Externals P) (env : TickEnv) (s : LocalisationBinding P)
    (h : refereeAllowsToPlay env = true) (hf : env.isFallen = false)
    (hp : s.field_filter.resetType = ResetType.Custom) :
    (step E env s).field_filter =
      { particles := E.filter.resetParticles ResetType.Custom s.customReset
          (E.filter.resizeParticles env.rhio.nb_particles_ff s.field_filter.particles)
        resetType := ResetType.None } ∧
    (step E env s).consistencyScore =
      if (env.rhio.consistencyEnabled && !env.rhio.odometryMode) = true
      then min 1 (max 0 (s.consistencyScore - env.rhio.consistencyStepCost)) else 1 := by
  have hd : ¬ (s.isForbidden = true ∧ diffSec s.lastForbidden env.nowTS < 10 ∧
      (s.field_filter.resetType = ResetType.None ∨
        s.field_filter.resetType = ResetType.Uniform)) := by
    rintro ⟨_, _, h1 | h1⟩ <;> rw [hp] at h1 <;> cases h1
  rw [step_of_estimate E env s h hf hd]
  have hp' : ({ tickStart env s with isForbidden := false } :
      LocalisationBinding P).field_filter.resetType ≠ ResetType.None := by
    show s.field_filter.resetType ≠ ResetType.None
    rw [hp]; decide
  have key := estimate_of_pending E env { tickStart env s with isForbidden := false } hp'
  have hp2 : ({ tickStart env s with isForbidden := false } :
      LocalisationBinding P).field_filter.resetType = ResetType.Custom := hp
  rw [hp2] at key
  exact key

/-- Counterexample to C10 as stated: with the constructor's parameters, a Custom reset
requested at time 0 and applied by an ordinary tick (allowed, not fallen) at time 1 leaves a
consistency score of 0.995, not 1. -/
theorem custom_reset_ordinary_tick_score_not_one :
    refereeAllowsToPlay (Sample.env 1 true false) = true ∧
    (Sample.env 1 true false).isFallen = false ∧
    (fieldReset 0 ResetType.Custom 1 1 0 0 0 Sample.initial).field_filter.resetType
      = ResetType.Custom ∧
    (step Sample.externals (Sample.env 1 true false)
      (fieldReset 0 ResetType.Custom 1 1 0 0 0 Sample.initial)).field_filter.resetType
      = ResetType.None ∧
    (step Sample.externals (Sample.env 1 true false)
      (fieldReset 0 ResetType.Custom 1 1 0 0 0 Sample.initial)).consistencyScore = 199 / 200 ∧
    (step Sample.externals (Sample.env 1 true false)
      (fieldReset 0 ResetType.Custom 1 1 0 0 0 Sample.initial)).consistencyScore ≠ 1 := by
  have hs := step_custom_pending_allowed Sample.externals (Sample.env 1 true false)
    (fieldReset 0 ResetType.Custom 1 1 0 0 0 Sample.initial) rfl rfl rfl
  have hv : (step Sample.externals (Sample.env 1 true false)
      (fieldReset 0 ResetType.Custom 1 1 0 0 0 Sample.initial)).consistencyScore = 199 / 200 := by
    rw [hs.2]
    have h1 : (fieldReset 0 ResetType.Custom 1 1 0 0 0 Sample.initial).consistencyScore = 1 := rfl
    rw [h1]
    norm_num [Sample.env, Config.default]
  refine ⟨rfl, rfl, rfl, ?_, hv, ?_⟩
  · rw [hs.1]
  · rw [hv]; norm_num

/-- The amended C10: requesting a Custom reset sets the consistency score to 1.  When the
next tick is gated (play not allowed) it applies the reset and the score is still 1.  When
the next tick is an ordinary one (play allowed, not fallen) it applies the reset as well, and
the score after it is `min(1, max(0, 1 - stepCost))` if the watchdog is enabled and
odometry-only mode is off, and 1 otherwise. -/
theorem custom_reset_applied_score (E : Externals P) (env : TickEnv) (s : LocalisationBinding P)
    (now x y noise theta thetaNoise : ℚ) :
    (fieldReset now ResetType.Custom x y noise theta thetaNoise s).consistencyScore = 1 ∧
    (refereeAllowsToPlay env = false →
      (step E env (fieldReset now ResetType.Custom x y noise theta thetaNoise s)).field_filter =
        { particles := E.filter.resetParticles ResetType.Custom ⟨x, y, noise, theta, thetaNoise⟩
            s.field_filter.particles
          resetType := ResetType.None } ∧
      (step E env (fieldReset now ResetType.Custom x y noise theta thetaNoise s)).consistencyScore
        = 1) ∧
    (refereeAllowsToPlay env = true → env.isFallen = false →
      (step E env (fieldReset now ResetType.Custom x y noise theta thetaNoise s)).field_filter =
        { particles := E.filter.resetParticles ResetType.Custom ⟨x, y, noise, theta, thetaNoise⟩
            (E.filter.resizeParticles env.rhio.nb_particles_ff s.field_filter.particles)
          resetType := ResetType.None } ∧
      (step E env (fieldReset now ResetType.Custom x y noise theta thetaNoise s)).consistencyScore
        = if (env.rhio.consistencyEnabled && !env.rhio.odometryMode) = true
          then min 1 (max 0 (1 - env.rhio.consistencyStepCost)) else 1) := by
  refine ⟨rfl, ?_, ?_⟩
  · intro h
    rw [step_of_not_allowed E env _ h, stepForbidden_eq]
    have hr : (tickStart env
        (fieldReset now ResetType.Custom x y noise theta thetaNoise s)).field_filter.resetType =
        ResetType.Custom := rfl
    rw [if_pos hr]
    exact ⟨rfl, rfl⟩
  · intro h hf
    exact step_custom_pending_allowed E env
      (fieldReset now ResetType.Custom x y noise theta thetaNoise s) h hf rfl

theorem extractObservations_none_scored (E : Externals P) (cs : CameraState)
    (s : LocalisationBinding P) (hfeat : s.features = []) :
    ∀ o ∈ extractObservations E cs s, o.isScored = false := by
  intro o ho
  have hfe : extractFeatureObservations E cs s = [] := by
    simp [extractFeatureObservations, hfeat]
  unfold extractObservations at ho
  rw [hfe] at ho
  simp only [List.map_nil, List.nil_append] at ho
  split at ho
  · rcases List.mem_append.mp ho with h | h
    · obtain ⟨t, _, rfl⟩ := List.mem_map.mp h
      rfl
    · rw [List.mem_singleton] at h
      rw [h]; rfl
  · obtain ⟨t, _, rfl⟩ := List.mem_map.mp ho
    rfl

theorem resetRequests_append (l₁ l₂ : List Call) :
    resetRequests (l₁ ++ l₂) = resetRequests l₁ + resetRequests l₂ := by
  simp [resetRequests, List.countP_append]

theorem stepEstimate_resetRequests (E : Externals P) (env : TickEnv) (s : LocalisationBinding P) :
    resetRequests (stepEstimate E env s).calls =
      resetRequests (updateConsistency E env (tickObservations E env { s with isForbidden := false })
          { s with isForbidden := false }).calls := by
  obtain ⟨t0, t1, rc, dt, hc⟩ := stepEstimate_calls E env s
  rw [hc, resetRequests_append]
  simp [resetRequests, Call.isAskForReset]

/-- One ordinary tick with the default parameters and no feature sighting, entered with the
forbidden flag clear and no reset pending: the watchdog decays the score by 0.005 and issues
a Uniform reset exactly when the decayed score is 0 and more than 30 s have elapsed since the
last Uniform reset; the filter step consumes the request within the tick. -/
theorem step_quiet (E : Externals P) (env : TickEnv) (s : LocalisationBinding P)
    (hcfg : env.rhio = Config.default) (h : refereeAllowsToPlay env = true)
    (hf : env.isFallen = false) (hfeat : env.features = [])
    (hnf : s.isForbidden = false) (hnp : s.field_filter.resetType = ResetType.None) :
    (step E env s).field_filter.resetType = ResetType.None ∧
    (step E env s).isForbidden = false ∧
    ((diffSec s.lastUniformReset env.nowTS > 30 ∧
        min 1 (max 0 (s.consistencyScore + -(5 / 1000))) ≤ 0) →
      (step E env s).consistencyScore = 0 ∧
      (step E env s).lastUniformReset = env.watcherTS ∧
      resetRequests (step E env s).calls = resetRequests s.calls + 1) ∧
    (¬ (diffSec s.lastUniformReset env.nowTS > 30 ∧
        min 1 (max 0 (s.consistencyScore + -(5 / 1000))) ≤ 0) →
      (step E env s).consistencyScore = min 1 (max 0 (s.consistencyScore + -(5 / 1000))) ∧
      (step E env s).lastUniformReset = s.lastUniformReset ∧
      resetRequests (step E env s).calls = resetRequests s.calls) := by
  have hd : ¬ (s.isForbidden = true ∧ diffSec s.lastForbidden env.nowTS < 10 ∧
      (s.field_filter.resetType = ResetType.None ∨
        s.field_filter.resetType = ResetType.Uniform)) := by
    rintro ⟨h1, _⟩
    rw [hnf] at h1
    cases h1
  rw [step_of_estimate E env s h hf hd]
  refine ⟨stepEstimate_resetType E env _, stepEstimate_isForbidden E env _, ?_⟩
  -- the state entering the consistency update
  obtain ⟨u, hu⟩ : ∃ u : LocalisationBinding P, u = { tickStart env s with isForbidden := false } :=
    ⟨_, rfl⟩
  have hucfg : u.cfg = Config.default := by rw [hu]; exact hcfg
  have hufeat : u.features = [] := by rw [hu]; exact hfeat
  have huscore : u.consistencyScore = s.consistencyScore := by rw [hu]; rfl
  have huel : u.elapsedSinceUniformReset = diffSec s.lastUniformReset env.nowTS := by rw [hu]; rfl
  have hures : u.field_filter.resetType = ResetType.None := by rw [hu]; exact hnp
  have hulast : u.lastUniformReset = s.lastUniformReset := by rw [hu]; rfl
  have hucalls : u.calls = s.calls := by rw [hu]; rfl
  have e1 : (stepEstimate E env (tickStart env s)).consistencyScore =
      (updateConsistency E env (tickObservations E env u) u).consistencyScore := by rw [hu]; rfl
  have e2 : (stepEstimate E env (tickStart env s)).lastUniformReset =
      (updateConsistency E env (tickObservations E env u) u).lastUniformReset := by rw [hu]; rfl
  have e3 : resetRequests (stepEstimate E env (tickStart env s)).calls =
      resetRequests (updateConsistency E env (tickObservations E env u) u).calls := by
    rw [hu]; exact stepEstimate_resetRequests E env _
  rw [e1, e2, e3]
  have hobs : ∀ o ∈ tickObservations E env u, o.isScored = false := by
    unfold tickObservations
    split
    · exact extractObservations_none_scored E env.cs u hufeat
    · intro o ho; cases ho
  have hupd : updateConsistency E env (tickObservations E env u) u =
      applyWatcher E env.watcherTS (tickObservations E env u) u := by
    simp [updateConsistency, hucfg, Config.default]
  have hdelta := watcherDelta_of_none_scored E u.cfg
    (E.filter.representativeParticle u.field_filter.particles) _ hobs
  have hcost : u.cfg.consistencyStepCost = 5 / 1000 := by rw [hucfg]; rfl
  have hint : u.cfg.consistencyResetInterval = 30 := by rw [hucfg]; rfl
  rw [hupd]
  have hcases := applyWatcher_cases E env.watcherTS (tickObservations E env u) u
  simp only [hdelta, hcost, huscore, huel, hint] at hcases
  rcases hcases with ⟨⟨c1, c2, _⟩, heq⟩ | ⟨hn, heq⟩
  · constructor
    · intro _
      rw [heq]
      refine ⟨rfl, rfl, ?_⟩
      show resetRequests (u.calls ++ _) = _
      rw [resetRequests_append, hucalls]
      rfl
    · intro hneg
      exact absurd ⟨c1, c2⟩ hneg
  · constructor
    · intro hpos
      exact absurd ⟨hpos.1, hpos.2, hures⟩ hn
    · intro _
      rw [heq]
      refine ⟨rfl, hulast, ?_⟩
      show resetRequests (u.calls ++ _) = _
      rw [resetRequests_append, hucalls]
      rfl

/-- How the two closed forms evolve from tick `n` to tick `n + 1`. -/
theorem quiet_closed_forms_succ (n : Nat) :
    (200 ≤ n + 1 ∧ quietLastResetTick n + 30 < n + 1 →
      quietLastResetTick (n + 1) = n + 1 ∧ quietResetCount (n + 1) = quietResetCount n + 1) ∧
    (¬ (200 ≤ n + 1 ∧ quietLastResetTick n + 30 < n + 1) →
      quietLastResetTick (n + 1) = quietLastResetTick n ∧
      quietResetCount (n + 1) = quietResetCount n) := by
  unfold quietLastResetTick quietResetCount
  split_ifs <;> omega

/-- The state after `n` ordinary ticks, one second apart, with the default parameters and no
feature sighting, starting from the constructed state: score, pending slot, forbidden flag,
time of the last Uniform reset and number of reset requests. -/
theorem runTicks_quiet (E : Externals P) (p0 : P) (t0 : TimeStamp) (envs : Nat → TickEnv)
    (hcfg : ∀ k, (envs k).rhio = Config.default)
    (hnow : ∀ k, (envs k).nowTS = t0 + (k : ℚ))
    (hw : ∀ k, (envs k).watcherTS = (envs k).nowTS)
    (hallow : ∀ k, refereeAllowsToPlay (envs k) = true)
    (hfall : ∀ k, (envs k).isFallen = false)
    (hfeat : ∀ k, (envs k).features = []) (n : Nat) :
    (runTicks E envs n (LocalisationBinding.construct Config.default p0 t0)).consistencyScore
      = max 0 (1 - (n : ℚ) / 200) ∧
    (runTicks E envs n (LocalisationBinding.construct Config.default p0 t0)).field_filter.resetType
      = ResetType.None ∧
    (runTicks E envs n (LocalisationBinding.construct Config.default p0 t0)).isForbidden = false ∧
    (runTicks E envs n (LocalisationBinding.construct Config.default p0 t0)).lastUniformReset
      = t0 + (quietLastResetTick n : ℚ) ∧
    resetRequests (runTicks E envs n (LocalisationBinding.construct Config.default p0 t0)).calls
      = quietResetCount n := by
  induction n with
  | zero =>
    refine ⟨?_, rfl, rfl, ?_, rfl⟩
    · show (1 : ℚ) = _
      norm_num
    · show t0 = _
      simp [quietLastResetTick]
  | succ n ih =>
    obtain ⟨ih1, ih2, ih3, ih4, ih5⟩ := ih
    have hq := step_quiet E (envs (n + 1))
      (runTicks E envs n (LocalisationBinding.construct Config.default p0 t0))
      (hcfg _) (hallow _) (hfall _) (hfeat _) ih3 ih2
    obtain ⟨q1, q2, q3, q4⟩ := hq
    have hel : diffSec
        (runTicks E envs n (LocalisationBinding.construct Config.default p0 t0)).lastUniformReset
        (envs (n + 1)).nowTS = ((n + 1 : ℕ) : ℚ) - (quietLastResetTick n : ℚ) := by
      rw [ih4, hnow]; unfold diffSec; ring
    have hc : min (1 : ℚ) (max 0
        ((runTicks E envs n (LocalisationBinding.construct Config.default p0 t0)).consistencyScore
          + -(5 / 1000))) = max 0 (1 - ((n + 1 : ℕ) : ℚ) / 200) := by
      rw [ih1]; exact decay_step n
    rw [hel, hc] at q3 q4
    show (step E (envs (n + 1)) _).consistencyScore = _ ∧
      (step E (envs (n + 1)) _).field_filter.resetType = _ ∧
      (step E (envs (n + 1)) _).isForbidden = _ ∧
      (step E (envs (n + 1)) _).lastUniformReset = _ ∧
      resetRequests (step E (envs (n + 1)) _).calls = _
    by_cases hfire : 200 ≤ n + 1 ∧ quietLastResetTick n + 30 < n + 1
    · have hA : ((n + 1 : ℕ) : ℚ) - (quietLastResetTick n : ℚ) > 30 ∧
          max 0 (1 - ((n + 1 : ℕ) : ℚ) / 200) ≤ 0 := by
        obtain ⟨f1, f2⟩ := hfire
        have f1' : (200 : ℚ) ≤ ((n + 1 : ℕ) : ℚ) := by exact_mod_cast f1
        have f2' : ((quietLastResetTick n + 30 : ℕ) : ℚ) < ((n + 1 : ℕ) : ℚ) := by exact_mod_cast f2
        push_cast at f2'
        constructor
        · push_cast; linarith
        · exact max_le (le_refl 0) (by linarith)
      obtain ⟨r1, r2, r3⟩ := q3 hA
      obtain ⟨c1, c2⟩ := (quiet_closed_forms_succ n).1 hfire
      refine ⟨?_, q1, q2, ?_, ?_⟩
      · rw [r1]
        exact (le_antisymm (le_max_left _ _) hA.2)
      · rw [r2, hw, hnow, c1]
      · rw [r3, ih5, c2]
    · have hA : ¬ (((n + 1 : ℕ) : ℚ) - (quietLastResetTick n : ℚ) > 30 ∧
          max 0 (1 - ((n + 1 : ℕ) : ℚ) / 200) ≤ 0) := by
        rintro ⟨a1, a2⟩
        apply hfire
        constructor
        · have : (1 : ℚ) - ((n + 1 : ℕ) : ℚ) / 200 ≤ 0 := le_trans (le_max_right _ _) a2
          have : (200 : ℚ) ≤ ((n + 1 : ℕ) : ℚ) := by linarith
          exact_mod_cast this
        · have : ((quietLastResetTick n + 30 : ℕ) : ℚ) < ((n + 1 : ℕ) : ℚ) := by
            push_cast; push_cast at a1; linarith
          exact_mod_cast this
      obtain ⟨r1, r2, r3⟩ := q4 hA
      obtain ⟨c1, c2⟩ := (quiet_closed_forms_succ n).2 hfire
      refine ⟨r1, q1, q2, ?_, ?_⟩
      · rw [r2, ih4, c1]
      · rw [r3, ih5, c2]

/-- Counterexample to C4 as stated: in the run of 400 ordinary ticks one second apart from the
constructed state, with the default parameters and no sighting at all, the watchdog issues 7
reset requests, not one; in particular the tick 231 issues a second one although the score
has stayed at 0 since tick 200. -/
theorem quiet_run_issues_seven_resets :
    resetRequests (runTicks Sample.externals (fun k => Sample.env (k : ℚ) true false) 400
      Sample.initial).calls = 7 ∧
    resetRequests (runTicks Sample.externals (fun k => Sample.env (k : ℚ) true false) 230
      Sample.initial).calls = 1 ∧
    (runTicks Sample.externals (fun k => Sample.env (k : ℚ) true false) 230
      Sample.initial).consistencyScore = 0 ∧
    resetRequests (runTicks Sample.externals (fun k => Sample.env (k : ℚ) true false) 231
      Sample.initial).calls = 2 := by
  have h := runTicks_quiet Sample.externals 0 0 (fun k => Sample.env (k : ℚ) true false)
    (fun _ => rfl) (fun k => by simp [Sample.env]) (fun _ => rfl) (fun _ => rfl) (fun _ => rfl)
    (fun _ => rfl)
  refine ⟨(h 400).2.2.2.2, (h 230).2.2.2.2, ?_, (h 231).2.2.2.2⟩
  have h230 := (h 230).1
  rw [show Sample.initial = LocalisationBinding.construct Config.default 0 0 from rfl, h230]
  norm_num

/-- The amended C4: with the constructor's default parameters, starting from the constructed
state (score 1, no reset pending), over ordinary ticks one second apart (allowed to play,
not fallen, no feature sighting) the score after `n` ticks is `max(0, 1 - n / 200)`, and the
number of reset requests issued by the watchdog during the first `n` ticks is 0 for
`n < 200` and `1 + (n - 200) / 31` (integer division) for `n ≥ 200`: the first reset is
issued at tick 200, where the score first reaches 0, and while the score stays at 0 a
further one is issued every 31 ticks, 7 in total over 400 ticks. -/
theorem quiet_run_reset_requests (E : Externals P) (p0 : P) (t0 : TimeStamp) (envs : Nat → TickEnv)
    (hcfg : ∀ k, (envs k).rhio = Config.default)
    (hnow : ∀ k, (envs k).nowTS = t0 + (k : ℚ))
    (hw : ∀ k, (envs k).watcherTS = (envs k).nowTS)
    (hallow : ∀ k, refereeAllowsToPlay (envs k) = true)
    (hfall : ∀ k, (envs k).isFallen = false)
    (hfeat : ∀ k, (envs k).features = []) :
    (∀ n, (runTicks E envs n
        (LocalisationBinding.construct Config.default p0 t0)).consistencyScore
        = max 0 (1 - (n : ℚ) / 200)) ∧
    (∀ n, resetRequests (runTicks E envs n
        (LocalisationBinding.construct Config.default p0 t0)).calls
        = if n < 200 then 0 else 1 + (n - 200) / 31) ∧
    resetRequests (runTicks E envs 199
      (LocalisationBinding.construct Config.default p0 t0)).calls = 0 ∧
    resetRequests (runTicks E envs 200
      (LocalisationBinding.construct Config.default p0 t0)).calls = 1 ∧
    resetRequests (runTicks E envs 400
      (LocalisationBinding.construct Config.default p0 t0)).calls = 7 :=
  ⟨fun n => (runTicks_quiet E p0 t0 envs hcfg hnow hw hallow hfall hfeat n).1,
   fun n => (runTicks_quiet E p0 t0 envs hcfg hnow hw hallow hfall hfeat n).2.2.2.2,
   (runTicks_quiet E p0 t0 envs hcfg hnow hw hallow hfall hfeat 199).2.2.2.2,
   (runTicks_quiet E p0 t0 envs hcfg hnow hw hallow hfall hfeat 200).2.2.2.2,
   (runTicks_quiet E p0 t0 envs hcfg hnow hw hallow hfall hfeat 400).2.2.2.2⟩

/-- Witness for the amended C4: the run on the sample instance, tick `k` at time `k`. -/
theorem quiet_run_reset_requests_witness :
    (∀ k, (Sample.env (k : ℚ) true false).rhio = Config.default) ∧
    (∀ k, refereeAllowsToPlay (Sample.env (k : ℚ) true false) = true) ∧
    resetRequests (runTicks Sample.externals (fun k => Sample.env (k : ℚ) true false) 400
      (LocalisationBinding.construct Config.default 0 0)).calls = 7 :=
  ⟨fun _ => rfl, fun _ => rfl,
   (quiet_run_reset_requests Sample.externals 0 0 (fun k => Sample.env (k : ℚ) true false)
    (fun _ => rfl) (fun k => by simp [Sample.env]) (fun _ => rfl) (fun _ => rfl) (fun _ => rfl)
    (fun _ => rfl)).2.2.2.2⟩

/-- Witness for C3: a watchdog update that fires, on a state whose score is 0 and whose last
Uniform reset is 31 s old, and one that does not, on the constructed state. -/
theorem applyWatcher_reset_iff_witness :
    (issuedCalls Sample.lostState
      (applyWatcher Sample.externals 31 [] Sample.lostState)).any Call.isAskForReset = true ∧
    (applyWatcher Sample.externals 31 [] Sample.lostState).field_filter.resetType
      = ResetType.Uniform ∧
    (issuedCalls Sample.initial
      (applyWatcher Sample.externals 1 [] Sample.initial)).any Call.isAskForReset = false := by
  have h := applyWatcher_reset_iff Sample.externals 31 [] Sample.lostState
  have h' := applyWatcher_reset_iff Sample.externals 1 [] Sample.initial
  have hscore : (applyWatcher Sample.externals 31 [] Sample.lostState).consistencyScore = 0 := by
    rw [applyWatcher_consistencyScore]
    norm_num [watcherDelta, Sample.lostState, Sample.initial, LocalisationBinding.construct,
      Config.default]
  have hel : Sample.lostState.elapsedSinceUniformReset >
      Sample.lostState.cfg.consistencyResetInterval := by
    norm_num [Sample.lostState, Sample.initial, LocalisationBinding.construct, Config.default]
  have hfire := h.1.mpr ⟨hscore, rfl, hel⟩
  refine ⟨hfire, (h.2.1 hfire).2.1, ?_⟩
  cases hb : (issuedCalls Sample.initial
      (applyWatcher Sample.externals 1 [] Sample.initial)).any Call.isAskForReset with
  | false => rfl
  | true =>
    have hc := (h'.1.mp hb).2.2
    norm_num [Sample.initial, LocalisationBinding.construct, Config.default] at hc

/-- Witness for the amended C10: a Custom reset requested on the constructed state and
applied by a gated tick leaves the score at 1. -/
theorem custom_reset_applied_score_witness :
    refereeAllowsToPlay (Sample.env 1 false false) = false ∧
    (step Sample.externals (Sample.env 1 false false)
      (fieldReset 0 ResetType.Custom 1 1 0 0 0 Sample.initial)).consistencyScore = 1 ∧
    (step Sample.externals (Sample.env 1 false false)
      (fieldReset 0 ResetType.Custom 1 1 0 0 0 Sample.initial)).field_filter.resetType
      = ResetType.None :=
  ⟨by decide,
   ((custom_reset_applied_score Sample.externals (Sample.env 1 false false) Sample.initial
      0 1 1 0 0 0).2.1 (by decide)).2,
   congrArg FieldPF.resetType
    ((custom_reset_applied_score Sample.externals (Sample.env 1 false false) Sample.initial
      0 1 1 0 0 0).2.1 (by decide)).1⟩

/-- C17: for every state and every reset type, `fieldReset` leaves a reset of that type
pending in the filter and sets `lastFieldReset` to the current time.  A Uniform request sets
the consistency score to 0 and `lastUniformReset` to the current time; Custom and Borders
requests set the score to 1 and leave `lastUniformReset` unchanged; a Fall request leaves
both unchanged. -/
theorem fieldReset_bookkeeping (now x y noise theta thetaNoise : ℚ)
    (s : LocalisationBinding P) :
    (∀ t : ResetType,
      (fieldReset now t x y noise theta thetaNoise s).field_filter.resetType = t ∧
      (fieldReset now t x y noise theta thetaNoise s).field_filter.particles
        = s.field_filter.particles ∧
      (fieldReset now t x y noise theta thetaNoise s).lastFieldReset = now ∧
      issuedCalls s (fieldReset now t x y noise theta thetaNoise s) = [Call.askForReset t]) ∧
    ((fieldReset now ResetType.Uniform x y noise theta thetaNoise s).consistencyScore = 0 ∧
      (fieldReset now ResetType.Uniform x y noise theta thetaNoise s).lastUniformReset = now) ∧
    ((fieldReset now ResetType.Custom x y noise theta thetaNoise s).consistencyScore = 1 ∧
      (fieldReset now ResetType.Custom x y noise theta thetaNoise s).lastUniformReset
        = s.lastUniformReset) ∧
    ((fieldReset now ResetType.Borders x y noise theta thetaNoise s).consistencyScore = 1 ∧
      (fieldReset now ResetType.Borders x y noise theta thetaNoise s).lastUniformReset
        = s.lastUniformReset) ∧
    ((fieldReset now ResetType.Fall x y noise theta thetaNoise s).consistencyScore
        = s.consistencyScore ∧
      (fieldReset now ResetType.Fall x y noise theta thetaNoise s).lastUniformReset
        = s.lastUniformReset) := by
  refine ⟨?_, ⟨rfl, rfl⟩, ⟨rfl, rfl⟩, ⟨rfl, rfl⟩, ⟨rfl, rfl⟩⟩
  intro t
  cases t <;> exact ⟨rfl, rfl, rfl, issuedCalls_append _ _ _ rfl⟩

/-- C18: a Custom request at pose (1, 1, 0) followed, with no tick in between, by a Uniform
request leaves one pending reset, of type Uniform, and the bookkeeping of the second
request: the consistency score is 0 and `lastUniformReset` (as `lastFieldReset`) is the time
of the second request.  At the level of the filter, the second `askForReset` overwrites the
first. -/
theorem custom_then_uniform_last_wins (s : LocalisationBinding P) (t1 t2 : TimeStamp)
    (noise thetaNoise x y noise2 theta thetaNoise2 : ℚ) :
    (fieldReset t2 ResetType.Uniform x y noise2 theta thetaNoise2
      (fieldReset t1 ResetType.Custom 1 1 noise 0 thetaNoise s)).field_filter.resetType
      = ResetType.Uniform ∧
    (fieldReset t2 ResetType.Uniform x y noise2 theta thetaNoise2
      (fieldReset t1 ResetType.Custom 1 1 noise 0 thetaNoise s)).field_filter.isResetPending
      = true ∧
    (fieldReset t2 ResetType.Uniform x y noise2 theta thetaNoise2
      (fieldReset t1 ResetType.Custom 1 1 noise 0 thetaNoise s)).consistencyScore = 0 ∧
    (fieldReset t2 ResetType.Uniform x y noise2 theta thetaNoise2
      (fieldReset t1 ResetType.Custom 1 1 noise 0 thetaNoise s)).lastUniformReset = t2 ∧
    (fieldReset t2 ResetType.Uniform x y noise2 theta thetaNoise2
      (fieldReset t1 ResetType.Custom 1 1 noise 0 thetaNoise s)).lastFieldReset = t2 ∧
    issuedCalls s (fieldReset t2 ResetType.Uniform x y noise2 theta thetaNoise2
      (fieldReset t1 ResetType.Custom 1 1 noise 0 thetaNoise s))
      = [Call.askForReset ResetType.Custom, Call.askForReset ResetType.Uniform] ∧
    (s.field_filter.askForReset ResetType.Custom).askForReset ResetType.Uniform
      = s.field_filter.askForReset ResetType.Uniform :=
  ⟨rfl, rfl, rfl, rfl, rfl,
   issuedCalls_append _ _ _ (by simp [fieldReset]), rfl⟩

/-- The calls issued by the filter update, with the arguments of the filter step: the
displacement returned by the odometry query, the gain `noiseGain` and the elapsed time
clamped to 5 s. -/
theorem updateFilter_issuedCalls (E : Externals P) (env : TickEnv) (obs : List Observation)
    (s : LocalisationBinding P) :
    ∃ t0 t1 : ℚ,
      issuedCalls s (updateFilter E env obs s) =
        [Call.odometryDiff t0 t1, Call.resize s.cfg.nb_particles_ff,
          Call.filterStep
            ⟨⟨(env.odometryDiff t0 t1).x, (env.odometryDiff t0 t1).y⟩,
              E.rad2deg (env.odometryDiff t0 t1).z, noiseGain s⟩
            obs (min 5 (diffSec s.lastTS s.currTS))] ∧
      (updateFilter E env obs s).field_filter =
        (s.field_filter.resize E.filter s.cfg.nb_particles_ff).step E.filter s.customReset
          ⟨⟨(env.odometryDiff t0 t1).x, (env.odometryDiff t0 t1).y⟩,
            E.rad2deg (env.odometryDiff t0 t1).z, noiseGain s⟩
          obs (min 5 (diffSec s.lastTS s.currTS)) :=
  ⟨_, _, issuedCalls_append _ _ _ rfl, rfl⟩

/-- C16: the elapsed time that `updateFilter` passes to the filter step is
`min(5, diffSec(lastTS, currTS))`; it never exceeds 5 s and is the real elapsed time whenever
that is at most 5 s. -/
theorem updateFilter_step_time (E : Externals P) (env : TickEnv) (obs : List Observation)
    (s : LocalisationBinding P) :
    (∃ (t0 t1 : ℚ) (rc : RobotController),
      issuedCalls s (updateFilter E env obs s) =
        [Call.odometryDiff t0 t1, Call.resize s.cfg.nb_particles_ff,
          Call.filterStep rc obs (min 5 (diffSec s.lastTS s.currTS))] ∧
      (updateFilter E env obs s).field_filter =
        (s.field_filter.resize E.filter s.cfg.nb_particles_ff).step E.filter s.customReset
          rc obs (min 5 (diffSec s.lastTS s.currTS))) ∧
    min 5 (diffSec s.lastTS s.currTS) ≤ 5 ∧
    (diffSec s.lastTS s.currTS ≤ 5 →
      min 5 (diffSec s.lastTS s.currTS) = diffSec s.lastTS s.currTS) ∧
    (5 < diffSec s.lastTS s.currTS → min 5 (diffSec s.lastTS s.currTS) = 5) := by
  obtain ⟨t0, t1, h1, h2⟩ := updateFilter_issuedCalls E env obs s
  exact ⟨⟨t0, t1, _, h1, h2⟩, min_le_left _ _, fun h => min_eq_right h,
    fun h => min_eq_left (le_of_lt h)⟩

/-- The gain computed by the source agrees with the gain as the specification words it. -/
theorem noiseGain_eq_claimed (s : LocalisationBinding P) :
    noiseGain s = claimedNoiseGain s.cfg.odometryMode s.cfg.consistencyEnabled
      s.elapsedSinceUniformReset s.cfg.noiseBoostDuration s.cfg.maxNoiseBoost
      s.consistencyScore s.cfg.consistencyMaxNoise := by
  unfold noiseGain claimedNoiseGain
  split
  · norm_num
  · rfl

theorem tickObservations_clear_forbidden (E : Externals P) (env : TickEnv)
    (t : LocalisationBinding P) :
    tickObservations E env { t with isForbidden := false } = tickObservations E env t := rfl

/-- The observation vector of a tick in terms of the state at the start of the tick: empty
when a reset is pending or odometry-only mode is on, the extracted observations otherwise. -/
theorem tickObservations_tickStart (E : Externals P) (env : TickEnv) (s : LocalisationBinding P) :
    tickObservations E env (tickStart env s) =
      if (s.field_filter.isResetPending || env.rhio.odometryMode) = true then []
      else extractObservations E env.cs (tickStart env s) := by
  have h1 : (tickStart env s).field_filter.isResetPending = s.field_filter.isResetPending := rfl
  have h2 : (tickStart env s).cfg.odometryMode = env.rhio.odometryMode := rfl
  unfold tickObservations
  rw [h1, h2]
  cases s.field_filter.isResetPending <;> cases env.rhio.odometryMode <;> rfl

/-- The three outcomes of the consistency update of a tick: the watchdog is off and the
score is forced to 1; the watchdog runs without issuing a reset; the watchdog runs and
issues a Uniform reset. -/
theorem updateConsistency_outcomes (E : Externals P) (env : TickEnv) (obs : List Observation)
    (u : LocalisationBinding P) :
    ((u.cfg.consistencyEnabled && !u.cfg.odometryMode) = false ∧
      (updateConsistency E env obs u).calls = u.calls ∧
      (updateConsistency E env obs u).consistencyScore = 1 ∧
      (updateConsistency E env obs u).field_filter = u.field_filter) ∨
    ((u.cfg.consistencyEnabled && !u.cfg.odometryMode) = true ∧
      (updateConsistency E env obs u).calls = u.calls ++ [Call.applyWatcher obs] ∧
      (updateConsistency E env obs u).consistencyScore =
        min 1 (max 0 (u.consistencyScore +
          watcherDelta E u.cfg (E.filter.representativeParticle u.field_filter.particles) obs)) ∧
      (updateConsistency E env obs u).field_filter = u.field_filter) ∨
    ((u.cfg.consistencyEnabled && !u.cfg.odometryMode) = true ∧
      (updateConsistency E env obs u).calls =
        u.calls ++ [Call.applyWatcher obs, Call.askForReset ResetType.Uniform] ∧
      (updateConsistency E env obs u).consistencyScore = 0 ∧
      (updateConsistency E env obs u).field_filter =
        u.field_filter.askForReset ResetType.Uniform ∧
      u.field_filter.resetType = ResetType.None) := by
  unfold updateConsistency
  by_cases hw : (u.cfg.consistencyEnabled && !u.cfg.odometryMode) = true
  · rw [if_pos hw]
    have hcases := applyWatcher_cases E env.watcherTS obs u
    simp only at hcases
    rcases hcases with ⟨⟨_, _, h3⟩, heq⟩ | ⟨_, heq⟩
    · right; right
      rw [heq]
      exact ⟨hw, rfl, rfl, rfl, h3⟩
    · right; left
      rw [heq]
      exact ⟨hw, rfl, rfl, rfl⟩
  · rw [if_neg hw]
    left
    exact ⟨by simpa using hw, rfl, rfl, rfl⟩

/-- The calls and the score of a tick that reaches the estimation stage: the calls of the
consistency update (none, the watchdog update, or the watchdog update followed by its reset
request), then the odometry query, the resize, the filter step on the observation vector of
the tick, the import and the two publications. -/
theorem step_estimate_outcomes (E : Externals P) (env : TickEnv) (s : LocalisationBinding P)
    (h : refereeAllowsToPlay env = true) (hf : env.isFallen = false)
    (hd : ¬ (s.isForbidden = true ∧ diffSec s.lastForbidden env.nowTS < 10 ∧
      (s.field_filter.resetType = ResetType.None ∨
        s.field_filter.resetType = ResetType.Uniform))) :
    ∃ (t0 t1 : ℚ) (rc : RobotController) (dt : ℚ) (pre : List Call),
      issuedCalls s (step E env s) =
        pre ++ [Call.odometryDiff t0 t1, Call.resize env.rhio.nb_particles_ff,
          Call.filterStep rc (tickObservations E env (tickStart env s)) dt,
          Call.importFiltersResults, Call.publishToLoc, Call.rhioPush] ∧
      (((env.rhio.consistencyEnabled && !env.rhio.odometryMode) = false ∧ pre = [] ∧
          (step E env s).consistencyScore = 1) ∨
        ((env.rhio.consistencyEnabled && !env.rhio.odometryMode) = true ∧
          pre = [Call.applyWatcher (tickObservations E env (tickStart env s))] ∧
          (step E env s).consistencyScore =
            min 1 (max 0 (s.consistencyScore +
              watcherDelta E env.rhio (E.filter.representativeParticle s.field_filter.particles)
                (tickObservations E env (tickStart env s))))) ∨
        ((env.rhio.consistencyEnabled && !env.rhio.odometryMode) = true ∧
          pre = [Call.applyWatcher (tickObservations E env (tickStart env s)),
            Call.askForReset ResetType.Uniform] ∧
          (step E env s).consistencyScore = 0 ∧
          s.field_filter.resetType = ResetType.None)) := by
  rw [step_of_estimate E env s h hf hd]
  obtain ⟨u, hu⟩ : ∃ u : LocalisationBinding P, u = { tickStart env s with isForbidden := false } :=
    ⟨_, rfl⟩
  have hobs : tickObservations E env u = tickObservations E env (tickStart env s) := by
    rw [hu]; rfl
  have hucfg : u.cfg = env.rhio := by rw [hu]; rfl
  have hucalls : u.calls = s.calls := by rw [hu]; rfl
  have huscore : u.consistencyScore = s.consistencyScore := by rw [hu]; rfl
  have hufilter : u.field_filter = s.field_filter := by rw [hu]; rfl
  obtain ⟨t0, t1, rc, dt, hc⟩ := stepEstimate_calls E env (tickStart env s)
  rw [← hu, hobs] at hc
  have hfr := (updateConsistency_frame E env (tickObservations E env (tickStart env s)) u).2.1
  rw [hfr, hucfg] at hc
  have hsc : (stepEstimate E env (tickStart env s)).consistencyScore =
      (updateConsistency E env (tickObservations E env (tickStart env s)) u).consistencyScore := by
    rw [← hobs, hu]; rfl
  rw [hsc]
  rcases updateConsistency_outcomes E env (tickObservations E env (tickStart env s)) u with
    ⟨hw, c1, c2, _⟩ | ⟨hw, c1, c2, _⟩ | ⟨hw, c1, c2, _, c4⟩
  · refine ⟨t0, t1, rc, dt, [], ?_, Or.inl ⟨by rw [← hucfg]; exact hw, rfl, c2⟩⟩
    apply issuedCalls_append
    rw [hc, c1, hucalls]
    rfl
  · refine ⟨t0, t1, rc, dt, _, ?_, Or.inr (Or.inl ⟨by rw [← hucfg]; exact hw, rfl, ?_⟩)⟩
    · apply issuedCalls_append
      rw [hc, c1, hucalls, List.append_assoc]
    · rw [c2, huscore, hucfg, hufilter]
  · refine ⟨t0, t1, rc, dt, _, ?_, Or.inr (Or.inr ⟨by rw [← hucfg]; exact hw, rfl, c2, ?_⟩)⟩
    · apply issuedCalls_append
      rw [hc, c1, hucalls, List.append_assoc]
    · rw [← hufilter]; exact c4

/-- C13: a tick that reaches the estimation stage (allowed, not fallen, not delayed) with the
watchdog disabled or odometry-only mode on leaves a consistency score of exactly 1, whatever
it was before; the tick runs the filter step but neither calls the watchdog update nor
issues a reset request. -/
theorem step_watchdog_off (E : Externals P) (env : TickEnv) (s : LocalisationBinding P)
    (h : refereeAllowsToPlay env = true) (hf : env.isFallen = false)
    (hd : ¬ (s.isForbidden = true ∧ diffSec s.lastForbidden env.nowTS < 10 ∧
      (s.field_filter.resetType = ResetType.None ∨
        s.field_filter.resetType = ResetType.Uniform)))
    (hoff : env.rhio.consistencyEnabled = false ∨ env.rhio.odometryMode = true) :
    (step E env s).consistencyScore = 1 ∧
    (issuedCalls s (step E env s)).any Call.isApplyWatcher = false ∧
    (issuedCalls s (step E env s)).any Call.isAskForReset = false ∧
    (issuedCalls s (step E env s)).any Call.isFilterStep = true := by
  have hw : (env.rhio.consistencyEnabled && !env.rhio.odometryMode) = false := by
    rcases hoff with h1 | h1 <;> simp [h1]
  obtain ⟨t0, t1, rc, dt, pre, hc, hcase⟩ := step_estimate_outcomes E env s h hf hd
  rcases hcase with ⟨_, hpre, hs⟩ | ⟨hw', _⟩ | ⟨hw', _⟩
  · rw [hc, hpre]
    exact ⟨hs, rfl, rfl, rfl⟩
  · rw [hw] at hw'; cases hw'
  · rw [hw] at hw'; cases hw'

/-- Witness for C13: an ordinary tick on the constructed state whose pulled parameters
disable the watchdog, with a feature and a marker sighted. -/
theorem step_watchdog_off_witness :
    refereeAllowsToPlay Sample.watchdogOffEnv = true ∧
    Sample.watchdogOffEnv.isFallen = false ∧
    Sample.watchdogOffEnv.rhio.consistencyEnabled = false ∧
    (step Sample.externals Sample.watchdogOffEnv Sample.halfTrust).consistencyScore = 1 :=
  ⟨rfl, rfl, rfl,
   (step_watchdog_off Sample.externals Sample.watchdogOffEnv Sample.halfTrust rfl rfl
     (fun hforb => Bool.noConfusion hforb.1) (Or.inl rfl)).1⟩

/-- C14: in a tick that reaches the estimation stage, the observation vector handed to the
watchdog update (when it runs) and to the filter step is empty if a reset is pending in the
filter or odometry-only mode is on, and is the result of `extractObservations` on the staged
sightings otherwise. -/
theorem step_observation_set (E : Externals P) (env : TickEnv) (s : LocalisationBinding P)
    (h : refereeAllowsToPlay env = true) (hf : env.isFallen = false)
    (hd : ¬ (s.isForbidden = true ∧ diffSec s.lastForbidden env.nowTS < 10 ∧
      (s.field_filter.resetType = ResetType.None ∨
        s.field_filter.resetType = ResetType.Uniform))) :
    ((s.field_filter.isResetPending = true ∨ env.rhio.odometryMode = true) →
      ∃ (t0 t1 : ℚ) (rc : RobotController) (dt : ℚ) (pre : List Call),
        issuedCalls s (step E env s) =
          pre ++ [Call.odometryDiff t0 t1, Call.resize env.rhio.nb_particles_ff,
            Call.filterStep rc [] dt,
            Call.importFiltersResults, Call.publishToLoc, Call.rhioPush] ∧
        (pre = [] ∨ pre = [Call.applyWatcher []])) ∧
    ((s.field_filter.isResetPending = false ∧ env.rhio.odometryMode = false) →
      ∃ (t0 t1 : ℚ) (rc : RobotController) (dt : ℚ) (pre : List Call),
        issuedCalls s (step E env s) =
          pre ++ [Call.odometryDiff t0 t1, Call.resize env.rhio.nb_particles_ff,
            Call.filterStep rc (extractObservations E env.cs (tickStart env s)) dt,
            Call.importFiltersResults, Call.publishToLoc, Call.rhioPush] ∧
        (pre = [] ∨
          pre = [Call.applyWatcher (extractObservations E env.cs (tickStart env s))] ∨
          pre = [Call.applyWatcher (extractObservations E env.cs (tickStart env s)),
            Call.askForReset ResetType.Uniform])) := by
  obtain ⟨t0, t1, rc, dt, pre, hc, hcase⟩ := step_estimate_outcomes E env s h hf hd
  rw [tickObservations_tickStart] at hc hcase
  constructor
  · intro hp
    have hif : (s.field_filter.isResetPending || env.rhio.odometryMode) = true := by
      rcases hp with h1 | h1 <;> simp [h1]
    rw [if_pos hif] at hc hcase
    refine ⟨t0, t1, rc, dt, pre, hc, ?_⟩
    rcases hcase with ⟨_, hpre, _⟩ | ⟨_, hpre, _⟩ | ⟨hw, _, _, hnone⟩
    · exact Or.inl hpre
    · exact Or.inr hpre
    · exfalso
      rcases hp with h1 | h1
      · simp [FieldPF.isResetPending, hnone] at h1
      · simp [h1] at hw
  · intro hp
    have hif : ¬ (s.field_filter.isResetPending || env.rhio.odometryMode) = true := by
      simp [hp.1, hp.2]
    rw [if_neg hif] at hc hcase
    refine ⟨t0, t1, rc, dt, pre, hc, ?_⟩
    rcases hcase with ⟨_, hpre, _⟩ | ⟨_, hpre, _⟩ | ⟨_, hpre, _⟩
    · exact Or.inl hpre
    · exact Or.inr (Or.inl hpre)
    · exact Or.inr (Or.inr hpre)

/-- Witness for C14: an ordinary tick with a feature and a marker sighted, on the
constructed state (nothing pending) and on the same state with a Borders reset pending. -/
theorem step_observation_set_witness :
    refereeAllowsToPlay Sample.sightingEnv = true ∧
    Sample.sightingEnv.isFallen = false ∧
    (∃ (t0 t1 : ℚ) (rc : RobotController) (dt : ℚ) (pre : List Call),
      issuedCalls (fieldReset 0 ResetType.Borders 0 0 0 0 0 Sample.initial)
        (step Sample.externals Sample.sightingEnv
          (fieldReset 0 ResetType.Borders 0 0 0 0 0 Sample.initial)) =
        pre ++ [Call.odometryDiff t0 t1, Call.resize Sample.sightingEnv.rhio.nb_particles_ff,
          Call.filterStep rc [] dt,
          Call.importFiltersResults, Call.publishToLoc, Call.rhioPush] ∧
      (pre = [] ∨ pre = [Call.applyWatcher []])) :=
  ⟨rfl, rfl,
   (step_observation_set Sample.externals Sample.sightingEnv
     (fieldReset 0 ResetType.Borders 0 0 0 0 0 Sample.initial) rfl rfl
     (fun hforb => Bool.noConfusion hforb.1)).1 (Or.inl rfl)⟩

/-- The filter after a tick that reaches the estimation stage with a reset pending: the
filter step applies the pending reset to the resized population. -/
theorem step_pending_filter (E : Externals P) (env : TickEnv) (s : LocalisationBinding P)
    (h : refereeAllowsToPlay env = true) (hf : env.isFallen = false)
    (hd : ¬ (s.isForbidden = true ∧ diffSec s.lastForbidden env.nowTS < 10 ∧
      (s.field_filter.resetType = ResetType.None ∨
        s.field_filter.resetType = ResetType.Uniform)))
    (hp : s.field_filter.resetType ≠ ResetType.None) :
    (step E env s).field_filter =
      { particles := E.filter.resetParticles s.field_filter.resetType s.customReset
          (E.filter.resizeParticles env.rhio.nb_particles_ff s.field_filter.particles)
        resetType := ResetType.None } := by
  rw [step_of_estimate E env s h hf hd]
  have hp' : ({ tickStart env s with isForbidden := false } :
      LocalisationBinding P).field_filter.resetType ≠ ResetType.None := hp
  exact (estimate_of_pending E env { tickStart env s with isForbidden := false } hp').1

/-- An ordinary tick entered with a Uniform reset pending and a score of 0, the watchdog
running with a non-negative step cost: the reset is applied, the score stays 0 and the tick
issues no reset request. -/
theorem step_uniform_pending (E : Externals P) (env : TickEnv) (s : LocalisationBinding P)
    (h : refereeAllowsToPlay env = true) (hf : env.isFallen = false)
    (hen : env.rhio.consistencyEnabled = true) (hodo : env.rhio.odometryMode = false)
    (hcost : 0 ≤ env.rhio.consistencyStepCost)
    (hnd : ¬ (s.isForbidden = true ∧ diffSec s.lastForbidden env.nowTS < 10))
    (hp : s.field_filter.resetType = ResetType.Uniform) (hs : s.consistencyScore = 0) :
    (step E env s).consistencyScore = 0 ∧
    (step E env s).field_filter =
      { particles := E.filter.resetParticles ResetType.Uniform s.customReset
          (E.filter.resizeParticles env.rhio.nb_particles_ff s.field_filter.particles)
        resetType := ResetType.None } ∧
    (issuedCalls s (step E env s)).any Call.isAskForReset = false ∧
    (issuedCalls s (step E env s)).any Call.isFilterStep = true := by
  have hd : ¬ (s.isForbidden = true ∧ diffSec s.lastForbidden env.nowTS < 10 ∧
      (s.field_filter.resetType = ResetType.None ∨
        s.field_filter.resetType = ResetType.Uniform)) :=
    fun hh => hnd ⟨hh.1, hh.2.1⟩
  have hne : s.field_filter.resetType ≠ ResetType.None := by rw [hp]; decide
  have hfilt := step_pending_filter E env s h hf hd hne
  rw [hp] at hfilt
  have hpend : s.field_filter.isResetPending = true := by
    simp [FieldPF.isResetPending, hp]
  obtain ⟨t0, t1, rc, dt, pre, hc, hcase⟩ := step_estimate_outcomes E env s h hf hd
  rw [tickObservations_tickStart, if_pos (by simp [hpend])] at hc hcase
  rcases hcase with ⟨hw, _, _⟩ | ⟨_, hpre, hsc⟩ | ⟨_, _, _, hnone⟩
  · simp [hen, hodo] at hw
  · refine ⟨?_, hfilt, ?_, ?_⟩
    · rw [hsc, hs]
      have : min (1 : ℚ) (max 0 (0 + -env.rhio.consistencyStepCost)) = 0 := by
        rw [max_eq_left (by linarith), min_eq_right (by norm_num)]
      simpa [watcherDelta] using this
    · rw [hc, hpre]; rfl
    · rw [hc, hpre]; rfl
  · rw [hp] at hnone; cases hnone

/-- An ordinary tick during which the watchdog itself issues its reset: the request is the
only one of the tick, the filter step of the same tick applies it, and the score is 0. -/
theorem step_watchdog_reset (E : Externals P) (env : TickEnv) (s : LocalisationBinding P)
    (h : refereeAllowsToPlay env = true) (hf : env.isFallen = false)
    (hd : ¬ (s.isForbidden = true ∧ diffSec s.lastForbidden env.nowTS < 10 ∧
      (s.field_filter.resetType = ResetType.None ∨
        s.field_filter.resetType = ResetType.Uniform)))
    (hreq : (issuedCalls s (step E env s)).any Call.isAskForReset = true) :
    (step E env s).consistencyScore = 0 ∧
    (step E env s).field_filter.resetType = ResetType.None ∧
    resetRequests (issuedCalls s (step E env s)) = 1 ∧
    (issuedCalls s (step E env s)).any Call.isFilterStep = true := by
  obtain ⟨t0, t1, rc, dt, pre, hc, hcase⟩ := step_estimate_outcomes E env s h hf hd
  have hres : (step E env s).field_filter.resetType = ResetType.None := by
    rw [step_of_estimate E env s h hf hd]
    exact stepEstimate_resetType E env _
  rcases hcase with ⟨_, hpre, _⟩ | ⟨_, hpre, _⟩ | ⟨_, hpre, hsc, _⟩
  · rw [hc, hpre] at hreq; cases hreq
  · rw [hc, hpre] at hreq; cases hreq
  · refine ⟨hsc, hres, ?_, ?_⟩
    · rw [hc, hpre]; rfl
    · rw [hc, hpre]; rfl

/-- What a firing watchdog update leaves: a Uniform reset pending, a score of 0, and the
forbidden flag and time untouched. -/
theorem applyWatcher_fired (E : Externals P) (ts : TimeStamp) (obs : List Observation)
    (s : LocalisationBinding P)
    (hreq : (issuedCalls s (applyWatcher E ts obs s)).any Call.isAskForReset = true) :
    (applyWatcher E ts obs s).field_filter.resetType = ResetType.Uniform ∧
    (applyWatcher E ts obs s).consistencyScore = 0 ∧
    (applyWatcher E ts obs s).isForbidden = s.isForbidden ∧
    (applyWatcher E ts obs s).lastForbidden = s.lastForbidden ∧
    (applyWatcher E ts obs s).customReset = s.customReset ∧
    (applyWatcher E ts obs s).field_filter.particles = s.field_filter.particles := by
  rcases applyWatcher_cases E ts obs s with ⟨_, heq⟩ | ⟨_, heq⟩
  · rw [heq]; exact ⟨rfl, rfl, rfl, rfl, rfl, rfl⟩
  · have hc : issuedCalls s (applyWatcher E ts obs s) = [Call.applyWatcher obs] :=
      issuedCalls_append _ _ _ (by rw [heq])
    rw [hc] at hreq; cases hreq

/-- C11: with the watchdog enabled, odometry-only mode off and `stepCost ≥ 0`, an ordinary
tick (allowed, not fallen, not delayed) that applies a Uniform reset leaves a consistency
score of 0 and issues no further reset request, whatever sightings are staged: this holds
when the reset was requested by `fieldReset`, when it was requested by a watchdog update
before the tick, and when the watchdog of the tick itself requests it (its request is then
the only one of the tick and is applied by the filter step of the same tick). -/
theorem uniform_reset_applied_score (E : Externals P) (env : TickEnv) (s : LocalisationBinding P)
    (h : refereeAllowsToPlay env = true) (hf : env.isFallen = false)
    (hen : env.rhio.consistencyEnabled = true) (hodo : env.rhio.odometryMode = false)
    (hcost : 0 ≤ env.rhio.consistencyStepCost) :
    (∀ now x y noise theta thetaNoise : ℚ,
      ¬ (s.isForbidden = true ∧ diffSec s.lastForbidden env.nowTS < 10) →
      (step E env (fieldReset now ResetType.Uniform x y noise theta thetaNoise s)).consistencyScore
        = 0 ∧
      (step E env (fieldReset now ResetType.Uniform x y noise theta thetaNoise s)).field_filter =
        { particles := E.filter.resetParticles ResetType.Uniform s.customReset
            (E.filter.resizeParticles env.rhio.nb_particles_ff s.field_filter.particles)
          resetType := ResetType.None } ∧
      (issuedCalls (fieldReset now ResetType.Uniform x y noise theta thetaNoise s)
        (step E env (fieldReset now ResetType.Uniform x y noise theta thetaNoise s))).any
          Call.isAskForReset = false) ∧
    (∀ (ts : TimeStamp) (obs : List Observation),
      (issuedCalls s (applyWatcher E ts obs s)).any Call.isAskForReset = true →
      ¬ (s.isForbidden = true ∧ diffSec s.lastForbidden env.nowTS < 10) →
      (step E env (applyWatcher E ts obs s)).consistencyScore = 0 ∧
      (step E env (applyWatcher E ts obs s)).field_filter =
        { particles := E.filter.resetParticles ResetType.Uniform s.customReset
            (E.filter.resizeParticles env.rhio.nb_particles_ff s.field_filter.particles)
          resetType := ResetType.None } ∧
      (issuedCalls (applyWatcher E ts obs s)
        (step E env (applyWatcher E ts obs s))).any Call.isAskForReset = false) ∧
    (¬ (s.isForbidden = true ∧ diffSec s.lastForbidden env.nowTS < 10 ∧
        (s.field_filter.resetType = ResetType.None ∨
          s.field_filter.resetType = ResetType.Uniform)) →
      (issuedCalls s (step E env s)).any Call.isAskForReset = true →
      (step E env s).consistencyScore = 0 ∧
      (step E env s).field_filter.resetType = ResetType.None ∧
      resetRequests (issuedCalls s (step E env s)) = 1) := by
  refine ⟨?_, ?_, ?_⟩
  · intro now x y noise theta thetaNoise hnd
    have key := step_uniform_pending E env
      (fieldReset now ResetType.Uniform x y noise theta thetaNoise s) h hf hen hodo hcost hnd
      rfl rfl
    exact ⟨key.1, key.2.1, key.2.2.1⟩
  · intro ts obs hreq hnd
    obtain ⟨f1, f2, f3, f4, f5, f6⟩ := applyWatcher_fired E ts obs s hreq
    have key := step_uniform_pending E env (applyWatcher E ts obs s) h hf hen hodo hcost
      (by rw [f3, f4]; exact hnd) f1 f2
    rw [f5, f6] at key
    exact ⟨key.1, key.2.1, key.2.2.1⟩
  · intro hd hreq
    have key := step_watchdog_reset E env s h hf hd hreq
    exact ⟨key.1, key.2.1, key.2.2.1⟩

/-- Witness for C11: a Uniform reset requested at time 0 on the constructed state and
applied by an ordinary tick at time 1 in which a feature and a marker are sighted. -/
theorem uniform_reset_applied_score_witness :
    refereeAllowsToPlay Sample.sightingEnv = true ∧
    Sample.sightingEnv.isFallen = false ∧
    Sample.sightingEnv.rhio.consistencyEnabled = true ∧
    Sample.sightingEnv.rhio.odometryMode = false ∧
    (step Sample.externals Sample.sightingEnv
      (fieldReset 0 ResetType.Uniform 0 0 0 0 0 Sample.initial)).consistencyScore = 0 :=
  ⟨rfl, rfl, rfl, rfl,
   ((uniform_reset_applied_score Sample.externals Sample.sightingEnv Sample.initial rfl rfl rfl rfl
      (by norm_num [Sample.sightingEnv, Sample.env, Config.default])).1 0 0 0 0 0 0
      (fun hforb => Bool.noConfusion hforb.1)).1⟩

/-- The step delta of the watchdog when one observation is inserted in the list: a feature
observation adds the good-observation gain or subtracts the bad-observation cost, any other
observation changes nothing. -/
theorem watcherDelta_insert (E : Externals P) (cfg : Config) (particle : FieldPosition)
    (pre post : List Observation) (o : Observation) :
    watcherDelta E cfg particle (pre ++ o :: post) =
      watcherDelta E cfg particle (pre ++ post) +
        (match o with
          | Observation.feature f =>
            if E.potential f particle > E.minScore f then cfg.consistencyGoodObsGain
            else -cfg.consistencyBadObsCost
          | _ => 0) := by
  rw [watcherDelta_eq, watcherDelta_eq]
  cases o with
  | feature f =>
    by_cases hf : E.potential f particle > E.minScore f
    · have hnot : ¬ E.potential f particle ≤ E.minScore f := not_le.mpr hf
      simp [goodObservations, badObservations, List.countP_append, List.countP_cons, hf, hnot]
      ring
    · have hle : E.potential f particle ≤ E.minScore f := not_lt.mp hf
      simp [goodObservations, badObservations, List.countP_append, List.countP_cons, hf, hle]
      ring
  | tags t => simp [goodObservations, badObservations, List.countP_append, List.countP_cons]
  | field g => simp [goodObservations, badObservations, List.countP_append, List.countP_cons]

/-- Counterexample to C12 as stated: an ordinary tick on the constructed state in which
only a marker is sighted.  The observation vector of the tick holds a tag observation and
the field-shape observation, the step delta of the watchdog is just `-stepCost` (the tag
observation adds neither the gain 0.1 nor the cost 0.02), and the score after the tick is
0.995, as in a tick without any observation. -/
theorem tag_observation_is_not_scored :
    tickObservations Sample.externals Sample.markerEnv
      (tickStart Sample.markerEnv Sample.initial) =
      [Observation.tags Sample.tagSeen, Observation.field false] ∧
    watcherDelta Sample.externals Config.default ⟨0, 0, 0⟩
      [Observation.tags Sample.tagSeen, Observation.field false] =
      -Config.default.consistencyStepCost ∧
    Config.default.consistencyGoodObsGain ≠ 0 ∧
    Config.default.consistencyBadObsCost ≠ 0 ∧
    (step Sample.externals Sample.markerEnv Sample.initial).consistencyScore = 199 / 200 := by
  refine ⟨?_, ?_, ?_, ?_, ?_⟩
  · simp [tickObservations, FieldPF.isResetPending, extractObservations,
      extractFeatureObservations, extractTagsObservations, tickStart,
      stealFromVision, importFromRhIO, Sample.markerEnv, Sample.env, Sample.initial,
      LocalisationBinding.construct, Sample.externals, Sample.cameraState,
      tagsPushBack, tagObservation, sumPositions, Sample.tagSeen, Config.default]
  · exact watcherDelta_of_none_scored _ _ _ _ (by simp [Observation.isScored])
  · norm_num [Config.default]
  · norm_num [Config.default]
  · have hq := step_quiet Sample.externals Sample.markerEnv Sample.initial rfl rfl rfl rfl rfl rfl
    have hno : ¬ (diffSec Sample.initial.lastUniformReset Sample.markerEnv.nowTS > 30 ∧
        min 1 (max 0 (Sample.initial.consistencyScore + -(5 / 1000))) ≤ 0) := by
      norm_num [diffSec, Sample.initial, LocalisationBinding.construct, Sample.markerEnv,
        Sample.env]
    rw [(hq.2.2.2 hno).1]
    norm_num [Sample.initial, LocalisationBinding.construct]

/-- The amended C12: in the watchdog update only the feature observations are scored.  A
feature observation changes the step delta by `+goodObsGain` when its potential at the
representative pose is above its minimal score and by `-badObsCost` otherwise; a tag
observation and the field-shape observation change neither the step delta nor the score
written by the update. -/
theorem watcher_scores_feature_observations_only (E : Externals P) (cfg : Config)
    (particle : FieldPosition) (pre post : List Observation) :
    (∀ f : FeatureObservation,
      watcherDelta E cfg particle (pre ++ Observation.feature f :: post) =
        watcherDelta E cfg particle (pre ++ post) +
          (if E.potential f particle > E.minScore f then cfg.consistencyGoodObsGain
           else -cfg.consistencyBadObsCost)) ∧
    (∀ t : TagsObservation,
      watcherDelta E cfg particle (pre ++ Observation.tags t :: post) =
        watcherDelta E cfg particle (pre ++ post)) ∧
    (∀ g : Bool,
      watcherDelta E cfg particle (pre ++ Observation.field g :: post) =
        watcherDelta E cfg particle (pre ++ post)) ∧
    (∀ (t : TagsObservation) (ts : TimeStamp) (s : LocalisationBinding P),
      (applyWatcher E ts (pre ++ Observation.tags t :: post) s).consistencyScore =
        (applyWatcher E ts (pre ++ post) s).consistencyScore) := by
  refine ⟨?_, ?_, ?_, ?_⟩
  · intro f
    exact watcherDelta_insert E cfg particle pre post (Observation.feature f)
  · intro t
    rw [watcherDelta_insert]
    simp
  · intro g
    rw [watcherDelta_insert]
    simp
  · intro t ts s
    rw [applyWatcher_consistencyScore, applyWatcher_consistencyScore, watcherDelta_insert]
    simp

/-- After `checkPlaying`, a referee service whose last game-controller message is more than
5 s old reports that the robot is playing. -/
theorem checkPlaying_stale (r : RefereeService) (hstale : r.gameState.lastUpdate > 500) :
    r.checkPlaying.isPlaying = true := by
  unfold RefereeService.checkPlaying RefereeService.isPlaying
  split
  · rfl
  · simp only
    rw [if_pos hstale]

/-- The play gate in live mode when the referee is unavailable: it answers `true` when the
robocup move is not running, and when the referee service has refreshed its state from a
game-controller message older than 5 s. -/
theorem refereeAllowsToPlay_unavailable (env : TickEnv) :
    (env.robocupRunning = false → refereeAllowsToPlay env = true) ∧
    (∀ r : RefereeService, env.referee = r.checkPlaying → r.gameState.lastUpdate > 500 →
      refereeAllowsToPlay env = true) := by
  constructor
  · intro hr
    simp [refereeAllowsToPlay, hr]
  · intro r href hstale
    have hp : env.referee.isPlaying = true := by rw [href]; exact checkPlaying_stale r hstale
    unfold refereeAllowsToPlay
    split
    · rfl
    · simp [hp]

/-- Counterexample to C19 as stated: in live mode the play gate answers `true`, not `false`,
both when the robocup move is not running and when the robocup move is running while the
referee service has refreshed its state from a game-controller message that is 5.01 s old. -/
theorem live_gate_unavailable_allows_play :
    Sample.liveEnvNoRobocup.fakeMode = false ∧
    Sample.liveEnvNoRobocup.robocupRunning = false ∧
    refereeAllowsToPlay Sample.liveEnvNoRobocup = true ∧
    Sample.liveEnvStale.fakeMode = false ∧
    Sample.liveEnvStale.robocupRunning = true ∧
    Sample.staleReferee.gameState.lastUpdate > 500 ∧
    Sample.liveEnvStale.referee = Sample.staleReferee.checkPlaying ∧
    refereeAllowsToPlay Sample.liveEnvStale = true :=
  ⟨rfl, rfl, rfl, rfl, rfl, by decide, rfl, by decide⟩

/-- The amended C19: in live mode (no fake mode) the loop defaults to allowed to play when
the play gate is unavailable: `refereeAllowsToPlay` returns `true` when the robocup move is
not running, and when the referee service, having received no game-controller update for
more than 5 s, has run `checkPlaying` (which then supposes that the robot is playing). -/
theorem live_gate_defaults_to_allowed (env : TickEnv) :
    (env.fakeMode = false → env.robocupRunning = false → refereeAllowsToPlay env = true) ∧
    (env.fakeMode = false → ∀ r : RefereeService, env.referee = r.checkPlaying →
      r.gameState.lastUpdate > 500 →
      r.checkPlaying.playing = true ∧ refereeAllowsToPlay env = true) :=
  ⟨fun _ => (refereeAllowsToPlay_unavailable env).1,
   fun _ r href hstale =>
    ⟨checkPlaying_stale r hstale, (refereeAllowsToPlay_unavailable env).2 r href hstale⟩⟩

/-- Witness for the amended C19: the two sample live environments. -/
theorem live_gate_defaults_to_allowed_witness :
    Sample.liveEnvNoRobocup.fakeMode = false ∧
    Sample.liveEnvNoRobocup.robocupRunning = false ∧
    refereeAllowsToPlay Sample.liveEnvNoRobocup = true ∧
    Sample.liveEnvStale.fakeMode = false ∧
    refereeAllowsToPlay Sample.liveEnvStale = true :=
  ⟨rfl, rfl, (live_gate_defaults_to_allowed Sample.liveEnvNoRobocup).1 rfl rfl, rfl,
   ((live_gate_defaults_to_allowed Sample.liveEnvStale).2 rfl Sample.staleReferee rfl
      (by decide)).2⟩

/-- The list built by `extractObservations`: empty when there is neither a feature nor a tag
observation, and otherwise the feature observations, then the tag observations, then one
field-shape observation. -/
theorem extractObservations_eq (E : Externals P) (cs : CameraState) (s : LocalisationBinding P) :
    ((extractFeatureObservations E cs s = [] ∧ extractTagsObservations E cs s = []) →
      extractObservations E cs s = []) ∧
    (¬ (extractFeatureObservations E cs s = [] ∧ extractTagsObservations E cs s = []) →
      extractObservations E cs s =
        (extractFeatureObservations E cs s).map Observation.feature ++
        (extractTagsObservations E cs s).map Observation.tags ++
        [Observation.field s.isGoalKeeper]) := by
  unfold extractObservations
  constructor
  · intro h
    rw [h.1, h.2]
    rfl
  · intro h
    have hlen : ((extractFeatureObservations E cs s).map Observation.feature ++
        (extractTagsObservations E cs s).map Observation.tags).length > 0 := by
      rw [List.length_append, List.length_map, List.length_map]
      by_contra hz
      apply h
      constructor
      · exact List.length_eq_zero.mp (by omega)
      · exact List.length_eq_zero.mp (by omega)
    simp only [hlen, if_true]

theorem countP_isField_features (l : List FeatureObservation) :
    (l.map Observation.feature).countP Observation.isField = 0 := by
  rw [List.countP_eq_zero]
  intro o ho
  obtain ⟨f, _, rfl⟩ := List.mem_map.mp ho
  simp [Observation.isField]

theorem countP_isField_tags (l : List TagsObservation) :
    (l.map Observation.tags).countP Observation.isField = 0 := by
  rw [List.countP_eq_zero]
  intro o ho
  obtain ⟨f, _, rfl⟩ := List.mem_map.mp ho
  simp [Observation.isField]

theorem extractFeatureObservations_of_no_sighting (E : Externals P) (cs : CameraState)
    (s : LocalisationBinding P) (h : ∀ e ∈ s.features, e.2 = []) :
    extractFeatureObservations E cs s = [] := by
  unfold extractFeatureObservations
  generalize s.features = l at h
  induction l with
  | nil => rfl
  | cons e rest ih =>
    rw [List.foldl_cons, h e (List.mem_cons_self _ _)]
    exact ih (fun e' he' => h e' (List.mem_cons_of_mem _ he'))

theorem extractTagsObservations_of_no_sighting (E : Externals P) (cs : CameraState)
    (s : LocalisationBinding P) (h : s.markerIndices = [] ∨ s.markerPositions = []) :
    extractTagsObservations E cs s = [] := by
  unfold extractTagsObservations
  rcases h with h | h <;> simp [h]

/-- C20: the list built by `extractObservations` is empty when no feature and no tag
observation is extracted, and otherwise consists of all feature observations, then all tag
observations, then one field-shape observation.  Hence it contains a field-shape observation
if and only if it contains a feature or tag observation, and then there is exactly one and
it is the last element.  With no feature and no marker sighting staged the list is empty. -/
theorem extractObservations_shape (E : Externals P) (cs : CameraState)
    (s : LocalisationBinding P) :
    ((extractFeatureObservations E cs s = [] ∧ extractTagsObservations E cs s = []) →
      extractObservations E cs s = []) ∧
    (¬ (extractFeatureObservations E cs s = [] ∧ extractTagsObservations E cs s = []) →
      extractObservations E cs s =
        (extractFeatureObservations E cs s).map Observation.feature ++
        (extractTagsObservations E cs s).map Observation.tags ++
        [Observation.field s.isGoalKeeper]) ∧
    ((extractObservations E cs s).any Observation.isField = true ↔
      (extractObservations E cs s).any (fun o => !o.isField) = true) ∧
    ((extractObservations E cs s).any Observation.isField = true →
      (extractObservations E cs s).countP Observation.isField = 1 ∧
      (extractObservations E cs s).getLast? = some (Observation.field s.isGoalKeeper)) ∧
    ((∀ e ∈ s.features, e.2 = []) → (s.markerIndices = [] ∨ s.markerPositions = []) →
      extractObservations E cs s = []) := by
  by_cases h : extractFeatureObservations E cs s = [] ∧ extractTagsObservations E cs s = []
  · have heq := (extractObservations_eq E cs s).1 h
    rw [heq]
    refine ⟨fun _ => rfl, fun hn => absurd h hn, by simp, by simp, fun _ _ => rfl⟩
  · have heq := (extractObservations_eq E cs s).2 h
    rw [heq]
    refine ⟨fun hh => absurd hh h, fun _ => rfl, ?_, ?_, ?_⟩
    · have h1 : ((extractFeatureObservations E cs s).map Observation.feature ++
          (extractTagsObservations E cs s).map Observation.tags ++
          [Observation.field s.isGoalKeeper]).any Observation.isField = true := by
        simp [Observation.isField]
      have h2 : ((extractFeatureObservations E cs s).map Observation.feature ++
          (extractTagsObservations E cs s).map Observation.tags ++
          [Observation.field s.isGoalKeeper]).any (fun o => !o.isField) = true := by
        rw [List.any_append, List.any_append, Bool.or_eq_true, Bool.or_eq_true]
        left
        by_cases hF : extractFeatureObservations E cs s = []
        · right
          have hT : extractTagsObservations E cs s ≠ [] := fun hT => h ⟨hF, hT⟩
          obtain ⟨t, rest, ht⟩ := List.exists_cons_of_ne_nil hT
          rw [ht]
          simp [Observation.isField]
        · left
          obtain ⟨f, rest, hf⟩ := List.exists_cons_of_ne_nil hF
          rw [hf]
          simp [Observation.isField]
      exact ⟨fun _ => h2, fun _ => h1⟩
    · intro _
      constructor
      · rw [List.countP_append, List.countP_append, countP_isField_features,
          countP_isField_tags]
        rfl
      · rw [List.getLast?_append]
        rfl
    · intro hf hm
      exact absurd ⟨extractFeatureObservations_of_no_sighting E cs s hf,
        extractTagsObservations_of_no_sighting E cs s hm⟩ h

/-- Witness for C20: with two features of different types and two sightings of one marker
staged, the list holds two feature observations, one tag observation and, last, the
field-shape observation. -/
theorem extractObservations_shape_witness :
    extractObservations Sample.externals Sample.cameraState Sample.staged =
      (extractFeatureObservations Sample.externals Sample.cameraState Sample.staged).map
        Observation.feature ++
      (extractTagsObservations Sample.externals Sample.cameraState Sample.staged).map
        Observation.tags ++
      [Observation.field false] ∧
    (extractFeatureObservations Sample.externals Sample.cameraState Sample.staged).length = 2 ∧
    (extractTagsObservations Sample.externals Sample.cameraState Sample.staged).length = 1 := by
  have hF : (extractFeatureObservations Sample.externals Sample.cameraState
      Sample.staged).length = 2 := by
    simp [extractFeatureObservations, Sample.staged, Sample.initial,
      LocalisationBinding.construct, addFeature, Sample.externals, Sample.cameraState]
  have hT : (extractTagsObservations Sample.externals Sample.cameraState
      Sample.staged).length = 1 := by
    simp [extractTagsObservations, Sample.staged, Sample.initial,
      LocalisationBinding.construct, Sample.cameraState, tagsPushBack]
  refine ⟨(extractObservations_shape Sample.externals Sample.cameraState Sample.staged).2.1 ?_,
    hF, hT⟩
  intro hnil
  rw [hnil.1] at hF
  cases hF

/-- Witness for C16: 31 s after the previous processed tick the filter step receives 5 s. -/
theorem updateFilter_step_time_witness :
    diffSec Sample.lostState.lastTS Sample.lostState.currTS = 31 ∧
    min 5 (diffSec Sample.lostState.lastTS Sample.lostState.currTS) = 5 := by
  have he : diffSec Sample.lostState.lastTS Sample.lostState.currTS = 31 := by
    norm_num [diffSec, Sample.lostState, Sample.initial, LocalisationBinding.construct]
  refine ⟨he, (updateFilter_step_time Sample.externals (Sample.env 31 true false) []
    Sample.lostState).2.2.2 ?_⟩
  rw [he]
  norm_num

/-- The gain outside the boost window and outside odometry-only mode with the watchdog
enabled, as a function of the score. -/
theorem noiseGain_consistency (s : LocalisationBinding P) (q : ℚ)
    (hodo : s.cfg.odometryMode = false)
    (hout : ¬ s.elapsedSinceUniformReset < s.cfg.noiseBoostDuration)
    (hen : s.cfg.consistencyEnabled = true) :
    noiseGain { s with consistencyScore := q } = 1 + (1 - q) * (s.cfg.consistencyMaxNoise - 1) := by
  simp [noiseGain, hodo, hout, hen]

/-- C22: outside the post-reset boost window and outside odometry-only mode, with the
watchdog enabled and `consistencyMaxNoise ≥ 1`, the process-noise gain is a non-increasing
function of the consistency score: it is 1 at score 1, `consistencyMaxNoise` at score 0, and
for two scores `q1 ≤ q2` the gain at `q1` is at least the gain at `q2`; on [0,1] it stays
between 1 and `consistencyMaxNoise`. -/
theorem noiseGain_antitone_in_score (s : LocalisationBinding P)
    (hodo : s.cfg.odometryMode = false)
    (hout : ¬ s.elapsedSinceUniformReset < s.cfg.noiseBoostDuration)
    (hen : s.cfg.consistencyEnabled = true)
    (hmax : 1 ≤ s.cfg.consistencyMaxNoise) :
    noiseGain { s with consistencyScore := 1 } = 1 ∧
    noiseGain { s with consistencyScore := 0 } = s.cfg.consistencyMaxNoise ∧
    (∀ q1 q2 : ℚ, q1 ≤ q2 →
      noiseGain { s with consistencyScore := q2 } ≤ noiseGain { s with consistencyScore := q1 }) ∧
    (∀ q : ℚ, 0 ≤ q → q ≤ 1 →
      1 ≤ noiseGain { s with consistencyScore := q } ∧
      noiseGain { s with consistencyScore := q } ≤ s.cfg.consistencyMaxNoise) := by
  refine ⟨?_, ?_, ?_, ?_⟩
  · rw [noiseGain_consistency s 1 hodo hout hen]; ring
  · rw [noiseGain_consistency s 0 hodo hout hen]; ring
  · intro q1 q2 hq
    rw [noiseGain_consistency s q1 hodo hout hen, noiseGain_consistency s q2 hodo hout hen]
    have h0 : 0 ≤ s.cfg.consistencyMaxNoise - 1 := by linarith
    nlinarith [mul_le_mul_of_nonneg_right (sub_le_sub_left hq 1) h0]
  · intro q h0 h1
    rw [noiseGain_consistency s q hodo hout hen]
    have hm : 0 ≤ s.cfg.consistencyMaxNoise - 1 := by linarith
    constructor
    · nlinarith [mul_nonneg (sub_nonneg.mpr h1) hm]
    · nlinarith [mul_nonneg h0 hm]

/-- Witness for C22: the state `lostState` (31 s after the last Uniform reset, default
parameters, `consistencyMaxNoise = 5`). -/
theorem noiseGain_antitone_in_score_witness :
    Sample.lostState.cfg.odometryMode = false ∧
    Sample.lostState.cfg.consistencyEnabled = true ∧
    noiseGain { Sample.lostState with consistencyScore := 1 } = 1 ∧
    noiseGain { Sample.lostState with consistencyScore := 0 }
      = Sample.lostState.cfg.consistencyMaxNoise :=
  ⟨rfl, rfl,
   (noiseGain_antitone_in_score Sample.lostState rfl
      (by norm_num [Sample.lostState, Sample.initial, LocalisationBinding.construct,
        Config.default]) rfl
      (by norm_num [Sample.lostState, Sample.initial, LocalisationBinding.construct,
        Config.default])).1,
   (noiseGain_antitone_in_score Sample.lostState rfl
      (by norm_num [Sample.lostState, Sample.initial, LocalisationBinding.construct,
        Config.default]) rfl
      (by norm_num [Sample.lostState, Sample.initial, LocalisationBinding.construct,
        Config.default])).2.1⟩

theorem getTimeMS_div (t : TimeStamp) : getTimeMS t / 1000 = t := by
  unfold getTimeMS
  field_simp

/-- The calls of the filter update with the start of the odometry interval made explicit. -/
theorem updateFilter_calls_interval (E : Externals P) (env : TickEnv)
    (obs : List Observation) (s : LocalisationBinding P) :
    (updateFilter E env obs s).calls =
      s.calls ++
        [Call.odometryDiff
            (if s.field_filter.resetType ≠ ResetType.None ∧
                s.field_filter.resetType ≠ ResetType.Fall
              then s.lastFieldReset else s.lastTS) s.currTS,
          Call.resize s.cfg.nb_particles_ff,
          Call.filterStep
            ⟨⟨(env.odometryDiff
                  (if s.field_filter.resetType ≠ ResetType.None ∧
                      s.field_filter.resetType ≠ ResetType.Fall
                    then s.lastFieldReset else s.lastTS) s.currTS).x,
                (env.odometryDiff
                  (if s.field_filter.resetType ≠ ResetType.None ∧
                      s.field_filter.resetType ≠ ResetType.Fall
                    then s.lastFieldReset else s.lastTS) s.currTS).y⟩,
              E.rad2deg (env.odometryDiff
                  (if s.field_filter.resetType ≠ ResetType.None ∧
                      s.field_filter.resetType ≠ ResetType.Fall
                    then s.lastFieldReset else s.lastTS) s.currTS).z,
              noiseGain s⟩
            obs (min 5 (diffSec s.lastTS s.currTS))] := by
  simp only [updateFilter, FieldPF.getPendingReset, getTimeMS_div]

/-- C24: `updateFilter` queries the odometry displacement over an interval that ends at the
time stamp of the current tick and starts at `lastFieldReset` when a Uniform, Custom or
Borders reset is pending, and at `lastTS` when no reset or a Fall reset is pending; the
displacement handed to the filter step is the one returned for that interval; after
`updateFilter`, `lastTS` is the time stamp of the current tick. -/
theorem updateFilter_odometry_interval (E : Externals P) (env : TickEnv)
    (obs : List Observation) (s : LocalisationBinding P) :
    (∃ (t0 : ℚ) (rc : RobotController) (dt : ℚ),
      issuedCalls s (updateFilter E env obs s) =
        [Call.odometryDiff t0 s.currTS, Call.resize s.cfg.nb_particles_ff,
          Call.filterStep rc obs dt] ∧
      rc.move = ⟨(env.odometryDiff t0 s.currTS).x, (env.odometryDiff t0 s.currTS).y⟩ ∧
      rc.orientationChange = E.rad2deg (env.odometryDiff t0 s.currTS).z ∧
      ((s.field_filter.resetType = ResetType.Uniform ∨
          s.field_filter.resetType = ResetType.Custom ∨
          s.field_filter.resetType = ResetType.Borders) → t0 = s.lastFieldReset) ∧
      ((s.field_filter.resetType = ResetType.None ∨
          s.field_filter.resetType = ResetType.Fall) → t0 = s.lastTS)) ∧
    (updateFilter E env obs s).lastTS = s.currTS := by
  refine ⟨⟨_, _, _, issuedCalls_append _ _ _ (updateFilter_calls_interval E env obs s),
    rfl, rfl, ?_, ?_⟩, rfl⟩
  · intro hp
    rw [if_pos]
    rcases hp with hp | hp | hp <;> rw [hp] <;> exact ⟨by decide, by decide⟩
  · intro hp
    rw [if_neg]
    rcases hp with hp | hp <;> rw [hp] <;> simp

/-- Witness for C24: with a Custom reset requested at time 2 and the current tick at time 3,
the odometry is queried from 2 to 3, although the previous processed tick is time 0. -/
theorem updateFilter_odometry_interval_witness :
    ∃ (rc : RobotController) (dt : ℚ),
      issuedCalls { Sample.graceState ResetType.Custom with currTS := 3 }
        (updateFilter Sample.externals (Sample.env 3 true false) []
          { Sample.graceState ResetType.Custom with currTS := 3 }) =
        [Call.odometryDiff 2 3, Call.resize 5000, Call.filterStep rc [] dt] := by
  obtain ⟨t0, rc, dt, h1, _, _, h4, _⟩ :=
    (updateFilter_odometry_interval Sample.externals (Sample.env 3 true false) []
      { Sample.graceState ResetType.Custom with currTS := 3 }).1
  have ht : t0 = 2 := h4 (Or.inr (Or.inl rfl))
  rw [ht] at h1
  exact ⟨rc, dt, h1⟩

/-- A penalized robot that is not serving its penalty has at least 30 s of penalty left. -/
theorem penalized_not_serving_iff (r : RefereeService) :
    (r.isPenalized && !r.isServingPenalty) = true ↔ 30 ≤ r.getRemainingPenaltyTime r.id := by
  simp only [RefereeService.isPenalized, RefereeService.isServingPenalty, Bool.and_eq_true,
    decide_eq_true_eq, Bool.not_eq_true', Bool.and_eq_false_iff, decide_eq_false_iff_not]
  constructor
  · rintro ⟨h1, h2 | h2⟩ <;> omega
  · intro h
    exact ⟨by omega, Or.inr (by omega)⟩

/-- C26: `refereeAllowsToPlay` returns `true` whenever the scheduler is in fake mode or the
robocup move is not running; otherwise it returns `isPlaying` or ((`isPlacingPhase` or
`isFreezePhase`) and not (`isPenalized` and not `isServingPenalty`)).  In particular, with
the gate deciding from the referee, a robot that is not playing is allowed during a placing
or freeze phase exactly when it is not penalized or its remaining penalty time is below
30 s. -/
theorem refereeAllowsToPlay_formula (env : TickEnv) :
    ((env.fakeMode = true ∨ env.robocupRunning = false) → refereeAllowsToPlay env = true) ∧
    ((env.fakeMode = false ∧ env.robocupRunning = true) →
      refereeAllowsToPlay env =
        (env.referee.isPlaying ||
          ((env.referee.isPlacingPhase || env.referee.isFreezePhase) &&
            !(env.referee.isPenalized && !env.referee.isServingPenalty)))) ∧
    ((env.fakeMode = false ∧ env.robocupRunning = true) →
      env.referee.isPlaying = false →
      (env.referee.isPlacingPhase = true ∨ env.referee.isFreezePhase = true) →
      (refereeAllowsToPlay env = true ↔
        (env.referee.isPenalized = false ∨
          env.referee.getRemainingPenaltyTime env.referee.id < 30))) := by
  refine ⟨?_, ?_, ?_⟩
  · intro h
    rcases h with h | h <;> simp [refereeAllowsToPlay, h]
  · intro h
    simp [refereeAllowsToPlay, h.1, h.2]
  · intro h hplay hphase
    have hform : refereeAllowsToPlay env =
        (env.referee.isPlaying ||
          ((env.referee.isPlacingPhase || env.referee.isFreezePhase) &&
            !(env.referee.isPenalized && !env.referee.isServingPenalty))) := by
      simp [refereeAllowsToPlay, h.1, h.2]
    have hph : (env.referee.isPlacingPhase || env.referee.isFreezePhase) = true := by
      rcases hphase with h1 | h1 <;> simp [h1]
    rw [hform, hplay, hph]
    simp only [Bool.false_or, Bool.true_and, Bool.not_eq_true']
    have key := penalized_not_serving_iff env.referee
    constructor
    · intro hnp
      have : ¬ 30 ≤ env.referee.getRemainingPenaltyTime env.referee.id := by
        intro h30
        rw [key.mpr h30] at hnp
        cases hnp
      exact Or.inr (by omega)
    · intro hor
      have hlt : env.referee.getRemainingPenaltyTime env.referee.id < 30 := by
        rcases hor with h1 | h1
        · simp only [RefereeService.isPenalized, decide_eq_false_iff_not] at h1
          omega
        · exact h1
      cases hb : (env.referee.isPenalized && !env.referee.isServingPenalty) with
      | false => rfl
      | true =>
        have := key.mp hb
        omega

/-- Witness for C26: in fake mode the gate is open; in live mode, with the robocup move
running and a referee in the initial phase, it is closed. -/
theorem refereeAllowsToPlay_formula_witness :
    refereeAllowsToPlay (Sample.env 1 true false) = true ∧
    refereeAllowsToPlay (Sample.env 1 false false) =
      ((Sample.env 1 false false).referee.isPlaying ||
        (((Sample.env 1 false false).referee.isPlacingPhase ||
            (Sample.env 1 false false).referee.isFreezePhase) &&
          !((Sample.env 1 false false).referee.isPenalized &&
            !(Sample.env 1 false false).referee.isServingPenalty))) :=
  ⟨(refereeAllowsToPlay_formula (Sample.env 1 true false)).1 (Or.inl rfl),
   (refereeAllowsToPlay_formula (Sample.env 1 false false)).2.1 ⟨rfl, rfl⟩⟩

/-- C28: in the grace period a pending Uniform reset is neither cancelled nor applied: a tick
that is allowed to play and not fallen, with the forbidden flag set, less than 10 s after
the last forbidden tick and a Uniform reset pending, is delayed; after it the Uniform reset
is still pending on the same population, the forbidden flag is still set, and the
consistency score and `lastTS` are unchanged. -/
theorem step_grace_keeps_uniform (E : Externals P) (env : TickEnv) (s : LocalisationBinding P)
    (h : refereeAllowsToPlay env = true) (hf : env.isFallen = false)
    (hforb : s.isForbidden = true) (hel : diffSec s.lastForbidden env.nowTS < 10)
    (hp : s.field_filter.resetType = ResetType.Uniform) :
    issuedCalls s (step E env s) =
      [Call.importFiltersResults, Call.publishToLoc, Call.rhioPush] ∧
    (step E env s).field_filter.resetType = ResetType.Uniform ∧
    (step E env s).field_filter.particles = s.field_filter.particles ∧
    (step E env s).isForbidden = true ∧
    (step E env s).lastForbidden = s.lastForbidden ∧
    (step E env s).consistencyScore = s.consistencyScore ∧
    (step E env s).lastTS = s.lastTS := by
  have hs := step_of_delayed E env s h hf hforb hel (Or.inr hp)
  have hcalls : issuedCalls s (step E env s) =
      [Call.importFiltersResults, Call.publishToLoc, Call.rhioPush] := by
    apply issuedCalls_append
    rw [hs]
    simp [ publishToRhIO, publishToLoc, importFiltersResults, tickStart, stealFromVision,
      importFromRhIO]
  rw [hs]
  rw [hs] at hcalls
  exact ⟨hcalls, hp, rfl, hforb, rfl, rfl, rfl⟩

/-- Witness for C28: the state whose forbidden flag was set at time 1 and on which a Uniform
reset was requested at time 2, ticked at time 3. -/
theorem step_grace_keeps_uniform_witness :
    refereeAllowsToPlay (Sample.env 3 true false) = true ∧
    (Sample.graceState ResetType.Uniform).isForbidden = true ∧
    (Sample.graceState ResetType.Uniform).field_filter.resetType = ResetType.Uniform ∧
    (step Sample.externals (Sample.env 3 true false)
      (Sample.graceState ResetType.Uniform)).field_filter.resetType = ResetType.Uniform :=
  ⟨rfl, rfl, rfl,
   (step_grace_keeps_uniform Sample.externals (Sample.env 3 true false)
      (Sample.graceState ResetType.Uniform) rfl rfl rfl (Sample.graceState_elapsed _) rfl).2.1⟩

/-- C27: cancelling a Uniform reset does not roll back its bookkeeping.  After
`fieldReset(Uniform)` followed by a tick during which playing is not allowed, no reset is
pending, the population is untouched and no reset has been applied, yet the consistency
score is still 0 and `lastUniformReset` is still the time of the cancelled request, so the
next tick measures its `elapsedSinceUniformReset` (used by the noise boost and by the reset
interval of the watchdog) from that request. -/
theorem cancelled_uniform_keeps_bookkeeping (E : Externals P) (env : TickEnv)
    (s : LocalisationBinding P) (now x y noise theta thetaNoise : ℚ)
    (h : refereeAllowsToPlay env = false) :
    (step E env (fieldReset now ResetType.Uniform x y noise theta thetaNoise s)).field_filter
      = { particles := s.field_filter.particles, resetType := ResetType.None } ∧
    issuedCalls (fieldReset now ResetType.Uniform x y noise theta thetaNoise s)
      (step E env (fieldReset now ResetType.Uniform x y noise theta thetaNoise s)) =
      [Call.cancelPendingReset ResetType.Uniform, Call.importFiltersResults,
        Call.publishToLoc, Call.rhioPush] ∧
    (step E env (fieldReset now ResetType.Uniform x y noise theta thetaNoise s)).consistencyScore
      = 0 ∧
    (step E env (fieldReset now ResetType.Uniform x y noise theta thetaNoise s)).lastUniformReset
      = now ∧
    (∀ env2 : TickEnv,
      (tickStart env2
        (step E env (fieldReset now ResetType.Uniform x y noise theta thetaNoise s))
        ).elapsedSinceUniformReset = diffSec now env2.nowTS) := by
  have hs : step E env (fieldReset now ResetType.Uniform x y noise theta thetaNoise s) =
      publishToRhIO (publishToLoc E (importFiltersResults E
        { tickStart env (fieldReset now ResetType.Uniform x y noise theta thetaNoise s) with
          lastForbidden := env.nowTS
          isForbidden := true
          field_filter := { particles := s.field_filter.particles, resetType := ResetType.None }
          calls := s.calls ++ [Call.askForReset ResetType.Uniform] ++
            [Call.cancelPendingReset ResetType.Uniform] })) := by
    rw [step_of_not_allowed E env _ h, stepForbidden_eq]
    have hr : (tickStart env
        (fieldReset now ResetType.Uniform x y noise theta thetaNoise s)).field_filter.resetType =
        ResetType.Uniform := rfl
    rw [if_neg (by rw [hr]; decide), hr]
    rfl
  have hcalls : issuedCalls (fieldReset now ResetType.Uniform x y noise theta thetaNoise s)
      (step E env (fieldReset now ResetType.Uniform x y noise theta thetaNoise s)) =
      [Call.cancelPendingReset ResetType.Uniform, Call.importFiltersResults,
        Call.publishToLoc, Call.rhioPush] := by
    apply issuedCalls_append
    rw [hs]
    simp [ publishToRhIO, publishToLoc, importFiltersResults, fieldReset]
  rw [hs] at hcalls ⊢
  exact ⟨rfl, hcalls, rfl, rfl, fun _ => rfl⟩

/-- Witness for C27: a Uniform reset requested at time 0 on the constructed state, cancelled
by a gated tick at time 1. -/
theorem cancelled_uniform_keeps_bookkeeping_witness :
    refereeAllowsToPlay (Sample.env 1 false false) = false ∧
    (step Sample.externals (Sample.env 1 false false)
      (fieldReset 0 ResetType.Uniform 0 0 0 0 0 Sample.initial)).consistencyScore = 0 ∧
    (step Sample.externals (Sample.env 1 false false)
      (fieldReset 0 ResetType.Uniform 0 0 0 0 0 Sample.initial)).field_filter.resetType
      = ResetType.None :=
  ⟨by decide,
   (cancelled_uniform_keeps_bookkeeping Sample.externals (Sample.env 1 false false)
      Sample.initial 0 0 0 0 0 0 (by decide)).2.2.1,
   congrArg FieldPF.resetType
    (cancelled_uniform_keeps_bookkeeping Sample.externals (Sample.env 1 false false)
      Sample.initial 0 0 0 0 0 0 (by decide)).1⟩

/-- C30: with `elapsedSinceUniformReset ≥ 0`, the division by `noiseBoostDuration` in the
noise-gain computation is guarded: the branch that evaluates the ratio is entered only when
`noiseBoostDuration > 0`, the ratio then lies in [0, 1), the computation with the division
made explicit never divides by zero and returns the gain `noiseGain`, and with
`noiseBoostDuration = 0` the boost branch is never taken. -/
theorem noiseGain_division_guarded (s : LocalisationBinding P)
    (he : 0 ≤ s.elapsedSinceUniformReset) :
    noiseGainChecked s = some (noiseGain s) ∧
    (boostBranchTaken s = true →
      0 < s.cfg.noiseBoostDuration ∧
      0 ≤ s.elapsedSinceUniformReset / s.cfg.noiseBoostDuration ∧
      s.elapsedSinceUniformReset / s.cfg.noiseBoostDuration < 1) ∧
    (s.cfg.noiseBoostDuration = 0 → boostBranchTaken s = false) := by
  refine ⟨?_, ?_, ?_⟩
  · unfold noiseGainChecked noiseGain
    split
    · rfl
    · split
      · rename_i hlt
        have hD : s.cfg.noiseBoostDuration ≠ 0 := by
          intro h0
          rw [h0] at hlt
          exact absurd hlt (not_lt.mpr he)
        rw [if_neg hD]
      · split <;> rfl
  · intro hb
    simp only [boostBranchTaken, Bool.and_eq_true, Bool.not_eq_true', decide_eq_true_eq] at hb
    have hD : 0 < s.cfg.noiseBoostDuration := lt_of_le_of_lt he hb.2
    exact ⟨hD, div_nonneg he (le_of_lt hD), (div_lt_one hD).mpr hb.2⟩
  · intro h0
    simp only [boostBranchTaken, Bool.and_eq_false_iff, Bool.not_eq_false',
      decide_eq_false_iff_not]
    right
    rw [h0]
    exact not_lt.mpr he

/-- Witness for C30: one second after the last Uniform reset with a boost duration of zero,
the boost branch is not taken and the gain is the consistency-based one. -/
theorem noiseGain_division_guarded_witness :
    0 ≤ Sample.noBoostState.elapsedSinceUniformReset ∧
    Sample.noBoostState.cfg.noiseBoostDuration = 0 ∧
    boostBranchTaken Sample.noBoostState = false ∧
    noiseGainChecked Sample.noBoostState = some (noiseGain Sample.noBoostState) := by
  have he : 0 ≤ Sample.noBoostState.elapsedSinceUniformReset := by
    norm_num [Sample.noBoostState]
  have h := noiseGain_division_guarded Sample.noBoostState he
  exact ⟨he, rfl, h.2.2 rfl, h.1⟩

/-- Position part of `odometryInt ∘ odometryDiff` for any numeric functions satisfying, at
the yaw of the first state, the parity of cosine and sine and the Pythagorean identity. -/
theorem odometryInt_odometryDiff_position {K : Type} [LinearOrderedField K]
    (T : Trigonometry K) (s1 s2 : Vector3 K)
    (hcos : T.cos (-s1.z) = T.cos s1.z) (hsin : T.sin (-s1.z) = -T.sin s1.z)
    (hone : T.cos s1.z * T.cos s1.z + T.sin s1.z * T.sin s1.z = 1) :
    (ModelService.odometryInt T (ModelService.odometryDiff T s1 s2) s1).x = s2.x ∧
    (ModelService.odometryInt T (ModelService.odometryDiff T s1 s2) s1).y = s2.y := by
  have hx : s1.x + ((s2.x - s1.x) * T.cos (-s1.z) - (s2.y - s1.y) * T.sin (-s1.z)) * T.cos s1.z
      - ((s2.x - s1.x) * T.sin (-s1.z) + (s2.y - s1.y) * T.cos (-s1.z)) * T.sin s1.z
      = s2.x := by
    rw [hcos, hsin]
    have : s1.x + ((s2.x - s1.x) * T.cos s1.z - (s2.y - s1.y) * -T.sin s1.z) * T.cos s1.z
      - ((s2.x - s1.x) * -T.sin s1.z + (s2.y - s1.y) * T.cos s1.z) * T.sin s1.z
      = s1.x + (s2.x - s1.x) * (T.cos s1.z * T.cos s1.z + T.sin s1.z * T.sin s1.z) := by ring
    rw [this, hone]; ring
  have hy : s1.y + ((s2.x - s1.x) * T.cos (-s1.z) - (s2.y - s1.y) * T.sin (-s1.z)) * T.sin s1.z
      + ((s2.x - s1.x) * T.sin (-s1.z) + (s2.y - s1.y) * T.cos (-s1.z)) * T.cos s1.z
      = s2.y := by
    rw [hcos, hsin]
    have : s1.y + ((s2.x - s1.x) * T.cos s1.z - (s2.y - s1.y) * -T.sin s1.z) * T.sin s1.z
      + ((s2.x - s1.x) * -T.sin s1.z + (s2.y - s1.y) * T.cos s1.z) * T.cos s1.z
      = s1.y + (s2.y - s1.y) * (T.cos s1.z * T.cos s1.z + T.sin s1.z * T.sin s1.z) := by ring
    rw [this, hone]; ring
  unfold ModelService.odometryInt ModelService.odometryDiff
  simp only
  constructor
  · split <;> split <;> simp only <;> linarith [hx]
  · split <;> split <;> simp only <;> linarith [hy]

/-- A state has no displacement to itself, whatever the numeric functions are. -/
theorem odometryDiff_self {K : Type} [LinearOrderedField K]
    (T : Trigonometry K) (s : Vector3 K) :
    (ModelService.odometryDiff T s s).x = 0 ∧ (ModelService.odometryDiff T s s).y = 0 := by
  simp [ModelService.odometryDiff]

/-- C29: over the reals, with the real cosine and sine, integrating the displacement
`odometryDiff(s1, s2)` from `s1` with `odometryInt` gives a state whose `x` and `y` are those
of `s2`, whatever `M_PI` and `Leph::AngleDistance` are; in particular `odometryDiff(s, s)`
has zero `x` and `y` displacement. -/
theorem odometryInt_undoes_odometryDiff (piValue : ℝ) (angleDistance : ℝ → ℝ → ℝ)
    (s1 s2 : Vector3 ℝ) :
    (ModelService.odometryInt ⟨Real.cos, Real.sin, piValue, angleDistance⟩
      (ModelService.odometryDiff ⟨Real.cos, Real.sin, piValue, angleDistance⟩ s1 s2) s1).x
      = s2.x ∧
    (ModelService.odometryInt ⟨Real.cos, Real.sin, piValue, angleDistance⟩
      (ModelService.odometryDiff ⟨Real.cos, Real.sin, piValue, angleDistance⟩ s1 s2) s1).y
      = s2.y ∧
    (ModelService.odometryDiff ⟨Real.cos, Real.sin, piValue, angleDistance⟩ s1 s1).x = 0 ∧
    (ModelService.odometryDiff ⟨Real.cos, Real.sin, piValue, angleDistance⟩ s1 s1).y = 0 := by
  have hpos := odometryInt_odometryDiff_position
    (⟨Real.cos, Real.sin, piValue, angleDistance⟩ : Trigonometry ℝ) s1 s2
    (Real.cos_neg s1.z) (Real.sin_neg s1.z)
    (by
      have := Real.cos_sq_add_sin_sq s1.z
      simpa [sq] using this)
  have hself := odometryDiff_self
    (⟨Real.cos, Real.sin, piValue, angleDistance⟩ : Trigonometry ℝ) s1
  exact ⟨hpos.1, hpos.2, hself.1, hself.2⟩

/-- Evaluation of the odometry functions on rationals, with the stand-in functions
`Sample.trigonometry` (cosine 3/5 and sine 4/5 at yaw 1): the displacement from
(1, 2, 1) to (4, 6, 1) is (5, 0) in the frame of the first state, and integrating it from
the first state gives back the position (4, 6). -/
theorem odometry_sample_values :
    (ModelService.odometryDiff Sample.trigonometry ⟨1, 2, 1⟩ ⟨4, 6, 1⟩).x = 5 ∧
    (ModelService.odometryDiff Sample.trigonometry ⟨1, 2, 1⟩ ⟨4, 6, 1⟩).y = 0 ∧
    (ModelService.odometryInt Sample.trigonometry
      (ModelService.odometryDiff Sample.trigonometry ⟨1, 2, 1⟩ ⟨4, 6, 1⟩) ⟨1, 2, 1⟩).x = 4 ∧
    (ModelService.odometryInt Sample.trigonometry
      (ModelService.odometryDiff Sample.trigonometry ⟨1, 2, 1⟩ ⟨4, 6, 1⟩) ⟨1, 2, 1⟩).y = 6 := by
  have hpos := odometryInt_odometryDiff_position Sample.trigonometry ⟨1, 2, 1⟩ ⟨4, 6, 1⟩
    (by norm_num [Sample.trigonometry]) (by norm_num [Sample.trigonometry])
    (by norm_num [Sample.trigonometry])
  refine ⟨?_, ?_, hpos.1, hpos.2⟩
  · norm_num [ModelService.odometryDiff, Sample.trigonometry]
  · norm_num [ModelService.odometryDiff, Sample.trigonometry]

/-- The lock trace of a concatenation of call logs. -/
theorem lockTrace_append (a b : List Call) :
    lockTrace (a ++ b) = lockTrace a ++ lockTrace b := by
  induction a with
  | nil => rfl
  | cons c a ih =>
    show c.lockEvents ++ lockTrace (a ++ b) = (c.lockEvents ++ lockTrace a) ++ lockTrace b
    rw [ih, List.append_assoc]

/-- A trace with an undisciplined suffix, whatever the mutex state at the start of the
suffix, is undisciplined. -/
theorem lockDisciplined_append_false (l1 l2 : List LockEvent)
    (h : ∀ held, lockDisciplined held l2 = false) :
    ∀ held, lockDisciplined held (l1 ++ l2) = false := by
  induction l1 with
  | nil => exact h
  | cons e l1 ih =>
    intro held
    cases e with
    | lock => exact ih true
    | unlock => exact ih false
    | access a =>
      show ((held || !a.touchesPopulation) && lockDisciplined held (l1 ++ l2)) = false
      rw [ih held, Bool.and_false]

/-- The calls `importFiltersResults(); publishToLoc();` leave the mutex released by the
first one when the second one reads the centre position. -/
theorem lockDisciplined_import_publish (rest : List Call) (held : Bool) :
    lockDisciplined held
      (lockTrace (Call.importFiltersResults :: Call.publishToLoc :: rest)) = false := by
  cases held <;> rfl

/-- Every tick that is gated by the referee or made while the robot is not fallen ends with
`importFiltersResults(); publishToLoc(); publishToRhIO();`. -/
theorem step_ends_with_publish (E : Externals P) (env : TickEnv) (s : LocalisationBinding P)
    (h : refereeAllowsToPlay env = false ∨ env.isFallen = false) :
    ∃ pre : List Call, issuedCalls s (step E env s) =
      pre ++ [Call.importFiltersResults, Call.publishToLoc, Call.rhioPush] := by
  by_cases ha : refereeAllowsToPlay env = false
  · rw [step_of_not_allowed E env s ha, stepForbidden_eq]
    by_cases hc : (tickStart env s).field_filter.resetType = ResetType.Custom
    · refine ⟨[Call.cancelPendingReset ResetType.Uniform, Call.applyPendingReset], ?_⟩
      apply issuedCalls_append
      rw [if_pos hc]
      simp [ publishToRhIO, publishToLoc, importFiltersResults]
      rfl
    · refine ⟨[Call.cancelPendingReset ResetType.Uniform], ?_⟩
      apply issuedCalls_append
      rw [if_neg hc]
      simp [ publishToRhIO, publishToLoc, importFiltersResults]
      rfl
  · have ha2 : refereeAllowsToPlay env = true := by
      cases hv : refereeAllowsToPlay env
      · exact absurd hv ha
      · rfl
    have hf : env.isFallen = false := by
      rcases h with h | h
      · exact absurd h ha
      · exact h
    by_cases hd : (s.isForbidden = true ∧ diffSec s.lastForbidden env.nowTS < 10 ∧
      (s.field_filter.resetType = ResetType.None ∨
        s.field_filter.resetType = ResetType.Uniform))
    · refine ⟨[], ?_⟩
      apply issuedCalls_append
      rw [step_of_delayed E env s ha2 hf hd.1 hd.2.1 hd.2.2]
      simp [ publishToRhIO, publishToLoc, importFiltersResults]
      rfl
    · obtain ⟨t0, t1, rc, dt, pre, hcalls, _⟩ := step_estimate_outcomes E env s ha2 hf hd
      refine ⟨pre ++ [Call.odometryDiff t0 t1, Call.resize env.rhio.nb_particles_ff,
          Call.filterStep rc (tickObservations E env (tickStart env s)) dt], ?_⟩
      rw [hcalls]
      simp

/-- C21 (fails in the code): every tick that is gated by the referee or made while the robot
is not fallen reads the filter outside `filterMutex`: whatever the state of the mutex at the
start of the tick, the trace of mutex operations and filter calls of the tick is not
disciplined, because `publishToLoc` reads the centre position, the orientation and the
clusters after `importFiltersResults` has released the mutex. -/
theorem step_reads_filter_without_lock (E : Externals P) (env : TickEnv)
    (s : LocalisationBinding P)
    (h : refereeAllowsToPlay env = false ∨ env.isFallen = false) (held : Bool) :
    lockDisciplined held (lockTrace (issuedCalls s (step E env s))) = false := by
  obtain ⟨pre, hpre⟩ := step_ends_with_publish E env s h
  rw [hpre, lockTrace_append]
  exact lockDisciplined_append_false _ _
    (fun b => lockDisciplined_import_publish [Call.rhioPush] b) held

/-- Witness for C21: a gated tick at time 1 on the constructed state with a Custom reset
requested at time 0; the tick applies the reset and publishes without taking the mutex. -/
theorem step_reads_filter_without_lock_witness :
    (refereeAllowsToPlay (Sample.env 1 false false) = false ∨
      (Sample.env 1 false false).isFallen = false) ∧
    lockDisciplined false (lockTrace (issuedCalls
      (fieldReset 0 ResetType.Custom 1 1 0 0 0 Sample.initial)
      (step Sample.externals (Sample.env 1 false false)
        (fieldReset 0 ResetType.Custom 1 1 0 0 0 Sample.initial)))) = false :=
  ⟨Or.inl (by decide),
   step_reads_filter_without_lock Sample.externals (Sample.env 1 false false)
    (fieldReset 0 ResetType.Custom 1 1 0 0 0 Sample.initial) (Or.inl (by decide)) false⟩

/-- The sections that do take the mutex are disciplined: `resize` and `step` in
`updateFilter`, the two reads of `importFiltersResults`, and the drawing of `getTopView`;
the unlocked calls of the gated branch, of `applyWatcher` and of `publishToLoc` are not. -/
theorem lock_sections (n : Nat) (rc : RobotController) (obs : List Observation) (dt : ℚ)
    (o : List Observation) :
    lockDisciplined false (lockTrace [Call.resize n, Call.filterStep rc obs dt]) = true ∧
    lockDisciplined false (lockTrace [Call.importFiltersResults]) = true ∧
    lockDisciplined false getTopViewLockEvents = true ∧
    lockDisciplined false (lockTrace [Call.cancelPendingReset ResetType.Uniform]) = true ∧
    lockDisciplined false (lockTrace [Call.applyPendingReset]) = false ∧
    lockDisciplined false (lockTrace [Call.applyWatcher o]) = false ∧
    lockDisciplined false (lockTrace [Call.publishToLoc]) = false :=
  ⟨rfl, rfl, rfl, rfl, rfl, rfl, rfl⟩

/-- The keys of a map after `tagsInSelf[id].push_back(pos)`. -/
theorem tagsPushBack_keys (id : Int) (pos : Point3f) (m : List (Int × List Point3f)) (k : Int) :
    k ∈ (tagsPushBack id pos m).map Prod.fst ↔ k = id ∨ k ∈ m.map Prod.fst := by
  induction m with
  | nil => simp [tagsPushBack]
  | cons e rest ih =>
    obtain ⟨k0, vs⟩ := e
    unfold tagsPushBack
    by_cases h1 : id = k0
    · rw [if_pos h1]
      simp only [List.map_cons, List.mem_cons]
      constructor
      · intro h; exact Or.inr h
      · rintro (h | h)
        · exact Or.inl (h.trans h1)
        · exact h
    · rw [if_neg h1]
      by_cases h2 : id < k0
      · rw [if_pos h2]
        simp only [List.map_cons, List.mem_cons]
      · rw [if_neg h2]
        simp only [List.map_cons, List.mem_cons, ih]
        tauto

/-- The statement `tagsInSelf[id].push_back(pos)` keeps the keys in ascending order. -/
theorem tagsPushBack_sorted (id : Int) (pos : Point3f) (m : List (Int × List Point3f))
    (hs : (m.map Prod.fst).Pairwise (fun a b => a < b)) :
    ((tagsPushBack id pos m).map Prod.fst).Pairwise (fun a b => a < b) := by
  induction m with
  | nil => simp [tagsPushBack]
  | cons e rest ih =>
    obtain ⟨k0, vs⟩ := e
    simp only [List.map_cons, List.pairwise_cons] at hs
    unfold tagsPushBack
    by_cases h1 : id = k0
    · rw [if_pos h1]
      simp only [List.map_cons, List.pairwise_cons]
      exact hs
    · rw [if_neg h1]
      by_cases h2 : id < k0
      · rw [if_pos h2]
        simp only [List.map_cons, List.pairwise_cons, List.mem_cons]
        refine ⟨?_, hs⟩
        rintro a (ha | ha)
        · rw [ha]; exact h2
        · exact lt_trans h2 (hs.1 a ha)
      · rw [if_neg h2]
        simp only [List.map_cons, List.pairwise_cons]
        refine ⟨?_, ih hs.2⟩
        intro a ha
        rcases (tagsPushBack_keys id pos rest a).1 ha with h | h
        · rw [h]; omega
        · exact hs.1 a h

/-- No position is stored under a key that the map does not have. -/
theorem tagsOf_of_not_key (k : Int) (m : List (Int × List Point3f))
    (h : k ∉ m.map Prod.fst) : tagsOf k m = [] := by
  induction m with
  | nil => rfl
  | cons e rest ih =>
    obtain ⟨k0, vs⟩ := e
    simp only [List.map_cons, List.mem_cons, not_or] at h
    unfold tagsOf
    rw [if_neg (fun hk => h.1 hk.symm)]
    exact ih h.2

/-- With keys in ascending order, the positions stored under a key are the value of its
entry. -/
theorem tagsOf_of_mem (m : List (Int × List Point3f))
    (hs : (m.map Prod.fst).Pairwise (fun a b => a < b)) (k : Int) (vs : List Point3f)
    (h : (k, vs) ∈ m) : tagsOf k m = vs := by
  induction m with
  | nil => simp at h
  | cons e rest ih =>
    obtain ⟨k0, vs0⟩ := e
    simp only [List.map_cons, List.pairwise_cons] at hs
    simp only [List.mem_cons, Prod.mk.injEq] at h
    unfold tagsOf
    rcases h with ⟨hk, hv⟩ | h
    · rw [if_pos hk.symm, hv]
      have : k ∉ rest.map Prod.fst := by
        intro hmem
        have := hs.1 k hmem
        omega
      rw [tagsOf_of_not_key k rest this, List.append_nil]
    · have hlt : k0 < k := hs.1 k (List.mem_map_of_mem Prod.fst h)
      rw [if_neg (by omega)]
      exact ih hs.2 h

/-- The positions stored under each key after `tagsInSelf[id].push_back(pos)`. -/
theorem tagsOf_tagsPushBack (id : Int) (pos : Point3f) (m : List (Int × List Point3f))
    (hs : (m.map Prod.fst).Pairwise (fun a b => a < b)) (k : Int) :
    tagsOf k (tagsPushBack id pos m) = tagsOf k m ++ (if k = id then [pos] else []) := by
  induction m with
  | nil =>
    unfold tagsPushBack tagsOf
    by_cases h : id = k
    · rw [if_pos h, if_pos h.symm]; rfl
    · rw [if_neg h, if_neg (fun hk => h hk.symm)]; rfl
  | cons e rest ih =>
    obtain ⟨k0, vs⟩ := e
    simp only [List.map_cons, List.pairwise_cons] at hs
    unfold tagsPushBack
    by_cases h1 : id = k0
    · rw [if_pos h1]
      unfold tagsOf
      by_cases hk : k0 = k
      · rw [if_pos hk, if_pos hk, if_pos (hk.symm.trans h1.symm)]
        have : k ∉ rest.map Prod.fst := by
          intro hmem
          have := hs.1 k hmem
          omega
        rw [tagsOf_of_not_key k rest this]
        simp
      · rw [if_neg hk, if_neg hk, if_neg (fun h => hk (h1.symm.trans h.symm)), List.append_nil]
    · rw [if_neg h1]
      by_cases h2 : id < k0
      · rw [if_pos h2]
        by_cases hk : k = id
        · rw [if_pos hk]
          have hnot : k ∉ ((k0, vs) :: rest).map Prod.fst := by
            simp only [List.map_cons, List.mem_cons, not_or]
            refine ⟨by omega, ?_⟩
            intro hmem
            have := hs.1 k hmem
            omega
          rw [tagsOf_of_not_key k _ hnot]
          show (if id = k then [pos] ++ tagsOf k ((k0, vs) :: rest)
            else tagsOf k ((k0, vs) :: rest)) = _
          rw [if_pos hk.symm, tagsOf_of_not_key k _ hnot]
          rfl
        · rw [if_neg hk, List.append_nil]
          show (if id = k then [pos] ++ tagsOf k ((k0, vs) :: rest)
            else tagsOf k ((k0, vs) :: rest)) = _
          rw [if_neg (fun h => hk h.symm)]
      · rw [if_neg h2]
        show (if k0 = k then vs ++ tagsOf k (tagsPushBack id pos rest)
          else tagsOf k (tagsPushBack id pos rest)) =
          (if k0 = k then vs ++ tagsOf k rest else tagsOf k rest) ++ _
        rw [ih hs.2]
        by_cases hk : k0 = k
        · rw [if_pos hk, if_pos hk, List.append_assoc]
        · rw [if_neg hk, if_neg hk]

/-- The statement `tagsInSelf[id].push_back(pos)` stores one more position and leaves no
entry empty. -/
theorem tagsPushBack_sizes (id : Int) (pos : Point3f) (m : List (Int × List Point3f)) :
    ((tagsPushBack id pos m).map (fun e => e.2.length)).sum
      = (m.map (fun e => e.2.length)).sum + 1 ∧
    ((∀ e ∈ m, e.2 ≠ []) → ∀ e ∈ tagsPushBack id pos m, e.2 ≠ []) := by
  induction m with
  | nil => simp [tagsPushBack]
  | cons e rest ih =>
    obtain ⟨k0, vs⟩ := e
    unfold tagsPushBack
    by_cases h1 : id = k0
    · rw [if_pos h1]
      refine ⟨?_, ?_⟩
      · simp only [List.map_cons, List.sum_cons, List.length_append, List.length_singleton]
        omega
      · intro hne e he
        simp only [List.mem_cons] at he
        rcases he with he | he
        · rw [he]; simp
        · exact hne e (List.mem_cons_of_mem _ he)
    · rw [if_neg h1]
      by_cases h2 : id < k0
      · rw [if_pos h2]
        refine ⟨?_, ?_⟩
        · simp only [List.map_cons, List.sum_cons, List.length_singleton]
          omega
        · intro hne e he
          simp only [List.mem_cons] at he
          rcases he with he | he | he
          · rw [he]; simp
          · rw [he]; exact hne (k0, vs) (List.mem_cons_self _ _)
          · exact hne e (List.mem_cons_of_mem _ he)
      · rw [if_neg h2]
        refine ⟨?_, ?_⟩
        · simp only [List.map_cons, List.sum_cons, ih.1]
          omega
        · intro hne e he
          simp only [List.mem_cons] at he
          rcases he with he | he
          · rw [he]; exact hne (k0, vs) (List.mem_cons_self _ _)
          · exact ih.2 (fun e he => hne e (List.mem_cons_of_mem _ he)) e he

/-- The sightings of a marker after one more detection. -/
theorem sightingsOf_append (k : Int) (pairs : List (Int × Point3f)) (e : Int × Point3f) :
    sightingsOf k (pairs ++ [e]) = sightingsOf k pairs ++ (if k = e.1 then [e.2] else []) := by
  unfold sightingsOf
  rw [List.filter_append, List.map_append]
  by_cases h : k = e.1
  · rw [if_pos h]; simp [h]
  · rw [if_neg h]
    have : decide (e.1 = k) = false := by simp; exact fun hk => h hk.symm
    simp [List.filter_cons, this]

/-- The map `tagsInSelf` built by the first loop of `extractTagsObservations` from the
sightings `pairs`: keys ascending, no empty entry, one stored position per sighting, and
under each key the sightings of that marker in the order of detection. -/
theorem tagsInSelf_invariant (pairs : List (Int × Point3f)) :
    ((pairs.foldl (fun m e => tagsPushBack e.1 e.2 m) []).map Prod.fst).Pairwise
      (fun a b => a < b) ∧
    (∀ e ∈ pairs.foldl (fun m e => tagsPushBack e.1 e.2 m) [], e.2 ≠ []) ∧
    ((pairs.foldl (fun m e => tagsPushBack e.1 e.2 m) []).map (fun e => e.2.length)).sum
      = pairs.length ∧
    (∀ k, tagsOf k (pairs.foldl (fun m e => tagsPushBack e.1 e.2 m) []) = sightingsOf k pairs) := by
  induction pairs using List.reverseRecOn with
  | nil => simp [tagsOf, sightingsOf]
  | append_singleton pairs e ih =>
    rw [List.foldl_append]
    simp only [List.foldl_cons, List.foldl_nil]
    obtain ⟨hs, hne, hsum, htags⟩ := ih
    refine ⟨tagsPushBack_sorted _ _ _ hs, (tagsPushBack_sizes _ _ _).2 hne, ?_, ?_⟩
    · rw [(tagsPushBack_sizes _ _ _).1, hsum]; simp
    · intro k
      rw [tagsOf_tagsPushBack _ _ _ hs k, htags k, sightingsOf_append]

/-- The loop `mean += pos` sums each coordinate. -/
theorem sumPositions_eq (l : List Point3f) :
    sumPositions l = ⟨(l.map (fun p => p.x)).sum, (l.map (fun p => p.y)).sum,
      (l.map (fun p => p.z)).sum⟩ := by
  have key : ∀ (l : List Point3f) (acc : Point3f),
      l.foldl (fun acc pos => (⟨acc.x + pos.x, acc.y + pos.y, acc.z + pos.z⟩ : Point3f)) acc =
      ⟨acc.x + (l.map (fun p => p.x)).sum, acc.y + (l.map (fun p => p.y)).sum,
        acc.z + (l.map (fun p => p.z)).sum⟩ := by
    intro l
    induction l with
    | nil => intro acc; simp
    | cons p l ih =>
      intro acc
      rw [List.foldl_cons, ih]
      simp only [List.map_cons, List.sum_cons, add_assoc]
  unfold sumPositions
  rw [key]
  simp

/-- The sightings of a marker are as many as its occurrences among the detected indices. -/
theorem sightingsOf_length (k : Int) (pairs : List (Int × Point3f)) :
    (sightingsOf k pairs).length = (pairs.map Prod.fst).count k := by
  induction pairs with
  | nil => rfl
  | cons e rest ih =>
    unfold sightingsOf at ih ⊢
    by_cases h : e.1 = k
    · simp [List.filter_cons, h] at ih ⊢
      exact ih
    · simp [List.filter_cons, h, List.count_cons] at ih ⊢
      exact ih

/-- The observations of `extractTagsObservations` are those of the entries of the map built
from the sightings in the robot frame. -/
theorem extractTagsObservations_eq_map (E : Externals P) (cs : CameraState)
    (s : LocalisationBinding P) :
    extractTagsObservations E cs s =
      ((markersInSelf cs s).foldl (fun m e => tagsPushBack e.1 e.2 m) []).map
        (tagObservation E cs) := by
  unfold extractTagsObservations markersInSelf
  rw [List.foldl_map]

/-- With as many positions as indices, the indices of the sightings are the detected
indices. -/
theorem markersInSelf_indices (cs : CameraState) (s : LocalisationBinding P)
    (hlen : s.markerIndices.length = s.markerPositions.length) :
    (markersInSelf cs s).map Prod.fst = s.markerIndices := by
  unfold markersInSelf
  rw [List.map_map]
  have : (Prod.fst ∘ fun e : Int × Point3f => (e.1, cs.getSelfFromWorld e.2)) = Prod.fst := by
    funext e; rfl
  rw [this]
  exact List.map_fst_zip _ _ (le_of_eq hlen)

/-- C25: with as many marker positions as marker indices, `extractTagsObservations` returns
its observations in strictly ascending id order (so at most one per id), with exactly the
detected ids; the sample count (`weight`) of each observation is the number of sightings of
its id, which is at least 1; its position is the arithmetic mean of the positions of those
sightings in the robot frame; and the sample counts sum to the number of detected markers. -/
theorem extractTagsObservations_one_per_marker (E : Externals P) (cs : CameraState)
    (s : LocalisationBinding P)
    (hlen : s.markerIndices.length = s.markerPositions.length) :
    ((extractTagsObservations E cs s).map (fun o => o.id)).Pairwise (fun a b => a < b) ∧
    (∀ id, id ∈ (extractTagsObservations E cs s).map (fun o => o.id) ↔
      id ∈ s.markerIndices) ∧
    (∀ o ∈ extractTagsObservations E cs s,
      o.weight = ((s.markerIndices.count o.id : ℕ) : ℚ) ∧
      1 ≤ s.markerIndices.count o.id ∧
      (sightingsOf o.id (markersInSelf cs s)).length = s.markerIndices.count o.id ∧
      o.seenPos = arithmeticMean (sightingsOf o.id (markersInSelf cs s))) ∧
    ((extractTagsObservations E cs s).map (fun o => o.weight)).sum
      = (s.markerIndices.length : ℚ) := by
  obtain ⟨hs, hne, hsum, htags⟩ := tagsInSelf_invariant (markersInSelf cs s)
  have hidx := markersInSelf_indices cs s hlen
  have hcount : ∀ k, (sightingsOf k (markersInSelf cs s)).length = s.markerIndices.count k := by
    intro k
    rw [sightingsOf_length, hidx]
  rw [extractTagsObservations_eq_map]
  generalize hM : (markersInSelf cs s).foldl (fun m e => tagsPushBack e.1 e.2 m) [] = M
    at hs hne hsum htags
  have hids : (M.map (tagObservation E cs)).map (fun o => o.id) = M.map Prod.fst := by
    rw [List.map_map]; rfl
  have hentry : ∀ e ∈ M, e.2 = sightingsOf e.1 (markersInSelf cs s) := by
    intro e he
    rw [← htags e.1]
    exact (tagsOf_of_mem M hs e.1 e.2 he).symm
  refine ⟨?_, ?_, ?_, ?_⟩
  · rw [hids]; exact hs
  · intro id
    rw [hids]
    constructor
    · intro h
      obtain ⟨e, he, hid⟩ := List.mem_map.1 h
      have h1 := hentry e he
      have h2 : 0 < (sightingsOf e.1 (markersInSelf cs s)).length := by
        rw [← h1]; exact List.length_pos.2 (hne e he)
      rw [hcount, hid] at h2
      exact List.count_pos_iff.1 h2
    · intro h
      by_contra hnot
      have h1 := tagsOf_of_not_key id M hnot
      rw [htags id] at h1
      have h2 := hcount id
      rw [h1] at h2
      have h3 : 0 < s.markerIndices.count id := List.count_pos_iff.2 h
      simp at h2
      omega
  · intro o ho
    obtain ⟨e, he, rfl⟩ := List.mem_map.1 ho
    have h1 := hentry e he
    have hpos : 0 < e.2.length := List.length_pos.2 (hne e he)
    have hid : (tagObservation E cs e).id = e.1 := rfl
    rw [hid]
    have hlen2 : e.2.length = s.markerIndices.count e.1 := by
      rw [← hcount e.1, ← h1]
    refine ⟨?_, ?_, hcount e.1, ?_⟩
    · show ((e.2.length : ℕ) : ℚ) = _
      rw [hlen2]
    · omega
    · rw [← h1]
      show (⟨(sumPositions e.2).x / (e.2.length : ℚ), (sumPositions e.2).y / (e.2.length : ℚ),
        (sumPositions e.2).z / (e.2.length : ℚ)⟩ : Point3f) = arithmeticMean e.2
      rw [sumPositions_eq]
      rfl
  · have hw : (M.map (tagObservation E cs)).map (fun o => o.weight)
        = (M.map (fun e => e.2.length)).map (fun n : ℕ => (n : ℚ)) := by
      rw [List.map_map, List.map_map]; rfl
    rw [hw]
    have hcast : ∀ l : List ℕ, (l.map (fun n : ℕ => (n : ℚ))).sum = ((l.sum : ℕ) : ℚ) := by
      intro l
      induction l with
      | nil => simp
      | cons a l ih => simp only [List.map_cons, List.sum_cons, ih, Nat.cast_add]
    rw [hcast, hsum]
    have : (markersInSelf cs s).length = s.markerIndices.length := by
      rw [← hidx, List.length_map]
    rw [this]

/-- Witness for C25: two sightings of the marker 7, at (1, 0, 0) and (3, 0, 0), give one
observation with id 7, sample count 2 and position (2, 0, 0). -/
theorem extractTagsObservations_one_per_marker_witness :
    Sample.staged.markerIndices.length = Sample.staged.markerPositions.length ∧
    ((extractTagsObservations Sample.externals Sample.cameraState Sample.staged).map
      (fun o => o.weight)).sum = 2 ∧
    (extractTagsObservations Sample.externals Sample.cameraState Sample.staged).map
      (fun o => (o.id, o.seenPos.x, o.weight)) = [(7, 2, 2)] :=
  ⟨rfl,
   by
    have h := (extractTagsObservations_one_per_marker Sample.externals Sample.cameraState
      Sample.staged rfl).2.2.2
    have h2 : Sample.staged.markerIndices.length = 2 := rfl
    rw [h2] at h
    exact h.trans (by norm_num),
   by
    norm_num [extractTagsObservations, tagsPushBack, tagObservation, sumPositions,
      Sample.staged, Sample.cameraState, Sample.initial, LocalisationBinding.construct]⟩

/-- The filter step of a tick that reaches the estimation stage, with its arguments and its
effect on the filter.  The filter that is resized and stepped is the one left by the
consistency update: the filter of the start of the tick, or that filter with a Uniform reset
requested when the watchdog has just fired.  The gain handed to the step is computed from
the elapsed time refreshed at the start of the tick and from the score left by the
consistency update. -/
theorem step_estimate_filter (E : Externals P) (env : TickEnv) (s : LocalisationBinding P)
    (h : refereeAllowsToPlay env = true) (hf : env.isFallen = false)
    (hd : ¬ (s.isForbidden = true ∧ diffSec s.lastForbidden env.nowTS < 10 ∧
      (s.field_filter.resetType = ResetType.None ∨
        s.field_filter.resetType = ResetType.Uniform))) :
    ∃ (t0 t1 : ℚ) (pre : List Call) (f0 : FieldPF P) (u : LocalisationBinding P),
      issuedCalls s (step E env s) =
        pre ++ [Call.odometryDiff t0 t1, Call.resize env.rhio.nb_particles_ff,
          Call.filterStep
            ⟨⟨(env.odometryDiff t0 t1).x, (env.odometryDiff t0 t1).y⟩,
              E.rad2deg (env.odometryDiff t0 t1).z, noiseGain u⟩
            (tickObservations E env (tickStart env s)) (min 5 (diffSec s.lastTS env.nowTS)),
          Call.importFiltersResults, Call.publishToLoc, Call.rhioPush] ∧
      (step E env s).field_filter =
        (f0.resize E.filter env.rhio.nb_particles_ff).step E.filter s.customReset
          ⟨⟨(env.odometryDiff t0 t1).x, (env.odometryDiff t0 t1).y⟩,
            E.rad2deg (env.odometryDiff t0 t1).z, noiseGain u⟩
          (tickObservations E env (tickStart env s)) (min 5 (diffSec s.lastTS env.nowTS)) ∧
      (u.cfg = env.rhio ∧
        u.elapsedSinceUniformReset = diffSec s.lastUniformReset env.nowTS ∧
        u.consistencyScore = (step E env s).consistencyScore) ∧
      ((pre.any Call.isAskForReset = false ∧ pre.any Call.isFilterStep = false ∧
          f0 = s.field_filter) ∨
        (pre = [Call.applyWatcher (tickObservations E env (tickStart env s)),
            Call.askForReset ResetType.Uniform] ∧
          f0 = s.field_filter.askForReset ResetType.Uniform ∧
          s.field_filter.resetType = ResetType.None ∧
          env.rhio.consistencyResetInterval < diffSec s.lastUniformReset env.nowTS ∧
          u.lastUniformReset = env.watcherTS)) := by
  rw [step_of_estimate E env s h hf hd]
  obtain ⟨u0, hu0⟩ : ∃ u0 : LocalisationBinding P,
      u0 = { tickStart env s with isForbidden := false } := ⟨_, rfl⟩
  obtain ⟨u, hu⟩ : ∃ u : LocalisationBinding P,
      u = updateConsistency E env (tickObservations E env (tickStart env s)) u0 := ⟨_, rfl⟩
  have hstep : stepEstimate E env (tickStart env s) =
      publishToRhIO (publishToLoc E (importFiltersResults E
        (updateFilter E env (tickObservations E env (tickStart env s)) u))) := by
    rw [hu, hu0]; rfl
  have hfr := updateConsistency_frame E env (tickObservations E env (tickStart env s)) u0
  rw [← hu] at hfr
  obtain ⟨_, hcfg, hcust, _, hcurr, hlast, _, hel⟩ := hfr
  have hcfg' : u.cfg = env.rhio := by rw [hcfg, hu0]; rfl
  have hcust' : u.customReset = s.customReset := by rw [hcust, hu0]; rfl
  have hcurr' : u.currTS = env.nowTS := by rw [hcurr, hu0]; rfl
  have hlast' : u.lastTS = s.lastTS := by rw [hlast, hu0]; rfl
  have hel' : u.elapsedSinceUniformReset = diffSec s.lastUniformReset env.nowTS := by
    rw [hel, hu0]; rfl
  have hu0calls : u0.calls = s.calls := by rw [hu0]; rfl
  have hu0filter : u0.field_filter = s.field_filter := by rw [hu0]; rfl
  obtain ⟨t0, t1, hcalls⟩ : ∃ t0 t1 : ℚ,
      (updateFilter E env (tickObservations E env (tickStart env s)) u).calls =
        u.calls ++ [Call.odometryDiff t0 t1, Call.resize u.cfg.nb_particles_ff,
          Call.filterStep
            ⟨⟨(env.odometryDiff t0 t1).x, (env.odometryDiff t0 t1).y⟩,
              E.rad2deg (env.odometryDiff t0 t1).z, noiseGain u⟩
            (tickObservations E env (tickStart env s)) (min 5 (diffSec u.lastTS u.currTS))] ∧
      (updateFilter E env (tickObservations E env (tickStart env s)) u).field_filter =
        (u.field_filter.resize E.filter u.cfg.nb_particles_ff).step E.filter u.customReset
          ⟨⟨(env.odometryDiff t0 t1).x, (env.odometryDiff t0 t1).y⟩,
            E.rad2deg (env.odometryDiff t0 t1).z, noiseGain u⟩
          (tickObservations E env (tickStart env s)) (min 5 (diffSec u.lastTS u.currTS)) :=
    ⟨_, _, rfl, rfl⟩
  rw [hcfg', hcust', hcurr', hlast'] at hcalls
  have hfinalcalls : (stepEstimate E env (tickStart env s)).calls =
      (updateFilter E env (tickObservations E env (tickStart env s)) u).calls ++
        [Call.importFiltersResults, Call.publishToLoc, Call.rhioPush] := by
    rw [hstep]
    simp [ publishToRhIO, publishToLoc, importFiltersResults]
  have hfinalfilter : (stepEstimate E env (tickStart env s)).field_filter =
      (updateFilter E env (tickObservations E env (tickStart env s)) u).field_filter := by
    rw [hstep]; rfl
  have hfinalscore : u.consistencyScore =
      (stepEstimate E env (tickStart env s)).consistencyScore := by
    rw [hstep]; rfl
  rw [hfinalfilter, hcalls.2]
  rcases updateConsistency_outcomes E env (tickObservations E env (tickStart env s)) u0 with
    ⟨_, c1, _, c3⟩ | ⟨_, c1, _, c3⟩ | ⟨_, c1, _, c3, c4⟩
  · rw [← hu] at c1 c3
    refine ⟨t0, t1, [], u.field_filter, u, ?_, rfl, ⟨hcfg', hel', hfinalscore⟩,
      Or.inl ⟨rfl, rfl, by rw [c3, hu0filter]⟩⟩
    apply issuedCalls_append
    rw [hfinalcalls, hcalls.1, c1, hu0calls]
    simp
  · rw [← hu] at c1 c3
    refine ⟨t0, t1, [Call.applyWatcher (tickObservations E env (tickStart env s))],
      u.field_filter, u, ?_, rfl, ⟨hcfg', hel', hfinalscore⟩,
      Or.inl ⟨rfl, rfl, by rw [c3, hu0filter]⟩⟩
    apply issuedCalls_append
    rw [hfinalcalls, hcalls.1, c1, hu0calls]
    simp
  · rw [← hu] at c1 c3
    have hwatch : env.rhio.consistencyResetInterval < diffSec s.lastUniformReset env.nowTS ∧
        u.lastUniformReset = env.watcherTS := by
      have hcases := applyWatcher_cases E env.watcherTS
        (tickObservations E env (tickStart env s)) u0
      simp only at hcases
      have hue : u = applyWatcher E env.watcherTS
          (tickObservations E env (tickStart env s)) u0 := by
        rw [hu]
        unfold updateConsistency
        rw [if_pos (by assumption)]
      rcases hcases with ⟨⟨hg, _, _⟩, heq⟩ | ⟨_, heq⟩
      · refine ⟨?_, by rw [hue, heq]⟩
        rw [hu0] at hg
        exact hg
      · exfalso
        have : u.calls = u0.calls ++
            [Call.applyWatcher (tickObservations E env (tickStart env s))] := by
          rw [hue, heq]
        rw [c1] at this
        simp at this
    refine ⟨t0, t1, [Call.applyWatcher (tickObservations E env (tickStart env s)),
        Call.askForReset ResetType.Uniform],
      u.field_filter, u, ?_, rfl, ⟨hcfg', hel', hfinalscore⟩,
      Or.inr ⟨rfl, by rw [c3, hu0filter], by rw [← hu0filter]; exact c4, hwatch.1, hwatch.2⟩⟩
    apply issuedCalls_append
    rw [hfinalcalls, hcalls.1, c1, hu0calls]
    simp

/-- C23: a tick that is allowed to play and not fallen, at least 10 s after the most recent
forbidden tick, is never delayed, whatever reset is pending (none included): it clears the
forbidden flag and runs the filter step.  Running the filter step means that the tick
issues, after the calls of the consistency update, the odometry query, `resize` and `step`
on the observation vector of the tick with the elapsed time clamped to 5 s, and that the
filter after the tick is the resized and stepped filter left by the consistency update (the
filter of the start of the tick, with a Uniform reset requested when the watchdog has just
fired, which requires more than `consistencyResetInterval` since the last Uniform reset); no
reset is pending afterwards and `lastTS` is the time of the tick. -/
theorem step_after_grace_period (E : Externals P) (env : TickEnv) (s : LocalisationBinding P)
    (h : refereeAllowsToPlay env = true) (hf : env.isFallen = false)
    (hel : 10 ≤ diffSec s.lastForbidden env.nowTS) :
    step E env s = stepEstimate E env (tickStart env s) ∧
    (step E env s).isForbidden = false ∧
    (issuedCalls s (step E env s)).any Call.isFilterStep = true ∧
    (step E env s).lastTS = env.nowTS ∧
    (step E env s).field_filter.resetType = ResetType.None ∧
    (∃ (t0 t1 : ℚ) (rc : RobotController) (pre : List Call) (f0 : FieldPF P),
      issuedCalls s (step E env s) =
        pre ++ [Call.odometryDiff t0 t1, Call.resize env.rhio.nb_particles_ff,
          Call.filterStep rc (tickObservations E env (tickStart env s))
            (min 5 (diffSec s.lastTS env.nowTS)),
          Call.importFiltersResults, Call.publishToLoc, Call.rhioPush] ∧
      (step E env s).field_filter =
        (f0.resize E.filter env.rhio.nb_particles_ff).step E.filter s.customReset rc
          (tickObservations E env (tickStart env s)) (min 5 (diffSec s.lastTS env.nowTS)) ∧
      ((pre.any Call.isAskForReset = false ∧ pre.any Call.isFilterStep = false ∧
          f0 = s.field_filter) ∨
        (pre = [Call.applyWatcher (tickObservations E env (tickStart env s)),
            Call.askForReset ResetType.Uniform] ∧
          f0 = s.field_filter.askForReset ResetType.Uniform ∧
          s.field_filter.resetType = ResetType.None ∧
          env.rhio.consistencyResetInterval < diffSec s.lastUniformReset env.nowTS))) := by
  have hd : ¬ (s.isForbidden = true ∧ diffSec s.lastForbidden env.nowTS < 10 ∧
      (s.field_filter.resetType = ResetType.None ∨
        s.field_filter.resetType = ResetType.Uniform)) :=
    fun hh => absurd hh.2.1 (not_lt.mpr hel)
  have hs := step_of_estimate E env s h hf hd
  obtain ⟨t0, t1, pre, f0, u, hcalls, hfilter, _, hpre⟩ := step_estimate_filter E env s h hf hd
  refine ⟨hs, ?_, ?_, ?_, ?_, ⟨t0, t1, _, pre, f0, hcalls, hfilter, ?_⟩⟩
  · rw [hs]; exact stepEstimate_isForbidden E env _
  · rw [hs]; exact stepEstimate_runs_filter_step E env s _ rfl
  · rw [hs]
    have e : (stepEstimate E env (tickStart env s)).lastTS =
        (updateConsistency E env
          (tickObservations E env { tickStart env s with isForbidden := false })
          { tickStart env s with isForbidden := false }).currTS := rfl
    rw [e, (updateConsistency_frame E env _ _).2.2.2.2.1]
    rfl
  · rw [hs]; exact stepEstimate_resetType E env _
  · rcases hpre with h1 | ⟨h1, h2, h3, h4, _⟩
    · exact Or.inl h1
    · exact Or.inr ⟨h1, h2, h3, h4⟩

/-- Witness for C23: an allowed tick at time 11 on the state whose forbidden flag was set at
time 1, with no reset pending: the flag is cleared and the population has been updated by
the filter step (one update of the sample filter adds 1 to the population 0). -/
theorem step_after_grace_period_witness :
    refereeAllowsToPlay (Sample.env 11 true false) = true ∧
    (Sample.env 11 true false).isFallen = false ∧
    (Sample.graceState ResetType.None).isForbidden = true ∧
    (Sample.graceState ResetType.None).field_filter.resetType = ResetType.None ∧
    (Sample.graceState ResetType.None).field_filter.particles = 0 ∧
    (step Sample.externals (Sample.env 11 true false)
      (Sample.graceState ResetType.None)).isForbidden = false ∧
    (step Sample.externals (Sample.env 11 true false)
      (Sample.graceState ResetType.None)).field_filter.particles = 1 := by
  have hmain := step_after_grace_period Sample.externals (Sample.env 11 true false)
      (Sample.graceState ResetType.None) rfl rfl
      (by rw [Sample.graceState_lastForbidden]; norm_num [diffSec, Sample.env])
  obtain ⟨_, hflag, _, _, _, t0, t1, rc, pre, f0, _, hfilter, hpre⟩ := hmain
  have hp0 : (Sample.graceState ResetType.None).field_filter.particles = 0 := rfl
  have hr0 : (Sample.graceState ResetType.None).field_filter.resetType = ResetType.None := rfl
  refine ⟨rfl, rfl, rfl, rfl, hp0, hflag, ?_⟩
  rw [hfilter]
  rcases hpre with ⟨_, _, hf0⟩ | ⟨_, _, _, hfired⟩
  · rw [hf0]
    simp [FieldPF.step, FieldPF.resize, FieldPF.isResetPending, hr0, hp0, Sample.externals,
      Sample.filter]
  · exfalso
    have hl : (Sample.graceState ResetType.None).lastUniformReset = 0 := rfl
    rw [hl] at hfired
    norm_num [diffSec, Sample.env, Config.default] at hfired

/-- Where the source does not divide by zero, the noise-gain computation with its division
made explicit returns the gain `noiseGain`. -/
theorem noiseGainChecked_eq (s : LocalisationBinding P)
    (hdiv : s.cfg.noiseBoostDuration ≠ 0 ∨ 0 ≤ s.elapsedSinceUniformReset) :
    noiseGainChecked s = some (noiseGain s) := by
  unfold noiseGainChecked noiseGain
  split
  · rfl
  · split
    · rename_i hlt
      have hD : s.cfg.noiseBoostDuration ≠ 0 := by
        rcases hdiv with h | h
        · exact h
        · intro h0
          rw [h0] at hlt
          exact absurd hlt (not_lt.mpr h)
      rw [if_neg hD]
    · split <;> rfl

/-- The counterexample to C15.  First, the gain is not computed from the time elapsed since
the last Uniform reset but from the member `elapsedSinceUniformReset`, refreshed at the
start of the tick only: in the tick at time 31 on `Sample.lostState` the watchdog requests a
Uniform reset (`lastUniformReset` becomes 31, the time of the tick), so no time has elapsed
since the last Uniform reset when the filter step runs and the claimed gain is the boost
`maxNoiseBoost = 10`, yet the gain handed to the filter step is the consistency-based
`consistencyMaxNoise = 5`.  Second, on `Sample.backwardsState` (`noiseBoostDuration = 0`,
elapsed time `-1`) the boost branch is entered and divides by zero: no gain is computed. -/
theorem watchdog_tick_gain_is_not_the_boost :
    (∃ (t0 t1 : ℚ) (pre : List Call) (move : Point2f) (orientationChange dt : ℚ)
        (obs : List Observation),
      issuedCalls Sample.lostState
          (step Sample.externals (Sample.env 31 true false) Sample.lostState) =
        pre ++ [Call.odometryDiff t0 t1, Call.resize 5000,
          Call.filterStep ⟨move, orientationChange, 5⟩ obs dt,
          Call.importFiltersResults, Call.publishToLoc, Call.rhioPush]) ∧
    (step Sample.externals (Sample.env 31 true false) Sample.lostState).lastUniformReset = 31 ∧
    (step Sample.externals (Sample.env 31 true false) Sample.lostState).currTS = 31 ∧
    claimedNoiseGain Config.default.odometryMode Config.default.consistencyEnabled
      (diffSec
        (step Sample.externals (Sample.env 31 true false) Sample.lostState).lastUniformReset
        (step Sample.externals (Sample.env 31 true false) Sample.lostState).currTS)
      Config.default.noiseBoostDuration Config.default.maxNoiseBoost
      (step Sample.externals (Sample.env 31 true false) Sample.lostState).consistencyScore
      Config.default.consistencyMaxNoise = 10 ∧
    boostBranchTaken Sample.backwardsState = true ∧
    noiseGainChecked Sample.backwardsState = none := by
  have hq := step_quiet Sample.externals (Sample.env 31 true false) Sample.lostState
    rfl rfl rfl rfl rfl rfl
  have hfire := hq.2.2.1 (by
    norm_num [diffSec, Sample.lostState, Sample.initial, LocalisationBinding.construct,
      Sample.env])
  obtain ⟨hscore, hlast, _⟩ := hfire
  have hlast' : (step Sample.externals (Sample.env 31 true false)
      Sample.lostState).lastUniformReset = 31 := hlast
  have hcurr : (step Sample.externals (Sample.env 31 true false)
      Sample.lostState).currTS = 31 := by
    rw [step_of_estimate _ _ _ (by rfl) (by rfl) (fun hforb => Bool.noConfusion hforb.1)]
    have e : (stepEstimate Sample.externals (Sample.env 31 true false)
          (tickStart (Sample.env 31 true false) Sample.lostState)).currTS =
        (updateConsistency Sample.externals (Sample.env 31 true false)
          (tickObservations Sample.externals (Sample.env 31 true false)
            { tickStart (Sample.env 31 true false) Sample.lostState with isForbidden := false })
          { tickStart (Sample.env 31 true false) Sample.lostState with
            isForbidden := false }).currTS := rfl
    rw [e, (updateConsistency_frame _ _ _ _).2.2.2.2.1]
    rfl
  refine ⟨?_, hlast', hcurr, ?_, ?_, ?_⟩
  · obtain ⟨t0, t1, pre, f0, u, hcalls, _, ⟨hcfg, hel, hsc⟩, _⟩ :=
      step_estimate_filter Sample.externals (Sample.env 31 true false) Sample.lostState
        (by rfl) (by rfl) (fun hforb => Bool.noConfusion hforb.1)
    have hgain : noiseGain u = 5 := by
      unfold noiseGain
      rw [hcfg, hel, hsc, hscore]
      norm_num [diffSec, Sample.lostState, Sample.initial, LocalisationBinding.construct,
        Sample.env, Config.default]
    rw [hgain] at hcalls
    exact ⟨t0, t1, pre, _, _, _, _, hcalls⟩
  · rw [hlast', hcurr, hscore]
    norm_num [claimedNoiseGain, diffSec, Config.default]
  · simp [boostBranchTaken, Sample.backwardsState, Sample.initial,
      LocalisationBinding.construct, Config.default]
  · simp [noiseGainChecked, Sample.backwardsState, Sample.initial,
      LocalisationBinding.construct, Config.default]

/-- The amended C15: for every state in which the source does not divide by zero
(`noiseBoostDuration ≠ 0` or `elapsedSinceUniformReset ≥ 0`), the process-noise gain that
`updateFilter` computes and hands to the filter step is `10^-6` in odometry-only mode;
otherwise, while `e < D` for the member `e = elapsedSinceUniformReset` and
`D = noiseBoostDuration`, the interpolation `maxNoiseBoost * (1 - e / D) + e / D`, which is
`maxNoiseBoost` at `e = 0` and differs from 1 by `(maxNoiseBoost - 1) * (D - e) / D`;
otherwise `1 + (1 - consistencyScore) * (consistencyMaxNoise - 1)` when the watchdog is
enabled, and 1 when it is not.  In a tick that reaches the estimation stage, `e` is the time
from the last Uniform reset requested before the tick to the time of the tick, the
parameters are the pulled ones and the score is the one left by the consistency update of
the tick; a reset requested by the watchdog during the tick does not restart `e`. -/
theorem updateFilter_noise_gain (E : Externals P) (env : TickEnv) (obs : List Observation)
    (s : LocalisationBinding P)
    (hdiv : s.cfg.noiseBoostDuration ≠ 0 ∨ 0 ≤ s.elapsedSinceUniformReset) :
    noiseGainChecked s =
      some (claimedNoiseGain s.cfg.odometryMode s.cfg.consistencyEnabled
        s.elapsedSinceUniformReset s.cfg.noiseBoostDuration s.cfg.maxNoiseBoost
        s.consistencyScore s.cfg.consistencyMaxNoise) ∧
    (∃ (t0 t1 : ℚ) (move : Point2f) (orientationChange dt : ℚ),
      issuedCalls s (updateFilter E env obs s) =
        [Call.odometryDiff t0 t1, Call.resize s.cfg.nb_particles_ff,
          Call.filterStep
            ⟨move, orientationChange,
              claimedNoiseGain s.cfg.odometryMode s.cfg.consistencyEnabled
                s.elapsedSinceUniformReset s.cfg.noiseBoostDuration s.cfg.maxNoiseBoost
                s.consistencyScore s.cfg.consistencyMaxNoise⟩
            obs dt] ∧
      (updateFilter E env obs s).field_filter =
        (s.field_filter.resize E.filter s.cfg.nb_particles_ff).step E.filter s.customReset
          ⟨move, orientationChange,
            claimedNoiseGain s.cfg.odometryMode s.cfg.consistencyEnabled
              s.elapsedSinceUniformReset s.cfg.noiseBoostDuration s.cfg.maxNoiseBoost
              s.consistencyScore s.cfg.consistencyMaxNoise⟩
          obs dt) ∧
    (s.cfg.odometryMode = true → noiseGainChecked s = some (1 / 1000000)) ∧
    (s.cfg.odometryMode = false →
      s.elapsedSinceUniformReset < s.cfg.noiseBoostDuration →
      s.cfg.noiseBoostDuration ≠ 0 ∧
      noiseGainChecked s = some
        (s.cfg.maxNoiseBoost * (1 - s.elapsedSinceUniformReset / s.cfg.noiseBoostDuration)
          + s.elapsedSinceUniformReset / s.cfg.noiseBoostDuration) ∧
      (s.elapsedSinceUniformReset = 0 → noiseGainChecked s = some s.cfg.maxNoiseBoost) ∧
      noiseGain s - 1 =
        (s.cfg.maxNoiseBoost - 1) * (s.cfg.noiseBoostDuration - s.elapsedSinceUniformReset)
          / s.cfg.noiseBoostDuration) ∧
    (s.cfg.odometryMode = false →
      ¬ s.elapsedSinceUniformReset < s.cfg.noiseBoostDuration →
      s.cfg.consistencyEnabled = true →
      noiseGainChecked s =
        some (1 + (1 - s.consistencyScore) * (s.cfg.consistencyMaxNoise - 1))) ∧
    (s.cfg.odometryMode = false →
      ¬ s.elapsedSinceUniformReset < s.cfg.noiseBoostDuration →
      s.cfg.consistencyEnabled = false → noiseGainChecked s = some 1) ∧
    (∀ s0 : LocalisationBinding P,
      refereeAllowsToPlay env = true → env.isFallen = false →
      ¬ (s0.isForbidden = true ∧ diffSec s0.lastForbidden env.nowTS < 10 ∧
        (s0.field_filter.resetType = ResetType.None ∨
          s0.field_filter.resetType = ResetType.Uniform)) →
      ∃ (t0 t1 : ℚ) (pre : List Call) (move : Point2f) (orientationChange dt : ℚ),
        issuedCalls s0 (step E env s0) =
          pre ++ [Call.odometryDiff t0 t1, Call.resize env.rhio.nb_particles_ff,
            Call.filterStep
              ⟨move, orientationChange,
                claimedNoiseGain env.rhio.odometryMode env.rhio.consistencyEnabled
                  (diffSec s0.lastUniformReset env.nowTS) env.rhio.noiseBoostDuration
                  env.rhio.maxNoiseBoost (step E env s0).consistencyScore
                  env.rhio.consistencyMaxNoise⟩
              (tickObservations E env (tickStart env s0)) dt,
            Call.importFiltersResults, Call.publishToLoc, Call.rhioPush]) := by
  have hchk := noiseGainChecked_eq s hdiv
  have hne : s.elapsedSinceUniformReset < s.cfg.noiseBoostDuration →
      s.cfg.noiseBoostDuration ≠ 0 := by
    intro he
    rcases hdiv with h | h
    · exact h
    · intro h0
      rw [h0] at he
      exact absurd he (not_lt.mpr h)
  refine ⟨?_, ?_, ?_, ?_, ?_, ?_, ?_⟩
  · rw [hchk, noiseGain_eq_claimed]
  · obtain ⟨t0, t1, h1, h2⟩ := updateFilter_issuedCalls E env obs s
    rw [noiseGain_eq_claimed] at h1 h2
    exact ⟨t0, t1, _, _, _, h1, h2⟩
  · intro h
    rw [hchk]
    simp [noiseGain, h]
  · intro h he
    have hD := hne he
    refine ⟨hD, ?_, ?_, ?_⟩
    · rw [hchk]
      simp [noiseGain, h, he]
    · intro h0
      rw [hchk]
      simp only [noiseGain, h, he, Bool.false_eq_true, if_false, if_true]
      rw [h0]
      simp
    · simp only [noiseGain, h, he, Bool.false_eq_true, if_false, if_true]
      field_simp
      ring
  · intro h he hc
    rw [hchk]
    simp [noiseGain, h, he, hc]
  · intro h he hc
    rw [hchk]
    simp [noiseGain, h, he, hc]
  · intro s0 h hf hd
    obtain ⟨t0, t1, pre, f0, u, hcalls, _, ⟨hcfg, hel, hsc⟩, _⟩ :=
      step_estimate_filter E env s0 h hf hd
    rw [noiseGain_eq_claimed, hcfg, hel, hsc] at hcalls
    exact ⟨t0, t1, pre, _, _, _, hcalls⟩

/-- Witness for the amended C15: on the constructed state (no time elapsed since the last
Uniform reset) the gain is `maxNoiseBoost = 10`; 31 s later, outside the boost window and
with a score of 0, it is `consistencyMaxNoise = 5`. -/
theorem updateFilter_noise_gain_witness :
    (Sample.initial.cfg.noiseBoostDuration ≠ 0 ∨ 0 ≤ Sample.initial.elapsedSinceUniformReset) ∧
    (Sample.lostState.cfg.noiseBoostDuration ≠ 0 ∨
      0 ≤ Sample.lostState.elapsedSinceUniformReset) ∧
    noiseGainChecked Sample.initial = some 10 ∧
    noiseGainChecked Sample.lostState = some 5 := by
  have hd1 : Sample.initial.cfg.noiseBoostDuration ≠ 0 ∨
      0 ≤ Sample.initial.elapsedSinceUniformReset :=
    Or.inl (by norm_num [Sample.initial, LocalisationBinding.construct, Config.default])
  have hd2 : Sample.lostState.cfg.noiseBoostDuration ≠ 0 ∨
      0 ≤ Sample.lostState.elapsedSinceUniformReset :=
    Or.inl (by norm_num [Sample.lostState, Sample.initial, LocalisationBinding.construct,
      Config.default])
  have h1 := ((updateFilter_noise_gain Sample.externals (Sample.env 1 true false) []
    Sample.initial hd1).2.2.2.1 rfl
    (by norm_num [Sample.initial, LocalisationBinding.construct, Config.default])).2.2.1 rfl
  have h2 := (updateFilter_noise_gain Sample.externals (Sample.env 31 true false) []
    Sample.lostState hd2).2.2.2.2.1 rfl
    (by norm_num [Sample.lostState, Sample.initial, LocalisationBinding.construct,
      Config.default]) rfl
  refine ⟨hd1, hd2, ?_, ?_⟩
  · rw [h1]; rfl
  · rw [h2]
    norm_num [Sample.lostState, Sample.initial, LocalisationBinding.construct, Config.default]

end Vision
